import Mathlib

/-!
# Fluid Detailing backend: availability, booking and assistant handlers

A shallow embedding of `backend/server.js`:

* `GET /api/availability/:date` (the slot generation loop, the blocked-date
  and business-hours lookups, the weekday computed by `new Date(date).getDay()`),
* `POST /api/bookings` (required fields, service lookup, totals, conflict
  check, insert),
* `POST /api/admin/ai-assistant` (the command line of the generation, the
  action pattern, `JSON.parse`, the `switch` on the action and the five
  `execute...` handlers).

Conventions of the embedding.

* JavaScript strings are `String`; the built-ins that inspect them
  (`split`, `parseInt`, `padStart`, `trim`, `match`, `replace`) work on the
  list of characters.
* JavaScript numbers that hold integers are `Int`; `NaN` is `none`.  A number
  read by `JSON.parse` is an exact decimal.
* A table of the relational store is the list of its rows.  A `DATE` or
  `TIME` value is carried as the text in which the store writes it
  (`YYYY-MM-DD`, `HH:MM:SS`).  The date and time of a booking request and the
  date of a `BLOCK_DATE` directive reach the store as texts of parameters,
  which it reads through the input conversion of the column, see
  `ColumnInput`; two values of a column are equal when their texts are.  The
  date of the availability request is compared as it is given.  The driver
  hands a `TIME` to JavaScript as that text and a `DATE` as a `Date` object,
  which none of the handlers below inspects.  Nullable columns are `Option`.
  A booking `status` is never `NULL`: the insert leaves the column to its
  default and the admin update writes truthy values only.  Of the size
  limits of the columns only that of `blocked_dates.reason` is modelled, see
  `reasonParam`; the timestamp columns are not modelled.
* Money (`DECIMAL(10, 2)`) is an integer number of cents, added exactly.
* What the assistant takes from outside the program (the generation command,
  the input conversions of the store for numbers, the lower-casing of
  strings) is a parameter, see `Env`; the business context snapshot is an
  input of the dispatcher.
-/

namespace FluidDetailing

/-! ## JavaScript built-ins -/

/-- The pieces of `s.split(':')`: the text between consecutive colons. -/
def splitColon : List Char → List (List Char)
  | [] => [[]]
  | c :: cs =>
    if c = ':' then [] :: splitColon cs
    else
      match splitColon cs with
      | [] => [[c]]
      | p :: ps => (c :: p) :: ps

/-- White space skipped by `parseInt` before the number. -/
def isJsWhiteSpace (c : Char) : Bool :=
  let n := c.toNat
  n = 9 || n = 10 || n = 11 || n = 12 || n = 13 || n = 32 || n = 160 ||
  n = 5760 || (8192 ≤ n && n ≤ 8202) || n = 8232 || n = 8233 || n = 8239 ||
  n = 8287 || n = 12288 || n = 65279

/-- Value of a character as a digit of the given radix, if it is one. -/
def digitValue (radix : Nat) (c : Char) : Option Nat :=
  let n := c.toNat
  let v : Option Nat :=
    if 48 ≤ n ∧ n ≤ 57 then some (n - 48)
    else if 97 ≤ n ∧ n ≤ 122 then some (n - 87)
    else if 65 ≤ n ∧ n ≤ 90 then some (n - 55)
    else none
  match v with
  | some d => if d < radix then some d else none
  | none => none

/-- The leading run of digits, as digit values. -/
def takeDigits (radix : Nat) : List Char → List Nat
  | [] => []
  | c :: cs =>
    match digitValue radix c with
    | some d => d :: takeDigits radix cs
    | none => []

/-- Number denoted by a list of digit values, most significant first. -/
def digitsToNat (radix : Nat) (ds : List Nat) : Nat :=
  ds.foldl (fun acc d => acc * radix + d) 0

/-- Model of `parseInt(s)` with no radix argument: leading white space, an
optional sign, an optional `0x`, then the longest run of digits; `none` is `NaN`. -/
def parseInt (s : List Char) : Option Int :=
  let s1 := s.dropWhile isJsWhiteSpace
  let signed : Bool × List Char :=
    match s1 with
    | '-' :: r => (true, r)
    | '+' :: r => (false, r)
    | r => (false, r)
  let based : Nat × List Char :=
    match signed.2 with
    | '0' :: 'x' :: r => (16, r)
    | '0' :: 'X' :: r => (16, r)
    | r => (10, r)
  let ds := takeDigits based.1 based.2
  if ds.isEmpty then none
  else
    let v : Int := (digitsToNat based.1 ds : Nat)
    some (if signed.1 then -v else v)

/-- The value of `parseInt(parts[i])`, where a missing part is `undefined` and parses to `NaN`. -/
def parseIntAt (parts : List (List Char)) (i : Nat) : Option Int :=
  match parts.get? i with
  | some p => parseInt p
  | none => none

/-- Model of `String(n)` for an integer `n`. -/
def numberToString (n : Int) : List Char :=
  if n < 0 then '-' :: Nat.toDigits 10 n.natAbs else Nat.toDigits 10 n.toNat

/-- Model of `s.padStart(2, '0')`. -/
def padStart2 (s : List Char) : List Char :=
  List.replicate (2 - s.length) '0' ++ s

/-- The test `minute < openMinute` in JavaScript: false when the right side is `NaN`. -/
def jsLt (a : Int) (b : Option Int) : Bool :=
  match b with
  | some v => decide (a < v)
  | none => false

/-- The test `minute >= closeMinute` in JavaScript: false when the right side is `NaN`. -/
def jsGe (a : Int) (b : Option Int) : Bool :=
  match b with
  | some v => decide (v ≤ a)
  | none => false

/-! ## Data model -/

/-- A row of `blocked_dates`. -/
structure BlockedDate where
  date : String
  reason : Option String
  deriving DecidableEq

/-- A row of `business_hours`. -/
structure BusinessHours where
  day_of_week : Int
  is_open : Option Bool
  open_time : Option String
  close_time : Option String
  deriving DecidableEq

/-- A row of `services`; `price` is in cents. -/
structure Service where
  id : Int
  name : String
  duration_minutes : Int
  price : Option Int
  is_active : Option Bool
  deriving DecidableEq

/-- A row of `bookings`; `total_price` is in cents, `booking_date` and
`booking_time` are the texts in which the store writes the values of the
columns. -/
structure Booking where
  id : Int
  customer_name : String
  customer_email : String
  customer_phone : String
  service_ids : List Int
  booking_date : String
  booking_time : String
  total_duration : Int
  total_price : Int
  payment_method : String
  payment_status : String
  status : String
  notes : String
  deriving DecidableEq

/-- The relational store: one list of rows per table, and the next value of
the `bookings.id` sequence. -/
structure Store where
  services : List Service
  bookings : List Booking
  business_hours : List BusinessHours
  blocked_dates : List BlockedDate
  next_booking_id : Int
  deriving DecidableEq

/-- One entry of the `slots` array of the availability response. -/
structure Slot where
  time : String
  available : Bool
  deriving DecidableEq

/-! ## Slot generation (the loop of `GET /api/availability/:date`) -/

/-- The template literal building `timeSlot` from `hour` and `minute`. -/
def timeSlot (hour minute : Int) : String :=
  String.mk (padStart2 (numberToString hour) ++ ':' :: padStart2 (numberToString minute))

/-- The `for (const booking of bookingsResult.rows)` loop: `isAvailable` stays
true unless some row has `timeSlot === bookingTime`. -/
def isAvailable (slot : String) : List Booking → Bool
  | [] => true
  | booking :: rest =>
    if slot = booking.booking_time then false else isAvailable slot rest

/-- The inner `for (minute ...)` loop of one hour, over the minutes still to
visit: `continue` skips to the next minute, `break` leaves the loop. -/
def minuteLoop (openHour closeHour : Int) (openMinute closeMinute : Option Int)
    (rows : List Booking) (hour : Int) : List Int → List Slot
  | [] => []
  | minute :: rest =>
    if hour = openHour ∧ jsLt minute openMinute = true then
      minuteLoop openHour closeHour openMinute closeMinute rows hour rest
    else if hour = closeHour - 1 ∧ jsGe minute closeMinute = true then []
    else
      { time := timeSlot hour minute, available := isAvailable (timeSlot hour minute) rows } ::
        minuteLoop openHour closeHour openMinute closeMinute rows hour rest

/-- The values `minute` takes in `for (let minute = 0; minute < 60; minute += 30)`. -/
def minuteSteps : List Int := [0, 30]

/-- The outer `for (let hour = openHour; hour < closeHour; hour++)` loop from
the current `hour`; `fuel` bounds the number of iterations. -/
def hourLoop (openHour closeHour : Int) (openMinute closeMinute : Option Int)
    (rows : List Booking) : Nat → Int → List Slot
  | 0, _ => []
  | fuel + 1, hour =>
    if hour < closeHour then
      minuteLoop openHour closeHour openMinute closeMinute rows hour minuteSteps ++
        hourLoop openHour closeHour openMinute closeMinute rows fuel (hour + 1)
    else []

/-- Slot generation from the texts of `open_time` and `close_time` and the
rows of the day's bookings.  The outer loop runs `closeHour - openHour` times
at most, which is the fuel given to it; a `NaN` hour makes its test false. -/
def generateSlots (open_time close_time : String) (rows : List Booking) : List Slot :=
  let openHour := parseIntAt (splitColon open_time.data) 0
  let openMinute := parseIntAt (splitColon open_time.data) 1
  let closeHour := parseIntAt (splitColon close_time.data) 0
  let closeMinute := parseIntAt (splitColon close_time.data) 1
  match openHour, closeHour with
  | some oh, some ch => hourLoop oh ch openMinute closeMinute rows (ch - oh).toNat oh
  | _, _ => []

/-! ## The weekday of `new Date(date).getDay()` -/

/-- Milliseconds per day (`msPerDay`). -/
def msPerDay : Int := 86400000

/-- A decimal number written with digits only. -/
def readDecimal (cs : List Char) : Option Nat :=
  if cs.all Char.isDigit then some (digitsToNat 10 (cs.map (fun c => c.toNat - 48))) else none

/-- Leap years of the proleptic Gregorian calendar (`DaysInYear(y) = 366`). -/
def isLeapYear (y : Int) : Bool :=
  (y % 4 = 0 && y % 100 ≠ 0) || y % 400 = 0

/-- Number of days of month `m` (1 to 12) of year `y`. -/
def daysInMonth (y : Int) (m : Nat) : Nat :=
  match m with
  | 2 => if isLeapYear y then 29 else 28
  | 4 => 30
  | 6 => 30
  | 9 => 30
  | 11 => 30
  | _ => 31

/-- Day number of the first day of year `y`, counted from 1970-01-01 (`DayFromYear`). -/
def dayFromYear (y : Int) : Int :=
  365 * (y - 1970) + (y - 1969) / 4 - (y - 1901) / 100 + (y - 1601) / 400

/-- Days of year `y` that precede month `m` (1 to 12). -/
def daysBeforeMonth (y : Int) (m : Nat) : Nat :=
  ((List.range (m - 1)).map (fun k => daysInMonth y (k + 1))).sum

/-- Day number of the calendar date, counted from 1970-01-01 (`MakeDay`). -/
def makeDay (y : Int) (m d : Nat) : Int :=
  dayFromYear y + (daysBeforeMonth y m : Nat) + (d : Nat) - 1

/-- Time value of `new Date(s)` for a date-only text `YYYY-MM-DD`: midnight UTC
at the start of that day.  A text that is not a calendar date in this form
gives `none` (an invalid date); other date formats are outside the model. -/
def dateParse (s : List Char) : Option Int :=
  match s with
  | [y1, y2, y3, y4, '-', m1, m2, '-', d1, d2] =>
    match readDecimal [y1, y2, y3, y4], readDecimal [m1, m2], readDecimal [d1, d2] with
    | some y, some m, some d =>
      if 1 ≤ m ∧ m ≤ 12 ∧ 1 ≤ d ∧ d ≤ daysInMonth y m then some (makeDay y m d * msPerDay)
      else none
    | _, _, _ => none
  | _ => none

/-- Weekday of a time value (`WeekDay(t)`), 0 = Sunday. -/
def weekDay (t : Int) : Int :=
  (t / msPerDay + 4) % 7

/-- Model of `new Date(date).getDay()` on a server whose local time is
`tzMinutes` minutes ahead of UTC: the weekday of the local time.  `none` is
the `NaN` of an invalid date. -/
def getDay (tzMinutes : Int) (date : String) : Option Int :=
  match dateParse date.data with
  | some t => some (weekDay (t + tzMinutes * 60000))
  | none => none

/-- Day of the week of a calendar date by the tabular congruence of the
Gregorian calendar, 0 = Sunday: the reference the handler is compared with. -/
def calendarWeekday (y : Int) (m d : Nat) : Int :=
  let t : List Int := [0, 3, 2, 5, 0, 3, 5, 1, 4, 6, 2, 4]
  let y1 : Int := if m < 3 then y - 1 else y
  (y1 + y1 / 4 - y1 / 100 + y1 / 400 + t.getD (m - 1) 0 + (d : Nat)) % 7

/-! ## `GET /api/availability/:date` -/

/-- The JSON bodies the availability handler sends. -/
inductive AvailabilityResponse where
  /-- The body `{ available: false, reason }`. -/
  | unavailable (reason : String)
  /-- The body `{ available: true, date, slots }`. -/
  | open (date : String) (slots : List Slot)
  /-- Status 500, the handler caught an exception. -/
  | failed
  deriving DecidableEq

/-- The `available` field of a response body, if it has one. -/
def AvailabilityResponse.available : AvailabilityResponse → Option Bool
  | .unavailable _ => some false
  | .open _ _ => some true
  | .failed => none

/-- The slots a response offers: those of its `slots` field, none when the
body has no such field. -/
def AvailabilityResponse.slotList : AvailabilityResponse → List Slot
  | .open _ slots => slots
  | _ => []

/-- The rows of `SELECT * FROM blocked_dates WHERE date = $1`. -/
def queryBlockedDates (store : Store) (date : String) : List BlockedDate :=
  store.blocked_dates.filter (fun r => r.date = date)

/-- The rows of `SELECT * FROM business_hours WHERE day_of_week = $1`. -/
def queryBusinessHours (store : Store) (dayOfWeek : Int) : List BusinessHours :=
  store.business_hours.filter (fun r => r.day_of_week = dayOfWeek)

/-- The rows of `SELECT ... FROM bookings WHERE booking_date = $1 AND status != 'cancelled'`. -/
def queryBookingsOn (store : Store) (date : String) : List Booking :=
  store.bookings.filter (fun b => b.booking_date = date ∧ b.status ≠ "cancelled")

/-- The value of `text || fallback`: the fallback when the text is null or empty. -/
def textOr (text : Option String) (fallback : String) : String :=
  match text with
  | some r => if r = "" then fallback else r
  | none => fallback

/-- The handler of `GET /api/availability/:date` on a server `tzMinutes`
ahead of UTC.  A `NaN` weekday makes the business-hours query throw, a null
`open_time` or `close_time` of an open day makes `split` throw; both end in
the handler's `catch`. -/
def availabilityHandler (tzMinutes : Int) (store : Store) (date : String) :
    AvailabilityResponse :=
  match queryBlockedDates store date with
  | blocked :: _ => .unavailable (textOr blocked.reason "Date unavailable")
  | [] =>
    match getDay tzMinutes date with
    | none => .failed
    | some dayOfWeek =>
      match queryBusinessHours store dayOfWeek with
      | [] => .unavailable "Closed on this day"
      | hours :: _ =>
        if hours.is_open ≠ some true then .unavailable "Closed on this day"
        else
          match hours.open_time, hours.close_time with
          | some open_time, some close_time =>
            .open date (generateSlots open_time close_time (queryBookingsOn store date))
          | _, _ => .failed

/-! ## The `DATE` and `TIME` columns -/

/-- The two decimal digits of a number below 100. -/
def twoDigits (n : Nat) : List Char :=
  [Char.ofNat (48 + n / 10), Char.ofNat (48 + n % 10)]

/-- The text `HH:MM:SS` of hour `h`, minute `m` and second `s`. -/
def clockTextWithSeconds (h m s : Nat) : String :=
  String.mk (twoDigits h ++ ':' :: (twoDigits m ++ ':' :: twoDigits s))

/-- A time text of the form `HH:MM:SS`, the form in which a `TIME` column is read. -/
def HasSecondsForm (t : String) : Prop :=
  ∃ h m s, h < 24 ∧ m < 60 ∧ s < 60 ∧ t = clockTextWithSeconds h m s

/-- The number written by two decimal digits, if both characters are digits. -/
def digitPair (a b : Char) : Option Nat :=
  if a.isDigit ∧ b.isDigit then some ((a.toNat - 48) * 10 + (b.toNat - 48)) else none

/-- The text in which a column of type `TIME` gives back a time of day that
was written to it as `HH:MM` or `HH:MM:SS`, from `00:00` to `23:59:59`:
always `HH:MM:SS`, with the seconds `00` when none were written.  `none` for
every other text. -/
def plainTime (text : String) : Option String :=
  match text.data with
  | [a, b, ':', c, d] =>
    match digitPair a b, digitPair c d with
    | some h, some m => if h < 24 ∧ m < 60 then some (clockTextWithSeconds h m 0) else none
    | _, _ => none
  | [a, b, ':', c, d, ':', e, f] =>
    match digitPair a b, digitPair c d, digitPair e f with
    | some h, some m, some s =>
      if h < 24 ∧ m < 60 ∧ s < 60 then some (clockTextWithSeconds h m s) else none
    | _, _, _ => none
  | _ => none

/-- Whether the text is `YYYY-MM-DD` for a day of the calendar, from the year
0001 on: the text in which a column of type `DATE` gives back that day. -/
def isPlainDate (text : String) : Bool :=
  match text.data with
  | [y1, y2, y3, y4, '-', m1, m2, '-', d1, d2] =>
    match readDecimal [y1, y2, y3, y4], readDecimal [m1, m2], readDecimal [d1, d2] with
    | some y, some m, some d =>
      decide (1 ≤ y ∧ 1 ≤ m ∧ m ≤ 12 ∧ 1 ≤ d ∧ d ≤ daysInMonth y m)
    | _, _, _ => false
  | _ => false

/-- The input conversions of the store for the texts of `DATE` and `TIME`
parameters other than `YYYY-MM-DD`, `HH:MM` and `HH:MM:SS`: the text in which
the column gives back the value the store reads from the text, `none` when
the store rejects the text. -/
structure ColumnInput where
  castDate : String → Option String
  castTime : String → Option String

/-- The text in which a `DATE` column gives back the date the store reads
from the text of a parameter, `none` when the store rejects the text.  A text
`YYYY-MM-DD` of a calendar day is given back as it is. -/
def dateColumn (input : ColumnInput) (text : String) : Option String :=
  if isPlainDate text then some text else input.castDate text

/-- The text in which a `TIME` column gives back the time of day the store
reads from the text of a parameter, `none` when the store rejects the text.
The texts `HH:MM` and `HH:MM:SS` are given back as `HH:MM:SS`. -/
def timeColumn (input : ColumnInput) (text : String) : Option String :=
  match plainTime text with
  | some stored => some stored
  | none => input.castTime text

/-- A sample of the input conversions: every text other than `YYYY-MM-DD`,
`HH:MM` and `HH:MM:SS` is rejected. -/
def sampleInput : ColumnInput :=
  { castDate := fun _ => none
    castTime := fun _ => none }

/-! ## `POST /api/bookings` -/

/-- The fields read from the request body; `none` is an absent field. -/
structure BookingRequest where
  customer_name : Option String
  customer_email : Option String
  customer_phone : Option String
  service_ids : Option (List Int)
  booking_date : Option String
  booking_time : Option String
  payment_method : Option String
  notes : Option String
  deriving DecidableEq

/-- The responses of the booking handler. -/
inductive BookingResponse where
  /-- Status 400, `Missing required fields`. -/
  | missingFields
  /-- Status 400, `Invalid service selection`. -/
  | invalidSelection
  /-- Status 409, `Time slot no longer available`. -/
  | slotTaken
  /-- Success, with the inserted row. -/
  | created (booking : Booking)
  /-- Status 500, the handler caught an exception. -/
  | failed
  deriving DecidableEq

/-- Truthiness of a text field: present and not empty. -/
def truthy (field : Option String) : Bool :=
  match field with
  | some s => decide (s ≠ "")
  | none => false

/-- The rows of `SELECT * FROM services WHERE id = ANY($1)`. -/
def queryServices (store : Store) (service_ids : List Int) : List Service :=
  store.services.filter (fun s => s.id ∈ service_ids)

/-- The rows of the conflict check
`SELECT * FROM bookings WHERE booking_date = $1 AND booking_time = $2 AND status != 'cancelled'`,
`none` when the store rejects the text of the date or of the time and the
query throws.  The store reads `$1` as a date and `$2` as a time of day and
compares them with the values of the columns: a row matches when it holds the
column texts of these two values. -/
def queryConflicts (input : ColumnInput) (store : Store) (booking_date booking_time : String) :
    Option (List Booking) :=
  match dateColumn input booking_date, timeColumn input booking_time with
  | some date, some time =>
    some (store.bookings.filter
      (fun b => b.booking_date = date ∧ b.booking_time = time ∧ b.status ≠ "cancelled"))
  | _, _ => none

/-- The sum `rows.reduce((sum, service) => sum + service.duration_minutes, 0)`. -/
def totalDuration (rows : List Service) : Int :=
  rows.foldl (fun sum service => sum + service.duration_minutes) 0

/-- The sum `rows.reduce((sum, service) => sum + parseFloat(service.price || 0), 0)`, in cents. -/
def totalPrice (rows : List Service) : Int :=
  rows.foldl (fun sum service => sum + service.price.getD 0) 0

/-- The handler of `POST /api/bookings`: the response and the store after it.
A query that throws, because the store rejects the text of the date or of
the time, ends in the `catch` of the handler.  The inserted row holds the
date and the time as their columns give them back.  The size limits of the
text columns of `bookings` are not modelled: the insert of a text the store
would refuse for them counts as done. -/
def createBooking (input : ColumnInput) (store : Store) (req : BookingRequest) :
    BookingResponse × Store :=
  match req.service_ids, req.booking_date, req.booking_time with
  | some service_ids, some booking_date, some booking_time =>
    if !truthy req.customer_name || !truthy req.customer_email || !truthy req.customer_phone
        || booking_date = "" || booking_time = "" then
      (.missingFields, store)
    else
      let rows := queryServices store service_ids
      if rows.isEmpty then (.invalidSelection, store)
      else
        let total_duration := totalDuration rows
        let total_price := totalPrice rows
        match queryConflicts input store booking_date booking_time with
        | none => (.failed, store)
        | some conflicts =>
          if conflicts.length > 0 then (.slotTaken, store)
          else
            match dateColumn input booking_date, timeColumn input booking_time with
            | some date, some time =>
              let booking : Booking :=
                { id := store.next_booking_id
                  customer_name := req.customer_name.getD ""
                  customer_email := req.customer_email.getD ""
                  customer_phone := req.customer_phone.getD ""
                  service_ids := service_ids
                  booking_date := date
                  booking_time := time
                  total_duration := total_duration
                  total_price := total_price
                  payment_method := textOr req.payment_method "cash"
                  payment_status := "pending"
                  status := "confirmed"
                  notes := textOr req.notes "" }
              (.created booking,
                { store with
                  bookings := store.bookings ++ [booking]
                  next_booking_id := store.next_booking_id + 1 })
            | _, _ => (.failed, store)
  | _, _, _ => (.missingFields, store)

/-! ## Sample data: the rows `createTables` seeds -/

/-- The default business hours inserted by `createTables`. -/
def defaultBusinessHours : List BusinessHours :=
  [ { day_of_week := 0, is_open := some false, open_time := none, close_time := none },
    { day_of_week := 1, is_open := some true, open_time := some "09:00", close_time := some "17:00" },
    { day_of_week := 2, is_open := some true, open_time := some "09:00", close_time := some "17:00" },
    { day_of_week := 3, is_open := some true, open_time := some "09:00", close_time := some "17:00" },
    { day_of_week := 4, is_open := some true, open_time := some "09:00", close_time := some "17:00" },
    { day_of_week := 5, is_open := some true, open_time := some "09:00", close_time := some "17:00" },
    { day_of_week := 6, is_open := some true, open_time := some "09:00", close_time := some "15:00" } ]

/-- The default services inserted by `createTables`. -/
def defaultServices : List Service :=
  [ { id := 1, name := "Interior Detailing", duration_minutes := 120, price := some 15000,
      is_active := some true },
    { id := 2, name := "Exterior Detailing", duration_minutes := 90, price := some 12000,
      is_active := some true },
    { id := 3, name := "Ceramic Coating", duration_minutes := 240, price := some 50000,
      is_active := some true } ]

/-- The store right after `createTables`: seeded services and hours, nothing else. -/
def seededStore : Store :=
  { services := defaultServices
    bookings := []
    business_hours := defaultBusinessHours
    blocked_dates := []
    next_booking_id := 1 }

/-- A booking row on 2024-12-25 with the given start time, total duration and status. -/
def sampleBooking (time : String) (duration : Int) (status : String) : Booking :=
  { id := 1
    customer_name := "Ada"
    customer_email := "ada@example.com"
    customer_phone := "555-0100"
    service_ids := [1]
    booking_date := "2024-12-25"
    booking_time := time
    total_duration := duration
    total_price := 15000
    payment_method := "cash"
    payment_status := "pending"
    status := status
    notes := "" }

/-- The row stored for `sampleRequest [1, 1, 7, 3] "2024-12-25" "10:00"` on the seeded store. -/
def sampleCreated : Booking :=
  { id := 1
    customer_name := "Ada"
    customer_email := "ada@example.com"
    customer_phone := "555-0100"
    service_ids := [1, 1, 7, 3]
    booking_date := "2024-12-25"
    booking_time := "10:00:00"
    total_duration := 360
    total_price := 65000
    payment_method := "cash"
    payment_status := "pending"
    status := "confirmed"
    notes := "" }

/-- A complete booking request for the given services, date and time. -/
def sampleRequest (service_ids : List Int) (date time : String) : BookingRequest :=
  { customer_name := some "Ada"
    customer_email := some "ada@example.com"
    customer_phone := some "555-0100"
    service_ids := some service_ids
    booking_date := some date
    booking_time := some time
    payment_method := none
    notes := none }

/-! ## Well-formed clock texts -/

/-- The text `HH:MM` of hour `h` and minute `m`. -/
def clockText (h m : Nat) : String :=
  String.mk (twoDigits h ++ ':' :: twoDigits m)

/-- A well-formed wall-clock text: `s` is `HH:MM` for the hour `h` and minute `m` of a day. -/
def WellFormedTime (s : String) (h m : Nat) : Prop :=
  h < 24 ∧ m < 60 ∧ s = clockText h m

/-- Minutes after midnight denoted by a clock text, read the way the handler
reads `open_time`: the first two colon-separated numbers. -/
def minutesOfDay (s : String) : Option Int :=
  match parseIntAt (splitColon s.data) 0, parseIntAt (splitColon s.data) 1 with
  | some h, some m => some (h * 60 + m)
  | _, _ => none

/-- Chronological order of two clock texts. -/
def earlier (a b : String) : Bool :=
  match minutesOfDay a, minutesOfDay b with
  | some x, some y => decide (x < y)
  | _, _ => false

/-- An open, non-blocked day: `date` has no blocked entry and the first
business-hours row of the weekday the handler computes is open with the
texts `o` and `c` as open and close time. -/
def OpenDay (tzMinutes : Int) (store : Store) (date o c : String) : Prop :=
  queryBlockedDates store date = [] ∧
  ∃ dayOfWeek hours rest,
    getDay tzMinutes date = some dayOfWeek ∧
    queryBusinessHours store dayOfWeek = hours :: rest ∧
    hours.is_open = some true ∧ hours.open_time = some o ∧ hours.close_time = some c

/-- All required fields of a booking request are present (truthy in JavaScript). -/
def RequiredFieldsPresent (req : BookingRequest) : Prop :=
  truthy req.customer_name = true ∧ truthy req.customer_email = true ∧
  truthy req.customer_phone = true ∧ req.service_ids.isSome = true ∧
  truthy req.booking_date = true ∧ truthy req.booking_time = true

instance (req : BookingRequest) : Decidable (RequiredFieldsPresent req) := by
  unfold RequiredFieldsPresent
  infer_instance

instance (s : String) (h m : Nat) : Decidable (WellFormedTime s h m) := by
  unfold WellFormedTime
  infer_instance

/-! ## JSON values and `JSON.parse` -/

/-- A JSON number as the exact decimal `mantissa * 10 ^ exponent`, kept in
lowest terms: zero is `0 * 10 ^ 0` and any other mantissa is no multiple of
ten.  The rounding of such a decimal to a double is not modelled. -/
structure JsonNumber where
  mantissa : Int
  exponent : Int
  deriving DecidableEq

/-- A value produced by `JSON.parse`; the members of an object are kept in
source order, a later member of the same key shadowing an earlier one. -/
inductive Json where
  | null
  | bool (b : Bool)
  | num (n : JsonNumber)
  | str (s : String)
  | arr (elems : List Json)
  | obj (members : List (String × Json))

/-- The double quote character. -/
def dquote : Char := Char.ofNat 34

/-- The backslash character. -/
def backslash : Char := Char.ofNat 92

/-- White space of the JSON grammar: space, tab, line feed, carriage return. -/
def isJsonWhiteSpace (c : Char) : Bool :=
  c.toNat = 32 || c.toNat = 9 || c.toNat = 10 || c.toNat = 13

/-- The text after the leading JSON white space. -/
def skipJsonWhiteSpace (s : List Char) : List Char :=
  s.dropWhile isJsonWhiteSpace

/-- The character a one-letter escape of a JSON string stands for. -/
def simpleEscape (e : Char) : Option Char :=
  if e = dquote then some dquote
  else if e = backslash then some backslash
  else if e = '/' then some '/'
  else if e = 'b' then some (Char.ofNat 8)
  else if e = 'f' then some (Char.ofNat 12)
  else if e = 'n' then some (Char.ofNat 10)
  else if e = 'r' then some (Char.ofNat 13)
  else if e = 't' then some (Char.ofNat 9)
  else none

/-- The code unit written by four hexadecimal digits. -/
def hex4 (a b c d : Char) : Option Nat :=
  match digitValue 16 a, digitValue 16 b, digitValue 16 c, digitValue 16 d with
  | some w, some x, some y, some z => some (((w * 16 + x) * 16 + y) * 16 + z)
  | _, _, _, _ => none

/-- The character of a `\u` escape.  A code unit of the surrogate range
stands for the replacement character U+FFFD: strings of this model hold
Unicode scalar values only, so surrogate pairs are not combined. -/
def unicodeEscape (code : Nat) : Char :=
  if 55296 ≤ code ∧ code ≤ 57343 then Char.ofNat 65533 else Char.ofNat code

/-- The body of a JSON string after its opening quote: the decoded characters
up to the closing quote, and the text after it. -/
def parseJsonString : List Char → Option (List Char × List Char)
  | [] => none
  | c :: rest =>
    if c = dquote then some ([], rest)
    else if c = backslash then
      match rest with
      | [] => none
      | e :: rest2 =>
        if e = 'u' then
          match rest2 with
          | h1 :: h2 :: h3 :: h4 :: rest3 =>
            match hex4 h1 h2 h3 h4, parseJsonString rest3 with
            | some code, some (body, after) => some (unicodeEscape code :: body, after)
            | _, _ => none
          | _ => none
        else
          match simpleEscape e, parseJsonString rest2 with
          | some ch, some (body, after) => some (ch :: body, after)
          | _, _ => none
    else if c.toNat < 32 then none
    else
      match parseJsonString rest with
      | some (body, after) => some (c :: body, after)
      | none => none

/-- The leading run of decimal digits and the text after it. -/
def spanDigits : List Char → List Char × List Char
  | [] => ([], [])
  | c :: rest =>
    if c.isDigit then ((spanDigits rest).1.cons c, (spanDigits rest).2) else ([], c :: rest)

/-- Value of a run of decimal digits. -/
def digitsValue (ds : List Char) : Nat :=
  digitsToNat 10 (ds.map (fun c => c.toNat - 48))

/-- Lowest terms of `mantissa * 10 ^ exponent`; `fuel` bounds the number of
trailing zeros removed. -/
def normalizeDecimal : Nat → Int → Int → JsonNumber
  | 0, m, e => { mantissa := m, exponent := e }
  | fuel + 1, m, e =>
    if m = 0 then { mantissa := 0, exponent := 0 }
    else if m % 10 = 0 then normalizeDecimal fuel (m / 10) (e + 1)
    else { mantissa := m, exponent := e }

/-- The integer part of a JSON number: `0` alone, or digits not starting with `0`. -/
def parseIntegerPart (s : List Char) : Option (List Char × List Char) :=
  match spanDigits s with
  | ([], _) => none
  | ('0' :: more, rest) => if more.isEmpty then some (['0'], rest) else none
  | (ds, rest) => some (ds, rest)

/-- The optional fraction of a JSON number: a dot and at least one digit. -/
def parseFraction (s : List Char) : Option (List Char × List Char) :=
  match s with
  | '.' :: rest =>
    match spanDigits rest with
    | ([], _) => none
    | (ds, after) => some (ds, after)
  | _ => some ([], s)

/-- The optional exponent of a JSON number: `e` or `E`, an optional sign, digits. -/
def parseExponent (s : List Char) : Option (Int × List Char) :=
  let digitsOf (negative : Bool) (t : List Char) : Option (Int × List Char) :=
    match spanDigits t with
    | ([], _) => none
    | (ds, after) =>
      some (if negative then -((digitsValue ds : Nat) : Int) else ((digitsValue ds : Nat) : Int), after)
  let signed (t : List Char) : Option (Int × List Char) :=
    match t with
    | '-' :: u => digitsOf true u
    | '+' :: u => digitsOf false u
    | u => digitsOf false u
  match s with
  | 'e' :: rest => signed rest
  | 'E' :: rest => signed rest
  | _ => some (0, s)

/-- A JSON number at the head of the text, and the text after it. -/
def parseJsonNumber (s : List Char) : Option (JsonNumber × List Char) :=
  let signed : Bool × List Char :=
    match s with
    | '-' :: r => (true, r)
    | r => (false, r)
  match parseIntegerPart signed.2 with
  | none => none
  | some (ints, r1) =>
    match parseFraction r1 with
    | none => none
    | some (fracs, r2) =>
      match parseExponent r2 with
      | none => none
      | some (e, r3) =>
        let m : Int := ((digitsValue (ints ++ fracs) : Nat) : Int)
        some (normalizeDecimal (ints.length + fracs.length) (if signed.1 then -m else m)
          (e - (fracs.length : Int)), r3)

/-- The text after a keyword, when the text starts with it. -/
def stripKeyword (keyword s : List Char) : Option (List Char) :=
  if keyword.isPrefixOf s then some (s.drop keyword.length) else none

mutual
/-- A JSON value at the head of the text (after white space), and the text
after it; `fuel` bounds the number of nested calls. -/
def parseJsonValue : Nat → List Char → Option (Json × List Char)
  | 0, _ => none
  | fuel + 1, s =>
    match skipJsonWhiteSpace s with
    | [] => none
    | c :: rest =>
      if c = '{' then
        match skipJsonWhiteSpace rest with
        | '}' :: after => some (Json.obj [], after)
        | inner =>
          match parseJsonMembers fuel inner with
          | some (ms, after) => some (Json.obj ms, after)
          | none => none
      else if c = '[' then
        match skipJsonWhiteSpace rest with
        | ']' :: after => some (Json.arr [], after)
        | inner =>
          match parseJsonElements fuel inner with
          | some (es, after) => some (Json.arr es, after)
          | none => none
      else if c = dquote then
        match parseJsonString rest with
        | some (body, after) => some (Json.str (String.mk body), after)
        | none => none
      else if c = 't' then (stripKeyword "true".data (c :: rest)).map (fun r => (Json.bool true, r))
      else if c = 'f' then (stripKeyword "false".data (c :: rest)).map (fun r => (Json.bool false, r))
      else if c = 'n' then (stripKeyword "null".data (c :: rest)).map (fun r => (Json.null, r))
      else
        match parseJsonNumber (c :: rest) with
        | some (n, after) => some (Json.num n, after)
        | none => none

/-- The elements of an array after its opening bracket, up to the closing
bracket, and the text after it. -/
def parseJsonElements : Nat → List Char → Option (List Json × List Char)
  | 0, _ => none
  | fuel + 1, s =>
    match parseJsonValue fuel s with
    | none => none
    | some (v, after) =>
      match skipJsonWhiteSpace after with
      | ']' :: rest => some ([v], rest)
      | ',' :: rest =>
        match parseJsonElements fuel rest with
        | some (vs, rest2) => some (v :: vs, rest2)
        | none => none
      | _ => none

/-- The members of an object after its opening brace, up to the closing
brace, and the text after it. -/
def parseJsonMembers : Nat → List Char → Option (List (String × Json) × List Char)
  | 0, _ => none
  | fuel + 1, s =>
    match skipJsonWhiteSpace s with
    | c :: rest =>
      if c = dquote then
        match parseJsonString rest with
        | none => none
        | some (key, after) =>
          match skipJsonWhiteSpace after with
          | ':' :: rest2 =>
            match parseJsonValue fuel rest2 with
            | none => none
            | some (v, after2) =>
              match skipJsonWhiteSpace after2 with
              | '}' :: rest3 => some ([(String.mk key, v)], rest3)
              | ',' :: rest3 =>
                match parseJsonMembers fuel rest3 with
                | some (ms, rest4) => some ((String.mk key, v) :: ms, rest4)
                | none => none
              | _ => none
          | _ => none
      else none
    | [] => none
end

/-- Model of `JSON.parse(text)`: the value of the whole text, `none` when
`JSON.parse` throws a `SyntaxError`.  Every nested call consumes a character
at the latest after one further call, so twice the length is fuel enough. -/
def jsonParse (text : String) : Option Json :=
  match parseJsonValue (2 * text.length + 2) text.data with
  | some (v, rest) => if (skipJsonWhiteSpace rest).isEmpty then some v else none
  | none => none

/-! ## JavaScript values as texts and conditions -/

/-- Property `value.key` of a parsed value that is not null: the last member
of that key of an object, `none` (`undefined`) otherwise.  The keys read by
the handlers name no property of strings, numbers, booleans or arrays. -/
def Json.get (value : Json) (key : String) : Option Json :=
  match value with
  | .obj members => ((members.filter (fun m => m.1 = key)).getLast?).map (fun m => m.2)
  | _ => none

/-- Truthiness of a JavaScript value; `none` is `undefined`. -/
def jsTruthy (value : Option Json) : Bool :=
  match value with
  | none => false
  | some .null => false
  | some (.bool b) => b
  | some (.num n) => decide (n.mantissa ≠ 0)
  | some (.str s) => decide (s ≠ "")
  | some (.arr _) => true
  | some (.obj _) => true

/-- Model of `String(x)` for a number: plain digits when the decimal point
falls within 21 digits, leading zeros down to 10 ^ -6, exponent form beyond. -/
def numberText (x : JsonNumber) : List Char :=
  if x.mantissa = 0 then ['0']
  else
    let digits := Nat.toDigits 10 x.mantissa.natAbs
    let k : Int := digits.length
    let n : Int := k + x.exponent
    let body : List Char :=
      if k ≤ n ∧ n ≤ 21 then digits ++ List.replicate (n - k).toNat '0'
      else if 0 < n ∧ n ≤ 21 then digits.take n.toNat ++ '.' :: digits.drop n.toNat
      else if -6 < n ∧ n ≤ 0 then '0' :: '.' :: (List.replicate (-n).toNat '0' ++ digits)
      else
        let exponentText := (if 0 ≤ n - 1 then '+' else '-') :: Nat.toDigits 10 (n - 1).natAbs
        if digits.length = 1 then digits ++ 'e' :: exponentText
        else digits.take 1 ++ '.' :: (digits.drop 1 ++ 'e' :: exponentText)
    if x.mantissa < 0 then '-' :: body else body

mutual
/-- Model of the text a template literal inserts for a parsed value. -/
def jsonText : Json → List Char
  | .null => "null".data
  | .bool b => if b then "true".data else "false".data
  | .num n => numberText n
  | .str s => s.data
  | .arr elems => joinElements elems
  | .obj _ => "[object Object]".data

/-- Model of `Array.prototype.join(',')`: a null element gives the empty text. -/
def joinElements : List Json → List Char
  | [] => []
  | e :: rest =>
    (match e with
      | .null => []
      | v => jsonText v) ++ (if rest.isEmpty then [] else ',' :: joinElements rest)
end

/-- Text inserted by a template literal for a value that may be `undefined`. -/
def jsText (value : Option Json) : String :=
  match value with
  | some v => String.mk (jsonText v)
  | none => "undefined"

/-- Model of `s.trim()`: white space and line terminators removed at both ends. -/
def jsTrim (s : String) : String :=
  String.mk ((s.data.dropWhile isJsWhiteSpace).reverse.dropWhile isJsWhiteSpace).reverse

/-- Model of `n.toFixed(2)` for an amount of money held in cents. -/
def toFixed2 (cents : Int) : String :=
  String.mk ((if cents < 0 then ['-'] else []) ++
    Nat.toDigits 10 (cents.natAbs / 100) ++ '.' :: twoDigits (cents.natAbs % 100))

/-! ## The action pattern -/

/-- The pattern text `"action"`, quotes included. -/
def actionKeyword : List Char :=
  dquote :: ("action".data ++ [dquote])

/-- Whether `pattern` occurs in `s` as a run of consecutive characters. -/
def occursIn (pattern : List Char) : List Char → Bool
  | [] => pattern.isEmpty
  | c :: rest => pattern.isPrefixOf (c :: rest) || occursIn pattern rest

/-- The text up to and including its last closing brace, `none` without one. -/
def throughLastClose : List Char → Option (List Char)
  | [] => none
  | c :: rest =>
    match throughLastClose rest with
    | some kept => some (c :: kept)
    | none => if c = '}' then some [c] else none

/-- Whether a character is not the opening brace. -/
def notOpenBrace (c : Char) : Bool :=
  decide (c ≠ '{')

/-- Model of `answer.match(/\{.*"action".*\}/s)`, its element 0.  With the
`s` flag a dot matches every character and both stars are greedy, so the
leftmost match starts at the first opening brace and ends at the last closing
brace of the text, and exists when the keyword `"action"` occurs between the
two. -/
def actionMatch (answer : List Char) : Option (List Char) :=
  match answer.dropWhile notOpenBrace with
  | [] => none
  | open_ :: rest =>
    match throughLastClose rest with
    | none => none
    | some span => if occursIn actionKeyword span.dropLast then some (open_ :: span) else none

/-! ## Texts of the prompt templates -/

/-- The part of the assistant prompt after the question: the closing quote
and the fixed description of capabilities and actions. -/
def promptTail : String :=
  "\x22\n\nCAPABILITIES:\n1. BUSINESS INSIGHTS: Analyze data and provide strategic recommendations for growth, pricing, marketing, etc.\n2. CUSTOMER HISTORY: View specific customer booking history and spending patterns\n3. MARKETING: Generate newsletters and promotional content\n4. ACTIONS: Block dates, update prices, generate reports\n\nIf the user requests an action, respond with ONLY a JSON object:\n\x7b\x22action\x22: \x22ACTION_TYPE\x22, \x22params\x22: \x7b...\x7d\x7d\n\nAvailable actions:\n1. Block date: \x7b\x22action\x22: \x22BLOCK_DATE\x22, \x22params\x22: \x7b\x22date\x22: \x22YYYY-MM-DD\x22, \x22reason\x22: \x22text\x22\x7d\x7d\n2. Update service price: \x7b\x22action\x22: \x22UPDATE_SERVICE_PRICE\x22, \x22params\x22: \x7b\x22service_id\x22: NUMBER, \x22price\x22: NUMBER\x7d\x7d\n3. Generate report: \x7b\x22action\x22: \x22GENERATE_REPORT\x22, \x22params\x22: \x7b\x22type\x22: \x22revenue|bookings|services|customers\x22\x7d\x7d\n4. View customer history: \x7b\x22action\x22: \x22VIEW_CUSTOMER\x22, \x22params\x22: \x7b\x22email\x22: \x22customer@email.com\x22\x7d\x7d\n5. Generate newsletter: \x7b\x22action\x22: \x22GENERATE_NEWSLETTER\x22, \x22params\x22: \x7b\x22topic\x22: \x22description\x22, \x22promotion\x22: \x22optional promo details\x22\x7d\x7d\n\nFor business insights/recommendations, analyze the data and provide:\n- Specific, actionable suggestions based on trends\n- Identify opportunities (underperforming services, pricing adjustments, etc.)\n- Marketing strategies based on customer behavior\n- Revenue optimization ideas\n\nBe professional, data-driven, and strategic. Format currency as CAD dollars."

/-- The assistant prompt: `digest` stands for the text the template builds
from the business context, up to the line of the question. -/
def buildPrompt (digest question : String) : String :=
  digest ++ "The business owner is asking you: \x22" ++ question ++ promptTail

/-- The newsletter prompt up to the topic. -/
def newsletterHead : String :=
  "Create a professional HTML email newsletter for Fluid Detailing auto detailing business.\n\nTopic: "

/-- The newsletter prompt between the promotion line and the list of services. -/
def newsletterMiddle : String :=
  "\n\nServices offered:\n"

/-- The newsletter prompt after the list of services. -/
def newsletterTail : String :=
  "\n\nCreate an engaging HTML email with:\n- Eye-catching subject line\n- Professional header with business name\n- Brief intro paragraph\n- Highlight the promotion/topic\n- Call-to-action button to book\n- Footer with contact info\n\nUse these colors:\n- Primary: #CC0000 (red)\n- Dark: #1a1a1a (dark grey)\n- Light: #b8b8b8 (light grey)\n\nRespond with ONLY the complete HTML code, no explanations."

/-- The page wrapped around newsletter content without its own, before the content. -/
def htmlWrapperHead : String :=
  "<!DOCTYPE html>\n<html>\n<head>\n    <meta charset=\x22UTF-8\x22>\n    <meta name=\x22viewport\x22 content=\x22width=device-width, initial-scale=1.0\x22>\n    <title>Fluid Detailing Newsletter</title>\n</head>\n<body>\n"

/-- The page wrapped around newsletter content without its own, after the content. -/
def htmlWrapperTail : String :=
  "\n</body>\n</html>"

/-! ## The assistant: environment, context and results -/

/-- What the assistant takes from outside the program: the input conversions
of the store, the driver, the JavaScript runtime and the generation command.
* `castDate`, `castTime`: see `ColumnInput`;
* `castReason`: the text the column `reason VARCHAR(255)` stores for the text
  of a parameter that is longer than the column or has a character other
  than printable ASCII, `none` when the store rejects the text;
* `castInteger`, `castPrice`: the value the store reads from the text of an
  `INTEGER` or a `DECIMAL(10, 2)` (in cents) parameter, `none` when it
  rejects the text;
* `compositeText`: the text the driver sends for an array or object parameter;
* `toLowerCase`: the method of that name of JavaScript strings;
* `runGemini`: the standard output of the command line run by `execPromise`,
  `none` when the promise rejects;
* `apiKey`: the environment variable `GEMINI_API_KEY`. -/
structure Env extends ColumnInput where
  castReason : String → Option String
  castInteger : String → Option Int
  castPrice : String → Option Int
  compositeText : Json → String
  toLowerCase : String → String
  runGemini : String → Option String
  apiKey : Option String

/-- The numbers of `context.statistics` the reports print; revenues in cents. -/
structure Statistics where
  total_bookings : Int
  today_bookings : Int
  week_bookings : Int
  month_bookings : Int
  year_bookings : Int
  total_revenue : Int
  month_revenue : Int
  year_revenue : Int
  deriving DecidableEq

/-- A row of `context.service_popularity`; the count is the text of the
`COUNT`, the revenue is in cents and null without bookings. -/
structure ServicePopularity where
  name : String
  booking_count : String
  total_revenue : Option Int
  deriving DecidableEq

/-- A row of `context.all_customers`.  The count is the text of the `COUNT`,
the amount spent is in cents (null when no booking has a price), and the
dates are the texts JavaScript prints for them. -/
structure Customer where
  customer_email : String
  customer_name : String
  customer_phone : String
  booking_count : String
  total_spent : Option Int
  first_booking : String
  last_booking : String
  booking_dates : List String
  deriving DecidableEq

/-- The part of the business context snapshot the action handlers read. -/
structure Context where
  services : List Service
  statistics : Statistics
  service_popularity : List ServicePopularity
  all_customers : List Customer
  deriving DecidableEq

/-- The value of `actionResult` after a handler returned.  The `downloadUrl`
of a report or newsletter, a function of its text and of the clock, is left out. -/
inductive ActionResult where
  /-- The value `{ success: true, blocked_date }`. -/
  | blockedDate (blocked_date : BlockedDate)
  /-- The value `{ success: false, error: 'Date already blocked' }`. -/
  | alreadyBlocked
  /-- The value `{ success: true, service }`, the service `undefined` when no row was updated. -/
  | priceUpdated (service : Option Service)
  /-- The value `{ success: true, reportType, csvData, downloadUrl }`. -/
  | report (reportType : Option Json) (csvData : String)
  /-- The value `{ success, customer }`, success being whether a customer was found. -/
  | customer (customer : Option Customer)
  /-- The value `{ success: true, newsletterContent, downloadUrl }`. -/
  | newsletter (newsletterContent : String)
  /-- The value `{ success: false, error: 'Failed to generate newsletter' }`. -/
  | newsletterFailed

/-- The `success` field of an action result. -/
def ActionResult.success : ActionResult → Bool
  | .blockedDate _ => true
  | .alreadyBlocked => false
  | .priceUpdated _ => true
  | .report _ _ => true
  | .customer c => c.isSome
  | .newsletter _ => true
  | .newsletterFailed => false

/-- The `error` field of an action result, if it has one. -/
def ActionResult.error : ActionResult → Option String
  | .alreadyBlocked => some "Date already blocked"
  | .newsletterFailed => some "Failed to generate newsletter"
  | _ => none

/-- The fields `answer`, `actionExecuted` and `actionResult` of the response. -/
structure AssistantReply where
  answer : String
  actionExecuted : Bool
  actionResult : Option ActionResult

/-! ## Query parameters -/

/-- The text the driver sends for a query parameter, `none` for SQL `NULL`
(the values `null` and `undefined`). -/
def paramText (env : Env) (value : Option Json) : Option String :=
  match value with
  | none => none
  | some .null => none
  | some (.str s) => some s
  | some (.num n) => some (String.mk (numberText n))
  | some (.bool b) => some (if b then "true" else "false")
  | some (.arr elems) => some (env.compositeText (.arr elems))
  | some (.obj members) => some (env.compositeText (.obj members))

/-- The text stored for the `date` parameter of an insert into `blocked_dates`:
the column text of the date the store reads from the text of a string or
number; `none` when the query throws, on `NULL` (the column is `NOT NULL`),
on a text the store rejects as a date, and on a boolean, array or object,
whose text is never a date. -/
def dateParam (env : Env) (value : Option Json) : Option String :=
  match value with
  | some (.str s) => dateColumn env.toColumnInput s
  | some (.num n) => dateColumn env.toColumnInput (String.mk (numberText n))
  | _ => none

/-- The text the column `reason VARCHAR(255)` stores for the `reason`
parameter of an insert into `blocked_dates`, `some none` for `NULL`; `none`
when the store rejects the text and the query throws.  A text of at most 255
printable ASCII characters is stored as it is; for every other text the
conversion of the store decides. -/
def reasonParam (env : Env) (value : Option Json) : Option (Option String) :=
  match paramText env value with
  | none => some none
  | some text =>
    if text.length ≤ 255 ∧ text.data.all (fun c => 32 ≤ c.toNat ∧ c.toNat ≤ 126) then
      some (some text)
    else (env.castReason text).map some

/-- The value of `value || fallback` for a text fallback. -/
def valueOr (value : Option Json) (fallback : String) : Option Json :=
  if jsTruthy value then value else some (.str fallback)

/-- The number a JavaScript integer is, as a parsed value would hold it. -/
def numberOfInt (i : Int) : JsonNumber :=
  normalizeDecimal (Nat.toDigits 10 i.natAbs).length i 0

/-- The test `id === value` for a number `id`. -/
def strictEqualsInt (id : Int) (value : Option Json) : Bool :=
  match value with
  | some (.num n) => decide (n = numberOfInt id)
  | _ => false

/-- Whether a parameter object is `undefined` or `null`, so that reading a
property of it throws a `TypeError`. -/
def isNullish (value : Option Json) : Bool :=
  match value with
  | none => true
  | some .null => true
  | _ => false

/-! ## The action handlers -/

/-- The function `executeBlockDate`: `none` when it throws (a `TypeError` on
nullish params, or a store error other than the uniqueness violation, both
rethrown by its `catch`); otherwise the result and the store after it.  The
insert fails with code 23505 when the date already has a row. -/
def executeBlockDate (env : Env) (store : Store) (params : Option Json) :
    Option (ActionResult × Store) :=
  match params with
  | none => none
  | some .null => none
  | some p =>
    match dateParam env (p.get "date"),
        reasonParam env (valueOr (p.get "reason") "Blocked via AI Assistant") with
    | some date, some reason =>
      if store.blocked_dates.any (fun r => r.date = date) then some (.alreadyBlocked, store)
      else
        some (.blockedDate { date := date, reason := reason },
          { store with blocked_dates := store.blocked_dates ++ [{ date := date, reason := reason }] })
    | _, _ => none

/-- A query parameter read through an input conversion of the store: `none`
when the store rejects the text, `some none` for `NULL`. -/
def castParam (env : Env) (cast : String → Option Int) (value : Option Json) :
    Option (Option Int) :=
  match paramText env value with
  | none => some none
  | some text =>
    match cast text with
    | some v => some (some v)
    | none => none

/-- The function `executeUpdateServicePrice`: `none` when it throws (nullish
params or a rejected parameter); otherwise the first updated row, if any, and
the store after `UPDATE services SET price = $1 ... WHERE id = $2`. -/
def executeUpdateServicePrice (env : Env) (store : Store) (params : Option Json) :
    Option (ActionResult × Store) :=
  match params with
  | none => none
  | some .null => none
  | some p =>
    match castParam env env.castPrice (p.get "price"),
        castParam env env.castInteger (p.get "service_id") with
    | some price, some service_id =>
      let updated := store.services.map
        (fun s => if some s.id = service_id then { s with price := price } else s)
      some (.priceUpdated ((updated.filter (fun s => some s.id = service_id)).head?),
        { store with services := updated })
    | _, _ => none

/-- The text of `parseFloat(amount || 0).toFixed(2)` for an amount in cents. -/
def fixedOrZero (amount : Option Int) : String :=
  toFixed2 (amount.getD 0)

/-- The text of `parseFloat(amount).toFixed(2)` for an amount in cents, `NaN` for null. -/
def fixedOrNaN (amount : Option Int) : String :=
  match amount with
  | some cents => toFixed2 cents
  | none => "NaN"

/-- The text of `service?.price || 0` for the service found, if any. -/
def priceOrZeroText (service : Option Service) : String :=
  match service with
  | some s =>
    match s.price with
    | some cents => toFixed2 cents
    | none => "0"
  | none => "0"

/-- The text of `service?.duration_minutes || 0` for the service found, if any. -/
def durationOrZeroText (service : Option Service) : String :=
  match service with
  | some s => String.mk (numberToString s.duration_minutes)
  | none => "0"

/-- The text `csvData` built by `executeGenerateReport` for a report type. -/
def reportCsv (context : Context) (reportType : Option Json) : String :=
  match reportType with
  | some (.str t) =>
    if t = "revenue" then
      "Period,Revenue\n" ++
      "Total (All Time),$" ++ toFixed2 context.statistics.total_revenue ++ "\n" ++
      "This Month,$" ++ toFixed2 context.statistics.month_revenue ++ "\n" ++
      "This Year,$" ++ toFixed2 context.statistics.year_revenue ++ "\n"
    else if t = "bookings" then
      "Period,Count\n" ++
      "Total (All Time)," ++ String.mk (numberToString context.statistics.total_bookings) ++ "\n" ++
      "Today," ++ String.mk (numberToString context.statistics.today_bookings) ++ "\n" ++
      "This Week," ++ String.mk (numberToString context.statistics.week_bookings) ++ "\n" ++
      "This Month," ++ String.mk (numberToString context.statistics.month_bookings) ++ "\n" ++
      "This Year," ++ String.mk (numberToString context.statistics.year_bookings) ++ "\n"
    else if t = "services" then
      context.service_popularity.foldl
        (fun csvData s =>
          csvData ++ "\x22" ++ s.name ++ "\x22," ++ s.booking_count ++ ",$" ++
            priceOrZeroText (context.services.find? (fun srv => srv.name = s.name)) ++ "," ++
            durationOrZeroText (context.services.find? (fun srv => srv.name = s.name)) ++ ",$" ++
            fixedOrZero s.total_revenue ++ "\n")
        "Service Name,Booking Count,Price,Duration (min),Total Revenue\n"
    else if t = "customers" then
      context.all_customers.foldl
        (fun csvData c =>
          csvData ++ "\x22" ++ c.customer_name ++ "\x22,\x22" ++ c.customer_email ++ "\x22,\x22" ++
            c.customer_phone ++ "\x22," ++ c.booking_count ++ ",$" ++ fixedOrNaN c.total_spent ++
            "," ++ c.first_booking ++ "," ++ c.last_booking ++ "\n")
        "Customer Name,Email,Phone,Total Bookings,Total Spent,First Booking,Last Booking\n"
    else ""
  | _ => ""

/-- The function `executeGenerateReport`: `none` when it throws, on nullish params. -/
def executeGenerateReport (context : Context) (params : Option Json) : Option ActionResult :=
  match params with
  | none => none
  | some .null => none
  | some p => some (.report (p.get "type") (reportCsv context (p.get "type")))

/-- The function `executeViewCustomer`: `none` when it throws.  The callback
of `find` runs on the first customer, if there is one, and throws unless
`params.email` is a string. -/
def executeViewCustomer (env : Env) (context : Context) (params : Option Json) :
    Option ActionResult :=
  match context.all_customers with
  | [] => some (.customer none)
  | first :: others =>
    match params with
    | none => none
    | some .null => none
    | some p =>
      match p.get "email" with
      | some (.str email) =>
        some (.customer ((first :: others).find?
          (fun c => env.toLowerCase c.customer_email = env.toLowerCase email)))
      | _ => none

/-- Model of `text.replace(/"/g, '\\"')`: a backslash put before every double quote. -/
def escapeQuotes : List Char → List Char
  | [] => []
  | c :: rest => if c = dquote then backslash :: dquote :: escapeQuotes rest else c :: escapeQuotes rest

/-- The command line given to `execPromise` for a prompt. -/
def geminiCommand (apiKey : Option String) (prompt : String) : String :=
  "GEMINI_API_KEY=\x22" ++ apiKey.getD "undefined" ++ "\x22 gemini \x22" ++
    String.mk (escapeQuotes prompt.data) ++ "\x22"

/-- The text with every occurrence of `fence`, and one line feed right after
it, removed (`replace` with a global pattern `fence\n?`). -/
def removeFences (fence : List Char) : Nat → List Char → List Char
  | 0, s => s
  | fuel + 1, s =>
    match s with
    | [] => []
    | c :: rest =>
      if fence.isPrefixOf (c :: rest) ∧ ¬ fence.isEmpty then
        match (c :: rest).drop fence.length with
        | d :: after => if d.toNat = 10 then removeFences fence fuel after
          else removeFences fence fuel (d :: after)
        | [] => []
      else c :: removeFences fence fuel rest

/-- The text of the price of a service in a template: the `DECIMAL` text or `null`. -/
def priceText (price : Option Int) : String :=
  match price with
  | some cents => toFixed2 cents
  | none => "null"

/-- The prompt `newsletterPrompt` built from non-nullish params. -/
def newsletterPrompt (context : Context) (p : Json) : String :=
  newsletterHead ++ jsText (p.get "topic") ++ "\n" ++
    (if jsTruthy (p.get "promotion") then "Special Promotion: " ++ jsText (p.get "promotion")
      else "") ++
    newsletterMiddle ++
    "\n".intercalate
      ((context.services.filter (fun s => s.is_active = some true)).map
        (fun s => "- " ++ s.name ++ ": $" ++ priceText s.price)) ++
    newsletterTail

/-- The newsletter text made from the standard output of the generation. -/
def newsletterContent (stdout : String) : String :=
  let trimmed := (jsTrim stdout).data
  let noHtmlFence := removeFences ("\x60\x60\x60html".data) trimmed.length trimmed
  let noFence := removeFences ("\x60\x60\x60".data) noHtmlFence.length noHtmlFence
  if ¬ occursIn "<!DOCTYPE".data noFence ∧ ¬ occursIn "<html".data noFence then
    htmlWrapperHead ++ String.mk noFence ++ htmlWrapperTail
  else String.mk noFence

/-- The function `executeGenerateNewsletter`: `none` when it throws, on
nullish params; a failed generation is caught and reported in the result. -/
def executeGenerateNewsletter (env : Env) (context : Context) (params : Option Json) :
    Option ActionResult :=
  match params with
  | none => none
  | some .null => none
  | some p =>
    match env.runGemini (geminiCommand env.apiKey (newsletterPrompt context p)) with
    | some stdout => some (.newsletter (newsletterContent stdout))
    | none => some .newsletterFailed

/-! ## The dispatcher of `POST /api/admin/ai-assistant` -/

/-- The answer set in the `BLOCK_DATE` case, spelled as in the source file. -/
def blockDateAnswer (params : Json) : String :=
  "\u00e2\u0153\u2026 I\x27ve blocked " ++ jsText (params.get "date") ++ " for you. Reason: " ++
    jsText (params.get "reason") ++ ". This date is now unavailable for bookings."

/-- The answer set in the `UPDATE_SERVICE_PRICE` case; `service` is the
service of `context.services` found by `s.id === params.service_id`. -/
def updatePriceAnswer (service : Option Service) (params : Json) : String :=
  "\u00e2\u0153\u2026 I\x27ve updated the price for \x22" ++
    (match service with
      | some s => s.name
      | none => "undefined") ++
    "\x22 to $" ++ jsText (params.get "price") ++ ". The change is now live on your booking page."

/-- The answer set in the `GENERATE_REPORT` case. -/
def reportAnswer (params : Json) : String :=
  "\u00e2\u0153\u2026 I\x27ve generated a " ++ jsText (params.get "type") ++ " report. You can download it using the link provided."

/-- The answer set in the `VIEW_CUSTOMER` case for a customer that was found. -/
def customerAnswer (customer : Customer) : String :=
  "\u00f0\u0178\u201c\u0160 Customer History for " ++ customer.customer_name ++ ":\n- Total bookings: " ++ customer.booking_count ++
    "\n- Total spent: $" ++ fixedOrNaN customer.total_spent ++ "\n- First booking: " ++ customer.first_booking ++
    "\n- Last booking: " ++ customer.last_booking ++ "\n- Email: " ++ customer.customer_email ++
    "\n- Phone: " ++ customer.customer_phone ++ "\n- Recent booking dates: " ++
    ", ".intercalate (customer.booking_dates.take 5)

/-- The answer set in the `VIEW_CUSTOMER` case when no customer was found. -/
def customerNotFoundAnswer (params : Json) : String :=
  "\u00e2\u0152 Customer not found with email: " ++ jsText (params.get "email")

/-- The answer set in the `GENERATE_NEWSLETTER` case. -/
def newsletterAnswer : String :=
  "\u00e2\u0153\u2026 I\x27ve generated a newsletter for you! The HTML email is ready to send. Check the download link below."

/-- The text of `actionRequest.action` when it is a string. -/
def actionName (request : Json) : Option String :=
  match request.get "action" with
  | some (.str name) => some name
  | _ => none

/-- The `switch (actionRequest.action)` of the handler, with the handler calls
and the answers of its cases; `answer` is the trimmed generated text.  An
exception of a handler ends in the empty `catch`, which leaves `answer`,
`actionExecuted` and `actionResult` as they were when it was thrown; an
action that is none of the five cases leaves them as they were too. -/
def runAction (env : Env) (context : Context) (store : Store) (answer : String)
    (request : Json) : AssistantReply × Store :=
  let plain : AssistantReply × Store :=
    ({ answer := answer, actionExecuted := false, actionResult := none }, store)
  if actionName request = some "BLOCK_DATE" then
    match executeBlockDate env store (request.get "params"), request.get "params" with
    | some (result, store2), some params =>
      ({ answer := blockDateAnswer params, actionExecuted := true,
         actionResult := some result }, store2)
    | _, _ => plain
  else if actionName request = some "UPDATE_SERVICE_PRICE" then
    match executeUpdateServicePrice env store (request.get "params"),
        request.get "params" with
    | some (result, store2), some params =>
      ({ answer :=
           updatePriceAnswer
             (context.services.find? (fun s => strictEqualsInt s.id (params.get "service_id")))
             params,
         actionExecuted := true, actionResult := some result }, store2)
    | _, _ => plain
  else if actionName request = some "GENERATE_REPORT" then
    match executeGenerateReport context (request.get "params"), request.get "params" with
    | some result, some params =>
      ({ answer := reportAnswer params, actionExecuted := true,
         actionResult := some result }, store)
    | _, _ => plain
  else if actionName request = some "VIEW_CUSTOMER" then
    match executeViewCustomer env context (request.get "params") with
    | some (.customer (some customer)) =>
      ({ answer := customerAnswer customer, actionExecuted := true,
         actionResult := some (.customer (some customer)) }, store)
    | some result =>
      if isNullish (request.get "params") then
        ({ answer := answer, actionExecuted := false, actionResult := some result }, store)
      else
        ({ answer := customerNotFoundAnswer ((request.get "params").getD .null),
           actionExecuted := true, actionResult := some result }, store)
    | none => plain
  else if actionName request = some "GENERATE_NEWSLETTER" then
    match executeGenerateNewsletter env context (request.get "params") with
    | some result =>
      ({ answer := newsletterAnswer, actionExecuted := true, actionResult := some result },
        store)
    | none => plain
  else plain

/-- The directive the handler finds in the generated text: the value of
`JSON.parse(actionMatch[0])` on the trimmed text, `none` when the pattern
does not match or the match is not valid JSON. -/
def directiveOf (stdout : String) : Option Json :=
  match actionMatch (jsTrim stdout).data with
  | some matched => jsonParse (String.mk matched)
  | none => none

/-- The part of the handler after the generation: from the standard output
`stdout` of the generation command to the fields of the response, and the
store after it.  Without match of the pattern, and on a `SyntaxError` of
`JSON.parse`, the answer is the trimmed text and no action is executed. -/
def dispatch (env : Env) (context : Context) (store : Store) (stdout : String) :
    AssistantReply × Store :=
  match directiveOf stdout with
  | some request => runAction env context store (jsTrim stdout) request
  | none =>
    ({ answer := jsTrim stdout, actionExecuted := false, actionResult := none }, store)

/-- The responses of `POST /api/admin/ai-assistant`. -/
inductive AssistantResponse where
  /-- Status 400, `Question is required`. -/
  | questionRequired
  /-- Status 500, `Failed to get business context`. -/
  | contextFailed
  /-- Status 500, `Failed to get AI response`: the generation command failed. -/
  | failed
  /-- Success, with the question and the fields of the reply. -/
  | answered (question : String) (reply : AssistantReply)

/-- The handler of `POST /api/admin/ai-assistant`: `context` is the snapshot
returned by `getBusinessContext` (`none` when it failed) and `digest` the text
the prompt template builds from it. -/
def aiAssistant (env : Env) (context : Option Context) (digest : String) (store : Store)
    (question : Option String) : AssistantResponse × Store :=
  if truthy question = false then (.questionRequired, store)
  else
    match context with
    | none => (.contextFailed, store)
    | some snapshot =>
      match env.runGemini (geminiCommand env.apiKey (buildPrompt digest (question.getD ""))) with
      | none => (.failed, store)
      | some stdout =>
        (.answered (question.getD "") (dispatch env snapshot store stdout).1,
          (dispatch env snapshot store stdout).2)

/-- A sample environment: the conversions of `sampleInput`, no reason other
than one of at most 255 printable ASCII characters, decimal integers for
`castInteger`, whole dollars for `castPrice`, ASCII lower case, and a
generation command that fails. -/
def sampleEnv : Env :=
  { toColumnInput := sampleInput
    castReason := fun _ => none
    castInteger := fun t => (readDecimal t.data).map (fun n => (n : Int))
    castPrice := fun t => (readDecimal t.data).map (fun n => (n : Int) * 100)
    compositeText := fun _ => ""
    toLowerCase := fun s => s.map Char.toLower
    runGemini := fun _ => none
    apiKey := none }

/-- A sample context: the seeded services and no bookings. -/
def sampleContext : Context :=
  { services := defaultServices
    statistics :=
      { total_bookings := 0, today_bookings := 0, week_bookings := 0, month_bookings := 0,
        year_bookings := 0, total_revenue := 0, month_revenue := 0, year_revenue := 0 }
    service_popularity := []
    all_customers := [] }

/-- The directive text
`{"action":"BLOCK_DATE","params":{"date":"2024-12-25","reason":"Holiday"}}`. -/
def blockChristmas : String :=
  "\x7b\x22action\x22:\x22BLOCK_DATE\x22,\x22params\x22:\x7b\x22date\x22:\x222024-12-25\x22,\x22reason\x22:\x22Holiday\x22\x7d\x7d"

/-- The seeded store with 2024-12-25 blocked for the reason `Holiday`. -/
def christmasBlockedStore : Store :=
  { seededStore with blocked_dates := [{ date := "2024-12-25", reason := some "Holiday" }] }

/-- The actions the `switch` of the handler has a case for. -/
def recognizedActions : List String :=
  ["BLOCK_DATE", "UPDATE_SERVICE_PRICE", "GENERATE_REPORT", "VIEW_CUSTOMER",
    "GENERATE_NEWSLETTER"]

/-- The text matches the action pattern somewhere: an opening brace, later
the keyword `"action"`, later a closing brace. -/
def MatchesActionPattern (text : List Char) : Prop :=
  ∃ before middle1 middle2 after,
    text = before ++ '{' :: (middle1 ++ actionKeyword ++ middle2 ++ '}' :: after)

/-- The scan behind `quotesNeutralised`: `oddRun` tells whether the run of
backslashes right before the current character has odd length. -/
def quotesNeutralisedFrom (oddRun : Bool) : List Char → Bool
  | [] => true
  | c :: rest =>
    if c = dquote then oddRun && quotesNeutralisedFrom false rest
    else if c = backslash then quotesNeutralisedFrom (!oddRun) rest
    else quotesNeutralisedFrom false rest

/-- Every double quote of the text is preceded by an odd number of
consecutive backslashes, so that none ends a double-quoted shell argument. -/
def quotesNeutralised (text : List Char) : Bool :=
  quotesNeutralisedFrom false text

/-- The fields the directive of an action carries in `params` according to
the wire shape the specification gives (date and reason; service_id and
price; type; email; topic). -/
def schemaFields (action : String) : List String :=
  if action = "BLOCK_DATE" then ["date", "reason"]
  else if action = "UPDATE_SERVICE_PRICE" then ["service_id", "price"]
  else if action = "GENERATE_REPORT" then ["type"]
  else if action = "VIEW_CUSTOMER" then ["email"]
  else if action = "GENERATE_NEWSLETTER" then ["topic"]
  else []

/-- The params of a directive are missing or malformed: absent or null, or
without one of the fields of the action. -/
def ParamsMissingOrMalformed (request : Json) : Prop :=
  isNullish (request.get "params") = true ∨
  ∃ action field, actionName request = some action ∧ field ∈ schemaFields action ∧
    ((request.get "params").getD .null).get field = none

/-- The value `JSON.parse` gives for the text `blockChristmas`. -/
def blockChristmasRequest : Json :=
  .obj [("action", .str "BLOCK_DATE"),
    ("params", .obj [("date", .str "2024-12-25"), ("reason", .str "Holiday")])]

/-- The row the directive `blockChristmas` inserts. -/
def christmasRow : BlockedDate :=
  { date := "2024-12-25", reason := some "Holiday" }

/-- The directive text `{"action":"UPDATE_SERVICE_PRICE","params":{}}`. -/
def updateWithoutFields : String :=
  "\x7b\x22action\x22:\x22UPDATE_SERVICE_PRICE\x22,\x22params\x22:\x7b\x7d\x7d"

/-- The directive text `{"action":"BLOCK_DATE"}`, without params. -/
def blockWithoutParams : String :=
  "\x7b\x22action\x22:\x22BLOCK_DATE\x22\x7d"

/-- The directive text `{"action":"DELETE_ALL","params":{}}`, of an action without case. -/
def deleteAll : String :=
  "\x7b\x22action\x22:\x22DELETE_ALL\x22,\x22params\x22:\x7b\x7d\x7d"

/-! ## The booking handler between its `await`s -/

/-- Where a run of `POST /api/bookings` stands between two of its queries.
The handler awaits three queries in turn (services, conflicts, insert); the
store executes each of them at once, and other requests may be served
between two of them. -/
inductive BookingPhase where
  /-- The request has arrived; the services query comes next. -/
  | received
  /-- The services were read and the totals computed; the conflict query comes next. -/
  | priced (service_ids : List Int) (booking_date booking_time : String)
      (total_duration total_price : Int)
  /-- The conflict query returned no row; the insert comes next. -/
  | cleared (service_ids : List Int) (booking_date booking_time : String)
      (total_duration total_price : Int)
  /-- The response was sent. -/
  | responded (response : BookingResponse)
  deriving DecidableEq

/-- One step of a run of the booking handler: the code up to its next query,
that query on the store as it is now, and the code after it up to the next
`await`. -/
def bookingStep (input : ColumnInput) (store : Store) (req : BookingRequest) :
    BookingPhase → BookingPhase × Store
  | .received =>
    match req.service_ids, req.booking_date, req.booking_time with
    | some service_ids, some booking_date, some booking_time =>
      if !truthy req.customer_name || !truthy req.customer_email || !truthy req.customer_phone
          || booking_date = "" || booking_time = "" then
        (.responded .missingFields, store)
      else if (queryServices store service_ids).isEmpty then (.responded .invalidSelection, store)
      else
        (.priced service_ids booking_date booking_time
          (totalDuration (queryServices store service_ids))
          (totalPrice (queryServices store service_ids)), store)
    | _, _, _ => (.responded .missingFields, store)
  | .priced service_ids booking_date booking_time total_duration total_price =>
    match queryConflicts input store booking_date booking_time with
    | none => (.responded .failed, store)
    | some conflicts =>
      if conflicts.length > 0 then (.responded .slotTaken, store)
      else (.cleared service_ids booking_date booking_time total_duration total_price, store)
  | .cleared service_ids booking_date booking_time total_duration total_price =>
    match dateColumn input booking_date, timeColumn input booking_time with
    | some date, some time =>
      (.responded (.created
          { id := store.next_booking_id
            customer_name := req.customer_name.getD ""
            customer_email := req.customer_email.getD ""
            customer_phone := req.customer_phone.getD ""
            service_ids := service_ids
            booking_date := date
            booking_time := time
            total_duration := total_duration
            total_price := total_price
            payment_method := textOr req.payment_method "cash"
            payment_status := "pending"
            status := "confirmed"
            notes := textOr req.notes "" }),
        { store with
          bookings := store.bookings ++
            [{ id := store.next_booking_id
               customer_name := req.customer_name.getD ""
               customer_email := req.customer_email.getD ""
               customer_phone := req.customer_phone.getD ""
               service_ids := service_ids
               booking_date := date
               booking_time := time
               total_duration := total_duration
               total_price := total_price
               payment_method := textOr req.payment_method "cash"
               payment_status := "pending"
               status := "confirmed"
               notes := textOr req.notes "" }]
          next_booking_id := store.next_booking_id + 1 })
    | _, _ => (.responded .failed, store)
  | .responded response => (.responded response, store)

/-- Two runs of the booking handler, for the requests `first` and `second`,
interleaved by a schedule: `false` lets the first run take its next step,
`true` the second.  The result is the phases of both runs and the store. -/
def runSchedule (input : ColumnInput) (first second : BookingRequest) :
    List Bool → Store → BookingPhase → BookingPhase → BookingPhase × BookingPhase × Store
  | [], store, a, b => (a, b, store)
  | false :: rest, store, a, b =>
    runSchedule input first second rest (bookingStep input store first a).2
      (bookingStep input store first a).1 b
  | true :: rest, store, a, b =>
    runSchedule input first second rest (bookingStep input store second b).2 a
      (bookingStep input store second b).1

/-- A second complete request, of another customer, for the given services, date and time. -/
def secondRequest (service_ids : List Int) (date time : String) : BookingRequest :=
  { customer_name := some "Bob"
    customer_email := some "bob@example.com"
    customer_phone := some "555-0101"
    service_ids := some service_ids
    booking_date := some date
    booking_time := some time
    payment_method := none
    notes := none }

/-- The bookings with the same date and time as an earlier booking of the
list, both with a status other than `cancelled`. -/
def doubleBookings : List Booking → List Booking
  | [] => []
  | b :: rest =>
    rest.filter (fun c => c.booking_date = b.booking_date ∧ c.booking_time = b.booking_time ∧
      b.status ≠ "cancelled" ∧ c.status ≠ "cancelled") ++ doubleBookings rest

/-! ## More sample directives -/

/-- The directive text `{"action":"BLOCK_DATE","params":{}}`, without date. -/
def blockWithoutDate : String :=
  "\x7b\x22action\x22:\x22BLOCK_DATE\x22,\x22params\x22:\x7b\x7d\x7d"

/-- The directive text
`{"action":"UPDATE_SERVICE_PRICE","params":{"service_id":1,"price":"free"}}`,
whose price the sample environment rejects. -/
def updateWithRejectedPrice : String :=
  "\x7b\x22action\x22:\x22UPDATE_SERVICE_PRICE\x22,\x22params\x22:\x7b\x22service_id\x22:1,\x22price\x22:\x22free\x22\x7d\x7d"

/-- The directive text
`{"action":"UPDATE_SERVICE_PRICE","params":{"service_id":99,"price":175}}`,
for a service id the seeded store does not have. -/
def updateUnknownService : String :=
  "\x7b\x22action\x22:\x22UPDATE_SERVICE_PRICE\x22,\x22params\x22:\x7b\x22service_id\x22:99,\x22price\x22:175\x7d\x7d"

/-- The value `JSON.parse` gives for the params of `updateUnknownService`. -/
def updateUnknownServiceParams : Json :=
  .obj [("service_id", .num { mantissa := 99, exponent := 0 }),
    ("price", .num { mantissa := 175, exponent := 0 })]

/-- The directive text `{"action":"BLOCK_DATE","params":{"date":"tomorrow"}}`,
whose date the sample environment rejects. -/
def blockTomorrow : String :=
  "\x7b\x22action\x22:\x22BLOCK_DATE\x22,\x22params\x22:\x7b\x22date\x22:\x22tomorrow\x22\x7d\x7d"

/-- The directive text `{"action":"VIEW_CUSTOMER","params":{}}`, without email. -/
def viewWithoutEmail : String :=
  "\x7b\x22action\x22:\x22VIEW_CUSTOMER\x22,\x22params\x22:\x7b\x7d\x7d"

/-- The sample context with one customer. -/
def contextWithCustomer : Context :=
  { sampleContext with
    all_customers :=
      [{ customer_email := "ada@example.com"
         customer_name := "Ada"
         customer_phone := "555-0100"
         booking_count := "1"
         total_spent := some 15000
         first_booking := "2024-12-25"
         last_booking := "2024-12-25"
         booking_dates := ["2024-12-25"] }] }

/-- The directive text
`{"action":"UPDATE_SERVICE_PRICE","params":{"service_id":99,"price":"free"}}`,
for a service id the seeded store does not have and a price the sample
environment rejects. -/
def updateUnknownServiceRejectedPrice : String :=
  "\x7b\x22action\x22:\x22UPDATE_SERVICE_PRICE\x22,\x22params\x22:\x7b\x22service_id\x22:99,\x22price\x22:\x22free\x22\x7d\x7d"

/-! ## More sample rows -/

/-- The seeded store after the booking of service 1 on 2024-12-25 at 10:00:
the row holds the time as the `TIME` column gives it back. -/
def bookedStore : Store :=
  { seededStore with
    bookings := [sampleBooking "10:00:00" 120 "confirmed"]
    next_booking_id := 2 }

/-- The row stored for `secondRequest [1] "2024-12-25" "10:00"` when it is the
second booking of the seeded store. -/
def secondBooking : Booking :=
  { id := 2
    customer_name := "Bob"
    customer_email := "bob@example.com"
    customer_phone := "555-0101"
    service_ids := [1]
    booking_date := "2024-12-25"
    booking_time := "10:00:00"
    total_duration := 120
    total_price := 15000
    payment_method := "cash"
    payment_status := "pending"
    status := "confirmed"
    notes := "" }

/-! ## Lemmas on the built-ins -/

theorem parseInt_twoDigits : ∀ n, n < 100 → parseInt (twoDigits n) = some (n : Int) := by
  decide

theorem twoDigits_ne_colon : ∀ n, n < 100 →
    Char.ofNat (48 + n / 10) ≠ ':' ∧ Char.ofNat (48 + n % 10) ≠ ':' := by
  decide

theorem padStart2_numberToString : ∀ n : Nat, n < 100 →
    padStart2 (numberToString (n : Int)) = twoDigits n := by
  decide

theorem splitColon_clock (h m : Nat) (hh : h < 100) (hm : m < 100) :
    splitColon (twoDigits h ++ ':' :: twoDigits m) = [twoDigits h, twoDigits m] := by
  obtain ⟨a1, a2⟩ := twoDigits_ne_colon h hh
  obtain ⟨b1, b2⟩ := twoDigits_ne_colon m hm
  simp [twoDigits, splitColon, a1, a2, b1, b2]

theorem timeSlot_clock (h m : Nat) (hh : h < 100) (hm : m < 100) :
    timeSlot (h : Int) (m : Int) = clockText h m := by
  simp [timeSlot, clockText, padStart2_numberToString h hh, padStart2_numberToString m hm]

theorem minutesOfDay_clockText (h m : Nat) (hh : h < 100) (hm : m < 100) :
    minutesOfDay (clockText h m) = some ((h : Int) * 60 + (m : Int)) := by
  simp [minutesOfDay, clockText, splitColon_clock h m hh hm, parseIntAt,
    parseInt_twoDigits h hh, parseInt_twoDigits m hm]

theorem minutesOfDay_timeSlot (h m : Int) (h0 : 0 ≤ h) (h1 : h < 100) (m0 : 0 ≤ m)
    (m1 : m < 100) : minutesOfDay (timeSlot h m) = some (h * 60 + m) := by
  obtain ⟨a, rfl⟩ := Int.eq_ofNat_of_zero_le h0
  obtain ⟨b, rfl⟩ := Int.eq_ofNat_of_zero_le m0
  have ha : a < 100 := by omega
  have hb : b < 100 := by omega
  rw [timeSlot_clock a b ha hb, minutesOfDay_clockText a b ha hb]

theorem generateSlots_clock (oh om ch cm : Nat) (h1 : oh < 100) (h2 : om < 100)
    (h3 : ch < 100) (h4 : cm < 100) (rows : List Booking) :
    generateSlots (clockText oh om) (clockText ch cm) rows =
      hourLoop oh ch (some om) (some cm) rows ((ch : Int) - oh).toNat oh := by
  simp [generateSlots, clockText, splitColon_clock oh om h1 h2, splitColon_clock ch cm h3 h4,
    parseIntAt, parseInt_twoDigits oh h1, parseInt_twoDigits om h2, parseInt_twoDigits ch h3,
    parseInt_twoDigits cm h4]

/-! ## Lemmas on the loops -/

theorem isAvailable_eq_false_iff (slot : String) (rows : List Booking) :
    isAvailable slot rows = false ↔ ∃ b ∈ rows, b.booking_time = slot := by
  induction rows with
  | nil => simp [isAvailable]
  | cons b rest ih =>
    by_cases hb : slot = b.booking_time
    · simp [isAvailable, hb]
    · have hb2 : ¬ b.booking_time = slot := fun e => hb e.symm
      simp [isAvailable, hb, hb2, ih]

theorem mem_minuteLoop {oh ch : Int} {om cm : Option Int} {rows : List Booking} {hour : Int}
    {mins : List Int} {s : Slot} (hs : s ∈ minuteLoop oh ch om cm rows hour mins) :
    ∃ m ∈ mins, ¬ (hour = oh ∧ jsLt m om = true) ∧ ¬ (hour = ch - 1 ∧ jsGe m cm = true) ∧
      s = { time := timeSlot hour m, available := isAvailable (timeSlot hour m) rows } := by
  induction mins with
  | nil => simp [minuteLoop] at hs
  | cons minute rest ih =>
    unfold minuteLoop at hs
    split_ifs at hs with h1 h2
    · obtain ⟨m, hm, hrest⟩ := ih hs
      exact ⟨m, List.mem_cons_of_mem _ hm, hrest⟩
    · simp at hs
    · rcases List.mem_cons.mp hs with rfl | hs2
      · exact ⟨minute, List.mem_cons_self _ _, h1, h2, rfl⟩
      · obtain ⟨m, hm, hrest⟩ := ih hs2
        exact ⟨m, List.mem_cons_of_mem _ hm, hrest⟩

theorem mem_hourLoop {oh ch : Int} {om cm : Option Int} {rows : List Booking} {s : Slot} :
    ∀ (fuel : Nat) (hour : Int), s ∈ hourLoop oh ch om cm rows fuel hour →
      ∃ h m, hour ≤ h ∧ h < ch ∧ m ∈ minuteSteps ∧ ¬ (h = oh ∧ jsLt m om = true) ∧
        ¬ (h = ch - 1 ∧ jsGe m cm = true) ∧
        s = { time := timeSlot h m, available := isAvailable (timeSlot h m) rows } := by
  intro fuel
  induction fuel with
  | zero => intro hour hs; simp [hourLoop] at hs
  | succ n ih =>
    intro hour hs
    unfold hourLoop at hs
    split_ifs at hs with hlt
    · rcases List.mem_append.mp hs with h1 | h2
      · obtain ⟨m, hm, c1, c2, e⟩ := mem_minuteLoop h1
        exact ⟨hour, m, le_refl _, hlt, hm, c1, c2, e⟩
      · obtain ⟨h, m, hle, rest⟩ := ih (hour + 1) h2
        exact ⟨h, m, by omega, rest⟩
    · simp at hs

theorem mem_minuteSteps {m : Int} (hm : m ∈ minuteSteps) : m = 0 ∨ m = 30 := by
  simpa [minuteSteps] using hm

theorem minuteLoop_pairwise (oh ch : Int) (om cm : Option Int) (rows : List Booking)
    (hour : Int) (h0 : 0 ≤ hour) (h1 : hour < 100) :
    ∀ mins : List Int, mins.Pairwise (fun a b => a < b) → (∀ m ∈ mins, 0 ≤ m ∧ m < 100) →
      (minuteLoop oh ch om cm rows hour mins).Pairwise
        (fun a b => earlier a.time b.time = true) := by
  intro mins
  induction mins with
  | nil => intro _ _; simp [minuteLoop]
  | cons minute rest ih =>
    intro hp hr
    have hp2 := List.pairwise_cons.mp hp
    have hrest := ih hp2.2 (fun m hm => hr m (List.mem_cons_of_mem _ hm))
    unfold minuteLoop
    split_ifs with c1 c2
    · exact hrest
    · exact List.Pairwise.nil
    · refine List.pairwise_cons.mpr ⟨?_, hrest⟩
      intro b hb
      obtain ⟨m, hm, _, _, rfl⟩ := mem_minuteLoop hb
      have hmin := hr minute (List.mem_cons_self _ _)
      have hm2 := hr m (List.mem_cons_of_mem _ hm)
      have hlt := hp2.1 m hm
      simp only [earlier, minutesOfDay_timeSlot hour minute h0 h1 hmin.1 hmin.2,
        minutesOfDay_timeSlot hour m h0 h1 hm2.1 hm2.2]
      simp only [decide_eq_true_eq]
      omega

theorem hourLoop_pairwise (oh ch : Int) (om cm : Option Int) (rows : List Booking)
    (hch : ch ≤ 100) :
    ∀ (fuel : Nat) (hour : Int), 0 ≤ hour →
      (hourLoop oh ch om cm rows fuel hour).Pairwise
        (fun a b => earlier a.time b.time = true) := by
  intro fuel
  induction fuel with
  | zero => intro hour _; simp [hourLoop]
  | succ n ih =>
    intro hour h0
    unfold hourLoop
    split_ifs with hlt
    · refine List.pairwise_append.mpr ⟨?_, ih (hour + 1) (by omega), ?_⟩
      · exact minuteLoop_pairwise oh ch om cm rows hour h0 (by omega) minuteSteps
          (by simp [minuteSteps]) (by intro m hm; rcases mem_minuteSteps hm with rfl | rfl <;> omega)
      · intro a ha b hb
        obtain ⟨m, hm, _, _, rfl⟩ := mem_minuteLoop ha
        obtain ⟨h2, m2, hle, hlt2, hm2, _, _, rfl⟩ := mem_hourLoop n (hour + 1) hb
        have e1 : 0 ≤ m ∧ m ≤ 30 := by rcases mem_minuteSteps hm with rfl | rfl <;> omega
        have e2 : 0 ≤ m2 ∧ m2 ≤ 30 := by rcases mem_minuteSteps hm2 with rfl | rfl <;> omega
        simp only [earlier, minutesOfDay_timeSlot hour m h0 (by omega) e1.1 (by omega),
          minutesOfDay_timeSlot h2 m2 (by omega) (by omega) e2.1 (by omega)]
        simp only [decide_eq_true_eq]
        omega
    · exact List.Pairwise.nil

theorem mem_minuteLoop_steps (oh ch om cm : Int) (rows : List Booking) (hour m : Int)
    (hm : m = 0 ∨ m = 30) (c1 : ¬ (hour = oh ∧ m < om)) (c2 : ¬ (hour = ch - 1 ∧ cm ≤ m)) :
    ({ time := timeSlot hour m, available := isAvailable (timeSlot hour m) rows } : Slot) ∈
      minuteLoop oh ch (some om) (some cm) rows hour minuteSteps := by
  rcases hm with rfl | rfl
  · have e1 : ¬ (hour = oh ∧ jsLt 0 (some om) = true) := by
      simpa [jsLt] using c1
    have e2 : ¬ (hour = ch - 1 ∧ jsGe 0 (some cm) = true) := by
      simpa [jsGe] using c2
    simp only [minuteSteps, minuteLoop, if_neg e1, if_neg e2]
    exact List.mem_cons_self _ _
  · have e1 : ¬ (hour = oh ∧ jsLt 30 (some om) = true) := by
      simpa [jsLt] using c1
    have e2 : ¬ (hour = ch - 1 ∧ jsGe 30 (some cm) = true) := by
      simpa [jsGe] using c2
    have e3 : ¬ (hour = ch - 1 ∧ jsGe 0 (some cm) = true) := by
      simp only [jsGe, decide_eq_true_eq]
      omega
    simp only [minuteSteps, minuteLoop, if_neg e1, if_neg e2, if_neg e3]
    split_ifs
    · exact List.mem_cons_self _ _
    · exact List.mem_cons_of_mem _ (List.mem_cons_self _ _)

theorem mem_hourLoop_of_mem_minuteLoop (oh ch : Int) (om cm : Option Int) (rows : List Booking)
    (h : Int) (s : Slot) (hs : s ∈ minuteLoop oh ch om cm rows h minuteSteps) :
    ∀ (fuel : Nat) (hour : Int), hour ≤ h → h < ch → h - hour < fuel →
      s ∈ hourLoop oh ch om cm rows fuel hour := by
  intro fuel
  induction fuel with
  | zero => intro hour h1 _ h3; omega
  | succ n ih =>
    intro hour h1 h2 h3
    unfold hourLoop
    rw [if_pos (by omega)]
    rcases eq_or_lt_of_le h1 with heq | hlt
    · subst heq
      exact List.mem_append_left _ hs
    · exact List.mem_append_right _ (ih (hour + 1) (by omega) h2 (by omega))

theorem generateSlots_available {o c : String} {rows : List Booking} {s : Slot}
    (hs : s ∈ generateSlots o c rows) : s.available = isAvailable s.time rows := by
  simp only [generateSlots] at hs
  split at hs
  · obtain ⟨h, m, _, _, _, _, _, rfl⟩ := mem_hourLoop _ _ hs
    rfl
  · simp at hs

theorem minuteLoop_congr (oh ch : Int) (om cm : Option Int) (rows rows2 : List Booking)
    (hour : Int) (hrows : ∀ t, isAvailable t rows = isAvailable t rows2) :
    ∀ mins, minuteLoop oh ch om cm rows hour mins = minuteLoop oh ch om cm rows2 hour mins := by
  intro mins
  induction mins with
  | nil => simp [minuteLoop]
  | cons minute rest ih =>
    unfold minuteLoop
    rw [ih, hrows]

theorem hourLoop_congr (oh ch : Int) (om cm : Option Int) (rows rows2 : List Booking)
    (hrows : ∀ t, isAvailable t rows = isAvailable t rows2) :
    ∀ fuel hour, hourLoop oh ch om cm rows fuel hour = hourLoop oh ch om cm rows2 fuel hour := by
  intro fuel
  induction fuel with
  | zero => intro hour; simp [hourLoop]
  | succ n ih =>
    intro hour
    unfold hourLoop
    rw [ih, minuteLoop_congr oh ch om cm rows rows2 hour hrows]

theorem generateSlots_congr (o c : String) (rows rows2 : List Booking)
    (hrows : ∀ t, isAvailable t rows = isAvailable t rows2) :
    generateSlots o c rows = generateSlots o c rows2 := by
  simp only [generateSlots]
  split
  · exact hourLoop_congr _ _ _ _ rows rows2 hrows _ _
  · rfl

theorem isAvailable_map (g : Booking → Booking) (hg : ∀ b, (g b).booking_time = b.booking_time)
    (t : String) : ∀ rows, isAvailable t (rows.map g) = isAvailable t rows := by
  intro rows
  induction rows with
  | nil => rfl
  | cons b rest ih => simp [isAvailable, hg, ih]

/-! ## Lemmas on the weekday -/

theorem makeDay_weekday (y : Int) (m d : Nat) (hm1 : 1 ≤ m) (hm2 : m ≤ 12) :
    (makeDay y m d + 4) % 7 = calendarWeekday y m d := by
  have hA : (y - 1969) / 4 = (y - 1) / 4 - 492 := by omega
  have hB : (y - 1901) / 100 = (y - 1) / 100 - 19 := by omega
  have hC : (y - 1601) / 400 = (y - 1) / 400 - 4 := by omega
  unfold makeDay dayFromYear calendarWeekday daysBeforeMonth
  rw [hA, hB, hC]
  interval_cases m
  · simp [List.range_succ, daysInMonth, isLeapYear]
    omega
  · simp [List.range_succ, daysInMonth, isLeapYear]
    omega
  all_goals
    simp [List.range_succ, daysInMonth, isLeapYear]
    split_ifs with hl
    · have e1 : y / 4 = (y - 1) / 4 + 1 := by omega
      have e2 : y / 100 - y / 400 = (y - 1) / 100 - (y - 1) / 400 := by omega
      omega
    · have e2 : y / 4 - y / 100 + y / 400 = (y - 1) / 4 - (y - 1) / 100 + (y - 1) / 400 := by
        omega
      omega

/-- On a server at or ahead of UTC (by less than a day) the weekday read from
midnight UTC of a calendar date is that date's weekday. -/
theorem weekDay_ahead_of_utc (tz : Int) (h0 : 0 ≤ tz) (h1 : tz < 1440) (y : Int) (m d : Nat)
    (hm1 : 1 ≤ m) (hm2 : m ≤ 12) :
    weekDay (makeDay y m d * msPerDay + tz * 60000) = calendarWeekday y m d := by
  have hday : (makeDay y m d * msPerDay + tz * 60000) / msPerDay = makeDay y m d := by
    unfold msPerDay
    omega
  unfold weekDay
  rw [hday, makeDay_weekday y m d hm1 hm2]

/-- On a server behind UTC (by a day at most) the weekday read from midnight
UTC of a calendar date is the weekday of the day before. -/
theorem weekDay_behind_utc (tz : Int) (h0 : -1440 ≤ tz) (h1 : tz < 0) (y : Int) (m d : Nat)
    (hm1 : 1 ≤ m) (hm2 : m ≤ 12) :
    weekDay (makeDay y m d * msPerDay + tz * 60000) = (calendarWeekday y m d + 6) % 7 := by
  have hday : (makeDay y m d * msPerDay + tz * 60000) / msPerDay = makeDay y m d - 1 := by
    unfold msPerDay
    omega
  have hw := makeDay_weekday y m d hm1 hm2
  unfold weekDay
  rw [hday, ← hw]
  omega

/-! ## Lemmas on the availability handler -/

theorem availabilityHandler_openDay {tz : Int} {store : Store} {date o c : String}
    (h : OpenDay tz store date o c) :
    availabilityHandler tz store date =
      .open date (generateSlots o c (queryBookingsOn store date)) := by
  obtain ⟨hb, dow, hours, rest, hd, hh, hopen, ho, hc⟩ := h
  simp [availabilityHandler, hb, hd, hh, hopen, ho, hc]

theorem availabilityHandler_eq_open {tz : Int} {store : Store} {date d : String}
    {slots : List Slot} (h : availabilityHandler tz store date = .open d slots) :
    d = date ∧ ∃ o c, OpenDay tz store date o c ∧
      slots = generateSlots o c (queryBookingsOn store date) := by
  unfold availabilityHandler at h
  cases hb : queryBlockedDates store date with
  | cons b rest => simp [hb] at h
  | nil =>
    simp only [hb] at h
    cases hd : getDay tz date with
    | none => simp [hd] at h
    | some dow =>
      simp only [hd] at h
      cases hh : queryBusinessHours store dow with
      | nil => simp [hh] at h
      | cons hours rest =>
        simp only [hh] at h
        by_cases hopen : hours.is_open = some true
        · cases ho : hours.open_time with
          | none => simp [hopen, ho] at h
          | some o =>
            cases hc : hours.close_time with
            | none => simp [hopen, ho, hc] at h
            | some c =>
              simp [hopen, ho, hc] at h
              exact ⟨h.1.symm, o, c, ⟨hb, dow, hours, rest, hd, hh, hopen, ho, hc⟩, h.2.symm⟩
        · simp [hopen] at h

theorem foldl_add_eq_sum {α : Type} (f : α → Int) (l : List α) :
    ∀ a : Int, l.foldl (fun sum x => sum + f x) a = a + (l.map f).sum := by
  induction l with
  | nil => intro a; simp
  | cons x rest ih => intro a; simp [ih, add_assoc]

theorem seededStore_openDay :
    OpenDay 0 seededStore "2024-12-25" "09:00" "17:00" :=
  ⟨by decide, 3,
    { day_of_week := 3, is_open := some true, open_time := some "09:00",
      close_time := some "17:00" }, [], by decide, by decide, rfl, rfl, rfl⟩

/-! ## Lemmas on texts with seconds -/

theorem digitChar_ne_colon (d : Nat) (h : d < 10) : Nat.digitChar d ≠ ':' := by
  interval_cases d <;> decide

theorem toDigitsCore_ne_colon (fuel : Nat) : ∀ (n : Nat) (ds : List Char),
    (∀ c ∈ ds, c ≠ ':') → ∀ c ∈ Nat.toDigitsCore 10 fuel n ds, c ≠ ':' := by
  induction fuel with
  | zero => intro n ds hds c hc; exact hds c (by simpa [Nat.toDigitsCore] using hc)
  | succ fuel ih =>
    intro n ds hds c hc
    have hcons : ∀ c ∈ Nat.digitChar (n % 10) :: ds, c ≠ ':' := by
      intro c hc
      rcases List.mem_cons.mp hc with rfl | hc
      · exact digitChar_ne_colon _ (Nat.mod_lt _ (by decide))
      · exact hds c hc
    simp only [Nat.toDigitsCore] at hc
    split at hc
    · exact hcons c hc
    · exact ih _ _ hcons c hc

theorem numberToString_ne_colon (n : Int) : ∀ c ∈ numberToString n, c ≠ ':' := by
  intro c hc
  unfold numberToString at hc
  split at hc
  · rcases List.mem_cons.mp hc with rfl | hc
    · decide
    · exact toDigitsCore_ne_colon _ _ [] (by simp) c hc
  · exact toDigitsCore_ne_colon _ _ [] (by simp) c hc

theorem padStart2_ne_colon (s : List Char) (h : ∀ c ∈ s, c ≠ ':') :
    ∀ c ∈ padStart2 s, c ≠ ':' := by
  intro c hc
  unfold padStart2 at hc
  rcases List.mem_append.mp hc with hc | hc
  · rw [(List.mem_replicate.mp hc).2]; decide
  · exact h c hc

theorem count_colon_eq_zero {s : List Char} (h : ∀ c ∈ s, c ≠ ':') : s.count ':' = 0 :=
  List.count_eq_zero.mpr (fun hmem => h ':' hmem rfl)

/-- A slot text has exactly one colon, whatever the hour and the minute. -/
theorem count_colon_timeSlot (hour minute : Int) : (timeSlot hour minute).data.count ':' = 1 := by
  simp only [timeSlot, List.count_append, List.count_cons_self,
    count_colon_eq_zero (padStart2_ne_colon _ (numberToString_ne_colon hour)),
    count_colon_eq_zero (padStart2_ne_colon _ (numberToString_ne_colon minute))]

/-- A text `HH:MM:SS` has two colons. -/
theorem count_colon_clockTextWithSeconds (h m s : Nat) (hh : h < 100) (hm : m < 100)
    (hs : s < 100) : (clockTextWithSeconds h m s).data.count ':' = 2 := by
  have key : ∀ n, n < 100 → (twoDigits n).count ':' = 0 := by decide
  simp only [clockTextWithSeconds, List.count_append, List.count_cons_self, key h hh, key m hm,
    key s hs]

theorem timeSlot_ne_of_secondsForm (hour minute : Int) {t : String} (ht : HasSecondsForm t) :
    timeSlot hour minute ≠ t := by
  obtain ⟨h, m, s, hh, hm, hs, rfl⟩ := ht
  intro heq
  have h1 := count_colon_timeSlot hour minute
  rw [heq, count_colon_clockTextWithSeconds h m s (by omega) (by omega) (by omega)] at h1
  exact absurd h1 (by decide)

theorem isAvailable_of_secondsForm (slot : String) (rows : List Booking)
    (hslot : ∀ b ∈ rows, slot ≠ b.booking_time) : isAvailable slot rows = true := by
  induction rows with
  | nil => rfl
  | cons b rest ih =>
    simp only [isAvailable]
    rw [if_neg (hslot b (List.mem_cons_self _ _))]
    exact ih (fun c hc => hslot c (List.mem_cons_of_mem _ hc))

/-! ## Lemmas on the column texts -/

theorem digitPair_twoDigits : ∀ n, n < 100 →
    digitPair (Char.ofNat (48 + n / 10)) (Char.ofNat (48 + n % 10)) = some n := by
  decide

theorem plainTime_clockText (h m : Nat) (hh : h < 24) (hm : m < 60) :
    plainTime (clockText h m) = some (clockTextWithSeconds h m 0) := by
  simp [plainTime, clockText, twoDigits, digitPair_twoDigits h (by omega),
    digitPair_twoDigits m (by omega), hh, hm]

theorem plainTime_clockTextWithSeconds (h m s : Nat) (hh : h < 24) (hm : m < 60) (hs : s < 60) :
    plainTime (clockTextWithSeconds h m s) = some (clockTextWithSeconds h m s) := by
  simp [plainTime, clockTextWithSeconds, twoDigits, digitPair_twoDigits h (by omega),
    digitPair_twoDigits m (by omega), digitPair_twoDigits s (by omega), hh, hm, hs]

theorem timeColumn_clockText (input : ColumnInput) (h m : Nat) (hh : h < 24) (hm : m < 60) :
    timeColumn input (clockText h m) = some (clockTextWithSeconds h m 0) := by
  simp [timeColumn, plainTime_clockText h m hh hm]

theorem timeColumn_clockTextWithSeconds (input : ColumnInput) (h m s : Nat) (hh : h < 24)
    (hm : m < 60) (hs : s < 60) :
    timeColumn input (clockTextWithSeconds h m s) = some (clockTextWithSeconds h m s) := by
  simp [timeColumn, plainTime_clockTextWithSeconds h m s hh hm hs]

theorem dateColumn_plain (input : ColumnInput) (text : String) (h : isPlainDate text = true) :
    dateColumn input text = some text := by
  simp [dateColumn, h]

theorem createBooking_of_present (input : ColumnInput) (store : Store) (req : BookingRequest)
    (ids : List Int) (hreq : RequiredFieldsPresent req) (hids : req.service_ids = some ids) :
    ∃ d t, req.booking_date = some d ∧ req.booking_time = some t ∧
      createBooking input store req =
        if (queryServices store ids).isEmpty then (.invalidSelection, store)
        else
          match dateColumn input d, timeColumn input t with
          | some date, some time =>
            if (store.bookings.filter (fun b => b.booking_date = date ∧ b.booking_time = time ∧
                b.status ≠ "cancelled")).length > 0 then (.slotTaken, store)
            else
              (.created
                { id := store.next_booking_id
                  customer_name := req.customer_name.getD ""
                  customer_email := req.customer_email.getD ""
                  customer_phone := req.customer_phone.getD ""
                  service_ids := ids
                  booking_date := date
                  booking_time := time
                  total_duration := totalDuration (queryServices store ids)
                  total_price := totalPrice (queryServices store ids)
                  payment_method := textOr req.payment_method "cash"
                  payment_status := "pending"
                  status := "confirmed"
                  notes := textOr req.notes "" },
                { store with
                  bookings := store.bookings ++
                    [{ id := store.next_booking_id
                       customer_name := req.customer_name.getD ""
                       customer_email := req.customer_email.getD ""
                       customer_phone := req.customer_phone.getD ""
                       service_ids := ids
                       booking_date := date
                       booking_time := time
                       total_duration := totalDuration (queryServices store ids)
                       total_price := totalPrice (queryServices store ids)
                       payment_method := textOr req.payment_method "cash"
                       payment_status := "pending"
                       status := "confirmed"
                       notes := textOr req.notes "" }]
                  next_booking_id := store.next_booking_id + 1 })
          | _, _ => (.failed, store) := by
  obtain ⟨hn, he, hp, _, hd, ht⟩ := hreq
  cases hbd : req.booking_date with
  | none => simp [truthy, hbd] at hd
  | some d =>
    cases hbt : req.booking_time with
    | none => simp [truthy, hbt] at ht
    | some t =>
      have hd2 : d ≠ "" := by simpa [truthy, hbd] using hd
      have ht2 : t ≠ "" := by simpa [truthy, hbt] using ht
      refine ⟨d, t, rfl, rfl, ?_⟩
      cases hdc : dateColumn input d <;> cases htc : timeColumn input t <;>
        simp [createBooking, queryConflicts, hids, hbd, hbt, hn, he, hp, hd2, ht2, hdc, htc]

/-- The response `created` comes with the column texts of the date and the
time of the request and with the totals of the services query. -/
theorem createBooking_created (input : ColumnInput) (store store2 : Store)
    (req : BookingRequest) (b : Booking)
    (h : createBooking input store req = (.created b, store2)) :
    ∃ ids d t, req.service_ids = some ids ∧ req.booking_date = some d ∧
      req.booking_time = some t ∧
      dateColumn input d = some b.booking_date ∧ timeColumn input t = some b.booking_time ∧
      b.service_ids = ids ∧
      b.total_duration = totalDuration (queryServices store ids) ∧
      b.total_price = totalPrice (queryServices store ids) ∧
      b.payment_status = "pending" ∧ b.status = "confirmed" ∧
      store2 = { store with
        bookings := store.bookings ++ [b]
        next_booking_id := store.next_booking_id + 1 } := by
  cases hids : req.service_ids with
  | none => simp [createBooking, hids] at h
  | some ids =>
    cases hd : req.booking_date with
    | none => simp [createBooking, hids, hd] at h
    | some d =>
      cases ht : req.booking_time with
      | none => simp [createBooking, hids, hd, ht] at h
      | some t =>
        cases hdc : dateColumn input d with
        | none =>
          simp only [createBooking, queryConflicts, hids, hd, ht, hdc] at h
          split_ifs at h <;> simp at h
        | some date =>
          cases htc : timeColumn input t with
          | none =>
            simp only [createBooking, queryConflicts, hids, hd, ht, hdc, htc] at h
            split_ifs at h <;> simp at h
          | some time =>
            simp only [createBooking, queryConflicts, hids, hd, ht, hdc, htc] at h
            split_ifs at h with h1 h2 h3
            · simp at h
            · simp at h
            · simp at h
            · simp only [Prod.mk.injEq, BookingResponse.created.injEq] at h
              obtain ⟨rfl, rfl⟩ := h
              exact ⟨ids, d, t, rfl, rfl, rfl, hdc, htc, rfl, rfl, rfl, rfl, rfl, rfl⟩

/-- The collision check of the availability handler: a returned slot has
`available = false` exactly when its text is the `booking_time` text of a
booking of that date whose status is not `cancelled`. -/
theorem slot_unavailable_iff_same_text (tz : Int) (store : Store) (date d : String)
    (slots : List Slot) (h : availabilityHandler tz store date = .open d slots) :
    ∀ s ∈ slots, (s.available = false ↔
      ∃ b ∈ store.bookings,
        b.booking_date = date ∧ b.status ≠ "cancelled" ∧ b.booking_time = s.time) := by
  intro s hs
  obtain ⟨_, o, c, _, rfl⟩ := availabilityHandler_eq_open h
  rw [generateSlots_available hs, isAvailable_eq_false_iff]
  simp only [queryBookingsOn, List.mem_filter, decide_eq_true_eq]
  constructor
  · rintro ⟨b, ⟨hb, hd, hst⟩, ht⟩
    exact ⟨b, hb, hd, hst, ht⟩
  · rintro ⟨b, hb, hd, hst, ht⟩
    exact ⟨b, ⟨hb, hd, hst⟩, ht⟩

/-- The total durations of the bookings change no response of the availability handler. -/
theorem availability_ignores_duration (tz : Int) (store : Store) (date : String)
    (f : Booking → Int) :
    availabilityHandler tz
        { store with
          bookings := store.bookings.map (fun b => { b with total_duration := f b }) } date =
      availabilityHandler tz store date := by
  have hq : queryBookingsOn
      { store with
        bookings := store.bookings.map (fun b => { b with total_duration := f b }) } date =
      (queryBookingsOn store date).map (fun b => { b with total_duration := f b }) := by
    simp only [queryBookingsOn, List.filter_map]
    rfl
  have hg : ∀ o c, generateSlots o c
      ((queryBookingsOn store date).map (fun b => { b with total_duration := f b })) =
      generateSlots o c (queryBookingsOn store date) := fun o c =>
    generateSlots_congr o c _ _
      (fun t => isAvailable_map (fun b => { b with total_duration := f b }) (fun _ => rfl) t _)
  simp only [availabilityHandler, hq, hg]
  rfl

/-! ## The claims -/

/-- C1, as stated, fails: on the seeded store Wednesday 2024-12-25 is not
blocked, open 09:00 to 17:00 and has no bookings, and the slots the handler
returns are not the 16 slots 09:00 to 16:30. -/
theorem not_sixteen_slots_nine_to_five :
    ¬ (∀ (tz : Int) (store : Store) (date : String),
        OpenDay tz store date "09:00" "17:00" → queryBookingsOn store date = [] →
        availabilityHandler tz store date =
          .open date
            (["09:00", "09:30", "10:00", "10:30", "11:00", "11:30", "12:00", "12:30", "13:00",
              "13:30", "14:00", "14:30", "15:00", "15:30", "16:00", "16:30"].map
              (fun t => { time := t, available := true }))) := by
  intro h
  exact absurd (h 0 seededStore "2024-12-25" seededStore_openDay (by decide)) (by decide)

/-- C1, amended: for a date that is not blocked, whose weekday record is open
with open time 09:00 and close time 17:00, and that has no bookings, the
handler returns exactly the 14 slots 09:00, 09:30, ..., 15:30 in that order,
every one with `available = true`. -/
theorem fourteen_slots_nine_to_five (tz : Int) (store : Store) (date : String)
    (hday : OpenDay tz store date "09:00" "17:00")
    (hnone : queryBookingsOn store date = []) :
    availabilityHandler tz store date =
      .open date
        (["09:00", "09:30", "10:00", "10:30", "11:00", "11:30", "12:00", "12:30", "13:00",
          "13:30", "14:00", "14:30", "15:00", "15:30"].map
          (fun t => { time := t, available := true })) := by
  rw [availabilityHandler_openDay hday, hnone]
  have hgen : generateSlots "09:00" "17:00" [] =
      ["09:00", "09:30", "10:00", "10:30", "11:00", "11:30", "12:00", "12:30", "13:00",
        "13:30", "14:00", "14:30", "15:00", "15:30"].map
        (fun t => { time := t, available := true }) := by decide
  rw [hgen]

/-- Witness of amended C1 on the seeded store: Wednesday 2024-12-25. -/
theorem fourteen_slots_nine_to_five_witness :
    OpenDay 0 seededStore "2024-12-25" "09:00" "17:00" ∧
    queryBookingsOn seededStore "2024-12-25" = [] ∧
    availabilityHandler 0 seededStore "2024-12-25" =
      .open "2024-12-25"
        (["09:00", "09:30", "10:00", "10:30", "11:00", "11:30", "12:00", "12:30", "13:00",
          "13:30", "14:00", "14:30", "15:00", "15:30"].map
          (fun t => { time := t, available := true })) :=
  ⟨seededStore_openDay, by decide,
    fourteen_slots_nine_to_five 0 seededStore "2024-12-25" seededStore_openDay (by decide)⟩

/-- C2, as stated, fails: on the seeded store Saturday 2024-12-28 is open 09:00
to 15:00, the half-hour boundary 14:00 lies in that range and is not among the
slots the handler returns. -/
theorem not_every_boundary_before_close_is_a_slot :
    ¬ (∀ (tz : Int) (store : Store) (date o c : String) (oh om ch cm : Nat),
        OpenDay tz store date o c → WellFormedTime o oh om → WellFormedTime c ch cm →
        ∀ h m : Nat, (m = 0 ∨ m = 30) → oh * 60 + om ≤ h * 60 + m →
          h * 60 + m < ch * 60 + cm →
          clockText h m ∈ (availabilityHandler tz store date).slotList.map Slot.time) := by
  intro h
  have hday : OpenDay 0 seededStore "2024-12-28" "09:00" "15:00" :=
    ⟨by decide, 6,
      { day_of_week := 6, is_open := some true, open_time := some "09:00",
        close_time := some "15:00" }, [], by decide, by decide, rfl, rfl, rfl⟩
  exact absurd
    (h 0 seededStore "2024-12-28" "09:00" "15:00" 9 0 15 0 hday (by decide) (by decide) 14 0
      (Or.inl rfl) (by decide) (by decide))
    (by decide)

/-- C2, amended: on an open, non-blocked day with well-formed open and close
times, every half-hour boundary `h:m` (`m` equal to 0 or 30) that is not
before the open time and lies in an hour before the last hour before closing,
or in that last hour with its minute below the closing minute, is the time of
a slot of the response. -/
theorem boundary_before_last_hour_is_a_slot (tz : Int) (store : Store) (date o c : String)
    (oh om ch cm : Nat) (hday : OpenDay tz store date o c)
    (ho : WellFormedTime o oh om) (hc : WellFormedTime c ch cm)
    (h m : Nat) (hm : m = 0 ∨ m = 30) (hopen : oh * 60 + om ≤ h * 60 + m)
    (hclose : h + 1 < ch ∨ (h + 1 = ch ∧ m < cm)) :
    clockText h m ∈ (availabilityHandler tz store date).slotList.map Slot.time := by
  rw [availabilityHandler_openDay hday]
  obtain ⟨ho1, ho2, rfl⟩ := ho
  obtain ⟨hc1, hc2, rfl⟩ := hc
  simp only [AvailabilityResponse.slotList]
  rw [generateSlots_clock oh om ch cm (by omega) (by omega) (by omega) (by omega)]
  have hmem := mem_hourLoop_of_mem_minuteLoop (oh : Int) (ch : Int) (some (om : Int))
    (some (cm : Int)) (queryBookingsOn store date) (h : Int)
    { time := timeSlot h m, available := isAvailable (timeSlot h m) (queryBookingsOn store date) }
    (mem_minuteLoop_steps (oh : Int) (ch : Int) (om : Int) (cm : Int)
      (queryBookingsOn store date) (h : Int) (m : Int) (by omega) (by omega) (by omega))
    ((ch : Int) - oh).toNat (oh : Int) (by omega) (by omega) (by omega)
  rw [List.mem_map]
  exact ⟨_, hmem, timeSlot_clock h m (by omega) (by omega)⟩

/-- Witness of amended C2 on the seeded store: the boundary 13:30 of Saturday
2024-12-28, open 09:00 to 15:00. -/
theorem boundary_before_last_hour_is_a_slot_witness :
    OpenDay 0 seededStore "2024-12-28" "09:00" "15:00" ∧
    clockText 13 30 ∈ (availabilityHandler 0 seededStore "2024-12-28").slotList.map Slot.time :=
  ⟨⟨by decide, 6,
      { day_of_week := 6, is_open := some true, open_time := some "09:00",
        close_time := some "15:00" }, [], by decide, by decide, rfl, rfl, rfl⟩,
    boundary_before_last_hour_is_a_slot 0 seededStore "2024-12-28" "09:00" "15:00" 9 0 15 0
      ⟨by decide, 6,
        { day_of_week := 6, is_open := some true, open_time := some "09:00",
          close_time := some "15:00" }, [], by decide, by decide, rfl, rfl, rfl⟩
      (by decide) (by decide) 13 30 (Or.inr rfl) (by decide) (Or.inl (by decide))⟩

/-- C3: on an open, non-blocked day with well-formed open and close times the
handler answers with slots, and every slot is a time `h:m` with `m` equal to
0 or 30, not before the open time and strictly before the close time; a slot
of the hour before the closing hour has its minute below the closing minute
and a slot of the opening hour has its minute at or after the opening minute. -/
theorem slots_within_business_hours (tz : Int) (store : Store) (date o c : String)
    (oh om ch cm : Nat) (hday : OpenDay tz store date o c)
    (ho : WellFormedTime o oh om) (hc : WellFormedTime c ch cm) :
    ∃ slots, availabilityHandler tz store date = .open date slots ∧
      ∀ s ∈ slots, ∃ h m : Nat, s.time = clockText h m ∧ (m = 0 ∨ m = 30) ∧
        oh * 60 + om ≤ h * 60 + m ∧ h * 60 + m < ch * 60 + cm ∧
        (h + 1 = ch → m < cm) ∧ (h = oh → om ≤ m) := by
  refine ⟨_, availabilityHandler_openDay hday, ?_⟩
  obtain ⟨ho1, ho2, rfl⟩ := ho
  obtain ⟨hc1, hc2, rfl⟩ := hc
  intro s hs
  rw [generateSlots_clock oh om ch cm (by omega) (by omega) (by omega) (by omega)] at hs
  obtain ⟨h, m, hle, hlt, hm, c1, c2, rfl⟩ := mem_hourLoop _ _ hs
  have h0 : 0 ≤ h := by omega
  obtain ⟨hn, rfl⟩ := Int.eq_ofNat_of_zero_le h0
  simp only [jsLt, jsGe, decide_eq_true_eq] at c1 c2
  rcases mem_minuteSteps hm with rfl | rfl
  · refine ⟨hn, 0, timeSlot_clock hn 0 (by omega) (by omega), Or.inl rfl, ?_, ?_, ?_, ?_⟩ <;>
      omega
  · refine ⟨hn, 30, timeSlot_clock hn 30 (by omega) (by omega), Or.inr rfl, ?_, ?_, ?_, ?_⟩ <;>
      omega

/-- Witness of C3 on the seeded store: Wednesday 2024-12-25, open 09:00 to 17:00. -/
theorem slots_within_business_hours_witness :
    OpenDay 0 seededStore "2024-12-25" "09:00" "17:00" ∧
    WellFormedTime "09:00" 9 0 ∧ WellFormedTime "17:00" 17 0 ∧
    ∃ slots, availabilityHandler 0 seededStore "2024-12-25" = .open "2024-12-25" slots ∧
      ∀ s ∈ slots, ∃ h m : Nat, s.time = clockText h m ∧ (m = 0 ∨ m = 30) ∧
        9 * 60 + 0 ≤ h * 60 + m ∧ h * 60 + m < 17 * 60 + 0 ∧
        (h + 1 = 17 → m < 0) ∧ (h = 9 → 0 ≤ m) :=
  ⟨seededStore_openDay, (by decide), (by decide),
    slots_within_business_hours 0 seededStore "2024-12-25" "09:00" "17:00" 9 0 17 0
      seededStore_openDay (by decide) (by decide)⟩

/-- C4 (fails on the code): the booking of service 1 on 2024-12-25 at 10:00
leaves on the seeded store a confirmed row whose time reads `10:00:00`, and
on that store the availability handler returns every slot of the day,
10:00 included, with `available = true`: the response is the one of the store
without bookings.  So the slot that starts when a non-cancelled booking
starts is not marked.  Whatever the store and the request are, a booking
created for a time `HH:MM` is stored as `HH:MM:00`, which is the text of no
slot, so it marks no slot unavailable. -/
theorem booked_slot_is_returned_available (input : ColumnInput) :
    createBooking input seededStore (sampleRequest [1] "2024-12-25" "10:00") =
      (.created (sampleBooking "10:00:00" 120 "confirmed"), bookedStore) ∧
    timeColumn input "10:00" = some (sampleBooking "10:00:00" 120 "confirmed").booking_time ∧
    (sampleBooking "10:00:00" 120 "confirmed").status = "confirmed" ∧
    availabilityHandler 0 bookedStore "2024-12-25" =
      .open "2024-12-25"
        (generateSlots "09:00" "17:00" (queryBookingsOn bookedStore "2024-12-25")) ∧
    ({ time := "10:00", available := true } : Slot) ∈
      generateSlots "09:00" "17:00" (queryBookingsOn bookedStore "2024-12-25") ∧
    (generateSlots "09:00" "17:00" (queryBookingsOn bookedStore "2024-12-25")).filter
      (fun s => !s.available) = [] ∧
    availabilityHandler 0 bookedStore "2024-12-25" =
      availabilityHandler 0 seededStore "2024-12-25" ∧
    (∀ (store store2 : Store) (req : BookingRequest) (b : Booking) (hour minute : Nat),
      hour < 24 → minute < 60 → req.booking_time = some (clockText hour minute) →
      createBooking input store req = (.created b, store2) →
      b.booking_time = clockTextWithSeconds hour minute 0 ∧
        ∀ (h m : Int) (rows : List Booking),
          isAvailable (timeSlot h m) (b :: rows) = isAvailable (timeSlot h m) rows) := by
  refine ⟨rfl, rfl, rfl, by decide, by decide, by decide, by decide, ?_⟩
  intro store store2 req b hour minute hh hm htime hcreated
  obtain ⟨ids, d, t, _, _, ht, _, htc, _⟩ := createBooking_created input store store2 req b hcreated
  rw [htime] at ht
  cases ht
  rw [timeColumn_clockText input hour minute hh hm] at htc
  have hb : b.booking_time = clockTextWithSeconds hour minute 0 := (Option.some.inj htc).symm
  refine ⟨hb, ?_⟩
  intro h m rows
  have hne : timeSlot h m ≠ b.booking_time :=
    timeSlot_ne_of_secondsForm h m ⟨hour, minute, 0, hh, hm, by decide, hb⟩
  simp only [isAvailable, if_neg hne]

/-- C5: when a blocked-dates entry exists for the date, the handler answers
`available = false` with the reason of an entry of that date (of that very
entry when the table holds one entry per date), or with `Date unavailable`
when that reason is null or empty, and offers no slots, whatever the business
hours, the bookings and the time zone are. -/
theorem blocked_date_is_unavailable (tz : Int) (store : Store) (date : String)
    (entry : BlockedDate) (hmem : entry ∈ store.blocked_dates) (hdate : entry.date = date) :
    ∃ first ∈ store.blocked_dates, first.date = date ∧
      ((∀ x ∈ store.blocked_dates, ∀ y ∈ store.blocked_dates, x.date = y.date → x = y) →
        first = entry) ∧
      (∀ reason, first.reason = some reason → reason ≠ "" →
        availabilityHandler tz store date = .unavailable reason) ∧
      ((first.reason = none ∨ first.reason = some "") →
        availabilityHandler tz store date = .unavailable "Date unavailable") ∧
      (availabilityHandler tz store date).available = some false ∧
      (availabilityHandler tz store date).slotList = [] := by
  have hq : entry ∈ queryBlockedDates store date := by
    simp [queryBlockedDates, List.mem_filter, hmem, hdate]
  cases hb : queryBlockedDates store date with
  | nil => rw [hb] at hq; simp at hq
  | cons first rest =>
    have hfirst : first ∈ queryBlockedDates store date := by rw [hb]; exact List.mem_cons_self _ _
    simp only [queryBlockedDates, List.mem_filter, decide_eq_true_eq] at hfirst
    have hresp : availabilityHandler tz store date =
        .unavailable (textOr first.reason "Date unavailable") := by
      simp [availabilityHandler, hb]
    refine ⟨first, hfirst.1, hfirst.2, ?_, ?_, ?_, ?_, ?_⟩
    · intro huniq
      exact huniq first hfirst.1 entry hmem (by rw [hfirst.2, hdate])
    · intro reason hreason hne
      rw [hresp, hreason]
      simp [textOr, hne]
    · intro hnone
      rw [hresp]
      rcases hnone with h | h <;> rw [h] <;> rfl
    · rw [hresp]; rfl
    · rw [hresp]; rfl

/-- Witness of C5: 2024-12-25 blocked for the reason `Holiday` on the seeded
store gives that reason, and blocked with an empty reason gives
`Date unavailable`. -/
theorem blocked_date_is_unavailable_witness :
    availabilityHandler 0 christmasBlockedStore "2024-12-25" = .unavailable "Holiday" ∧
    availabilityHandler 0
        { seededStore with blocked_dates := [{ date := "2024-12-25", reason := some "" }] }
        "2024-12-25" = .unavailable "Date unavailable" := by
  obtain ⟨first, hfirst, _, huniq, hreason, _, _, _⟩ :=
    blocked_date_is_unavailable 0 christmasBlockedStore "2024-12-25"
      { date := "2024-12-25", reason := some "Holiday" } (by decide) rfl
  obtain ⟨first2, hfirst2, _, huniq2, _, hempty, _, _⟩ :=
    blocked_date_is_unavailable 0
      { seededStore with blocked_dates := [{ date := "2024-12-25", reason := some "" }] }
      "2024-12-25" { date := "2024-12-25", reason := some "" } (by decide) rfl
  have e1 : first = { date := "2024-12-25", reason := some "Holiday" } :=
    huniq (by decide)
  have e2 : first2 = { date := "2024-12-25", reason := some "" } :=
    huniq2 (by decide)
  exact ⟨hreason "Holiday" (by rw [e1]) (by decide), hempty (Or.inr (by rw [e2]))⟩

/-- C6: for a date without blocked entry whose weekday has no business-hours
row, or whose first row has `is_open` false or null, the handler answers
`available = false` with the reason `Closed on this day` and offers no slots;
the open and close times of the row, present or null, play no part. -/
theorem closed_day_is_unavailable (tz : Int) (store : Store) (date : String) (dayOfWeek : Int)
    (hblocked : queryBlockedDates store date = [])
    (hday : getDay tz date = some dayOfWeek)
    (hclosed : queryBusinessHours store dayOfWeek = [] ∨
      ∃ hours rest, queryBusinessHours store dayOfWeek = hours :: rest ∧
        hours.is_open ≠ some true) :
    availabilityHandler tz store date = .unavailable "Closed on this day" ∧
    (availabilityHandler tz store date).available = some false ∧
    (availabilityHandler tz store date).slotList = [] := by
  have hresp : availabilityHandler tz store date = .unavailable "Closed on this day" := by
    rcases hclosed with hnone | ⟨hours, rest, hh, hopen⟩
    · simp [availabilityHandler, hblocked, hday, hnone]
    · simp [availabilityHandler, hblocked, hday, hh, hopen]
  refine ⟨hresp, ?_, ?_⟩ <;> rw [hresp] <;> rfl

/-- Witness of C6: Sunday 2024-12-29 on the seeded store, whose Sunday row is
closed and has null open and close times. -/
theorem closed_day_is_unavailable_witness :
    availabilityHandler 0 seededStore "2024-12-29" = .unavailable "Closed on this day" ∧
    (availabilityHandler 0 seededStore "2024-12-29").available = some false ∧
    (availabilityHandler 0 seededStore "2024-12-29").slotList = [] :=
  closed_day_is_unavailable 0 seededStore "2024-12-29" 0 (by decide) (by decide)
    (Or.inr ⟨{ day_of_week := 0, is_open := some false, open_time := none, close_time := none },
      [], by decide, by decide⟩)

/-- C7: on an open, non-blocked day with well-formed open and close times the
handler answers with slots in strictly ascending chronological order, so no
slot time occurs twice. -/
theorem slots_strictly_ascending (tz : Int) (store : Store) (date o c : String)
    (oh om ch cm : Nat) (hday : OpenDay tz store date o c)
    (ho : WellFormedTime o oh om) (hc : WellFormedTime c ch cm) :
    ∃ slots, availabilityHandler tz store date = .open date slots ∧
      slots.Pairwise (fun a b => earlier a.time b.time = true) ∧
      (slots.map Slot.time).Nodup := by
  refine ⟨_, availabilityHandler_openDay hday, ?_⟩
  obtain ⟨ho1, ho2, rfl⟩ := ho
  obtain ⟨hc1, hc2, rfl⟩ := hc
  rw [generateSlots_clock oh om ch cm (by omega) (by omega) (by omega) (by omega)]
  have hp := hourLoop_pairwise (oh : Int) (ch : Int) (some (om : Int)) (some (cm : Int))
    (queryBookingsOn store date) (by omega) ((ch : Int) - oh).toNat (oh : Int) (by omega)
  refine ⟨hp, ?_⟩
  rw [List.Nodup, List.pairwise_map]
  refine hp.imp ?_
  intro a b hab heq
  rw [heq] at hab
  simp only [earlier] at hab
  split at hab
  · rename_i x y hx hy
    rw [hx] at hy
    cases hy
    simp at hab
  · simp at hab

/-- Witness of C7 on the seeded store: Wednesday 2024-12-25, open 09:00 to 17:00. -/
theorem slots_strictly_ascending_witness :
    ∃ slots, availabilityHandler 0 seededStore "2024-12-25" = .open "2024-12-25" slots ∧
      slots.Pairwise (fun a b => earlier a.time b.time = true) ∧
      (slots.map Slot.time).Nodup :=
  slots_strictly_ascending 0 seededStore "2024-12-25" "09:00" "17:00" 9 0 17 0
    seededStore_openDay (by decide) (by decide)

/-- C8 (fails on the code): on a server five hours behind UTC the weekday
computed for 2024-12-25, a Wednesday (3), is 2, while at UTC it is 3; with it
the handler reads Monday 2024-12-30 (weekday 1, open in the seeded hours) as a
Sunday and answers that the day is closed. -/
theorem getDay_behind_utc_is_previous_weekday :
    getDay (-300) "2024-12-25" = some 2 ∧ calendarWeekday 2024 12 25 = 3 ∧
    getDay 0 "2024-12-25" = some 3 ∧
    getDay (-300) "2024-12-30" = some 0 ∧ calendarWeekday 2024 12 30 = 1 ∧
    availabilityHandler (-300) seededStore "2024-12-30" = .unavailable "Closed on this day" ∧
    (availabilityHandler 0 seededStore "2024-12-30").available = some true := by
  decide

/-- C9: when a booking is created, its stored total duration is the sum of
`duration_minutes`, and its stored total price the sum of `price` with a null
price counted as zero, over the rows of the services table whose id occurs in
the request's `service_ids`: every such row once, however often its id is
listed, and nothing for an id without row. -/
theorem booking_totals_sum_over_selected_services (input : ColumnInput) (store store2 : Store)
    (req : BookingRequest) (b : Booking)
    (h : createBooking input store req = (.created b, store2)) :
    ∃ ids, req.service_ids = some ids ∧
      b.total_duration =
        ((store.services.filter (fun s => s.id ∈ ids)).map (fun s => s.duration_minutes)).sum ∧
      b.total_price =
        ((store.services.filter (fun s => s.id ∈ ids)).map (fun s => s.price.getD 0)).sum ∧
      store2.bookings = store.bookings ++ [b] := by
  obtain ⟨ids, d, t, hids, _, _, _, _, _, hdur, hprice, _, _, hstore⟩ :=
    createBooking_created input store store2 req b h
  refine ⟨ids, hids, ?_, ?_, ?_⟩
  · rw [hdur]
    simp [totalDuration, queryServices, foldl_add_eq_sum]
  · rw [hprice]
    simp [totalPrice, queryServices, foldl_add_eq_sum]
  · rw [hstore]

/-- Witness of C9: services 1 and 3 of the seeded store, with id 1 listed
twice and the unknown id 7. -/
theorem booking_totals_sum_over_selected_services_witness :
    ∃ ids, (sampleRequest [1, 1, 7, 3] "2024-12-25" "10:00").service_ids = some ids ∧
      (createBooking sampleInput seededStore
          (sampleRequest [1, 1, 7, 3] "2024-12-25" "10:00")).1 =
        .created sampleCreated ∧
      (360 : Int) =
        ((seededStore.services.filter (fun s => s.id ∈ ids)).map
          (fun s => s.duration_minutes)).sum ∧
      (65000 : Int) =
        ((seededStore.services.filter (fun s => s.id ∈ ids)).map
          (fun s => s.price.getD 0)).sum := by
  obtain ⟨ids, h1, h2, h3, _⟩ :=
    booking_totals_sum_over_selected_services sampleInput seededStore
      (createBooking sampleInput seededStore
        (sampleRequest [1, 1, 7, 3] "2024-12-25" "10:00")).2
      (sampleRequest [1, 1, 7, 3] "2024-12-25" "10:00")
      sampleCreated (by decide)
  exact ⟨ids, h1, by decide, h2, h3⟩

/-- C10: for a request with all required fields, the handler answers
`Invalid service selection` exactly when no id of `service_ids` is the id of a
row of the services table, the empty list included; the answer then carries
no booking and no totals, and the store is unchanged. -/
theorem invalid_selection_iff_no_known_service (input : ColumnInput) (store : Store)
    (req : BookingRequest) (ids : List Int) (hreq : RequiredFieldsPresent req)
    (hids : req.service_ids = some ids) :
    ((createBooking input store req).1 = .invalidSelection ↔
      ∀ id ∈ ids, ∀ s ∈ store.services, s.id ≠ id) ∧
    (ids = [] → (createBooking input store req).1 = .invalidSelection) ∧
    ((createBooking input store req).1 = .invalidSelection →
      (createBooking input store req).2 = store) := by
  obtain ⟨d, t, _, _, hcb⟩ := createBooking_of_present input store req ids hreq hids
  have hempty : (queryServices store ids).isEmpty = true ↔
      ∀ id ∈ ids, ∀ s ∈ store.services, s.id ≠ id := by
    rw [List.isEmpty_iff, queryServices, List.filter_eq_nil_iff]
    simp only [decide_eq_true_eq]
    constructor
    · intro h id hid s hs e
      exact h s hs (e ▸ hid)
    · intro h s hs hmem
      exact h s.id hmem s hs rfl
  have hiff : (createBooking input store req).1 = .invalidSelection ↔
      (queryServices store ids).isEmpty = true := by
    rw [hcb]
    split_ifs with h1
    · simp [h1]
    · split
      · split_ifs <;> simp [h1]
      · simp [h1]
  refine ⟨hiff.trans hempty, ?_, ?_⟩
  · intro hnil
    exact hiff.mpr (hempty.mpr (by simp [hnil]))
  · intro hinv
    have h1 := hiff.mp hinv
    rw [hcb, if_pos h1]

/-- Witness of C10: a complete request on the seeded store naming only the
unknown service ids 7 and 8. -/
theorem invalid_selection_iff_no_known_service_witness :
    RequiredFieldsPresent (sampleRequest [7, 8] "2024-12-25" "10:00") ∧
    (((createBooking sampleInput seededStore (sampleRequest [7, 8] "2024-12-25" "10:00")).1 =
        .invalidSelection ↔
      ∀ id ∈ [7, 8], ∀ s ∈ seededStore.services, s.id ≠ id) ∧
    (([7, 8] : List Int) = [] →
      (createBooking sampleInput seededStore (sampleRequest [7, 8] "2024-12-25" "10:00")).1 =
        .invalidSelection) ∧
    ((createBooking sampleInput seededStore (sampleRequest [7, 8] "2024-12-25" "10:00")).1 =
        .invalidSelection →
      (createBooking sampleInput seededStore (sampleRequest [7, 8] "2024-12-25" "10:00")).2 =
        seededStore)) ∧
    (createBooking sampleInput seededStore (sampleRequest [7, 8] "2024-12-25" "10:00")).1 =
      .invalidSelection :=
  ⟨by decide,
    invalid_selection_iff_no_known_service sampleInput seededStore
      (sampleRequest [7, 8] "2024-12-25" "10:00") [7, 8] (by decide) rfl,
    by decide⟩

/-! ## The claims on booking conflicts and on the stored booking -/

/-- C11: for a request with all required fields and at least one service id
of the services table, the handler answers `Time slot no longer available`
exactly when the store reads the date and the time of the request and holds a
booking of that day and time of day (a row with the column texts of the two
values) whose status is not `cancelled`; on that answer the store is
unchanged; bookings of that day and time that are all cancelled never cause
the answer; and when the store rejects the text of the date or of the time,
the answer is the error of the `catch` and the store is unchanged. -/
theorem slot_conflict_iff_active_booking_at_slot (input : ColumnInput) (store : Store)
    (req : BookingRequest) (ids : List Int) (date time : String)
    (hreq : RequiredFieldsPresent req) (hids : req.service_ids = some ids)
    (hknown : ∃ id ∈ ids, ∃ s ∈ store.services, s.id = id)
    (hdate : req.booking_date = some date) (htime : req.booking_time = some time) :
    ((createBooking input store req).1 = .slotTaken ↔
      ∃ day clock, dateColumn input date = some day ∧ timeColumn input time = some clock ∧
        ∃ b ∈ store.bookings,
          b.booking_date = day ∧ b.booking_time = clock ∧ b.status ≠ "cancelled") ∧
    ((createBooking input store req).1 = .slotTaken → (createBooking input store req).2 = store) ∧
    ((∀ day clock, dateColumn input date = some day → timeColumn input time = some clock →
      ∀ b ∈ store.bookings, b.booking_date = day → b.booking_time = clock →
        b.status = "cancelled") →
      (createBooking input store req).1 ≠ .slotTaken) ∧
    ((dateColumn input date = none ∨ timeColumn input time = none) →
      createBooking input store req = (.failed, store)) := by
  obtain ⟨d, t, hd, ht, hcb⟩ := createBooking_of_present input store req ids hreq hids
  rw [hdate] at hd
  rw [htime] at ht
  cases hd
  cases ht
  have hrows : (queryServices store ids).isEmpty = false := by
    obtain ⟨id, hid, s, hs, hsid⟩ := hknown
    cases hq : queryServices store ids with
    | nil =>
      have hmem : s ∈ queryServices store ids := by
        simp only [queryServices, List.mem_filter, decide_eq_true_eq]
        exact ⟨hs, hsid ▸ hid⟩
      rw [hq] at hmem
      simp at hmem
    | cons x xs => rfl
  have hpos : ∀ day clock,
      (store.bookings.filter (fun b => b.booking_date = day ∧ b.booking_time = clock ∧
        b.status ≠ "cancelled")).length > 0 ↔
      ∃ b ∈ store.bookings,
        b.booking_date = day ∧ b.booking_time = clock ∧ b.status ≠ "cancelled" := by
    intro day clock
    have hlen : ∀ l : List Booking, l.length > 0 ↔ ∃ b, b ∈ l := by
      intro l
      cases l with
      | nil => simp
      | cons x xs => simp
    rw [hlen]
    simp only [List.mem_filter, decide_eq_true_eq]
  simp only [hrows, Bool.false_eq_true, if_false] at hcb
  cases hdc : dateColumn input date with
  | none =>
    simp only [hdc] at hcb
    rw [hcb]
    simp
  | some day =>
    cases htc : timeColumn input time with
    | none =>
      simp only [hdc, htc] at hcb
      rw [hcb]
      simp
    | some clock =>
      simp only [hdc, htc] at hcb
      rw [hcb]
      by_cases hc : (store.bookings.filter (fun b => b.booking_date = day ∧
          b.booking_time = clock ∧ b.status ≠ "cancelled")).length > 0
      · have hex := (hpos day clock).mp hc
        rw [if_pos hc]
        refine ⟨⟨fun _ => ⟨day, clock, rfl, rfl, hex⟩, fun _ => rfl⟩, fun _ => rfl, ?_, ?_⟩
        · intro hall
          obtain ⟨b, hb, hbd, hbt, hbs⟩ := hex
          exact absurd (hall day clock rfl rfl b hb hbd hbt) hbs
        · intro h
          rcases h with h | h <;> simp at h
      · rw [if_neg hc]
        refine ⟨⟨fun h => ?_, ?_⟩, fun h => ?_, ?_, ?_⟩
        · simp at h
        · rintro ⟨day2, clock2, h1, h2, hex⟩
          simp only [Option.some.injEq] at h1 h2
          subst h1 h2
          exact absurd ((hpos _ _).mpr hex) hc
        · simp at h
        · intro _ h
          simp at h
        · intro h
          rcases h with h | h <;> simp at h

/-- Witness of C11: on the store the booking of 10:00 on 2024-12-25 leaves,
whose row reads `10:00:00`, a complete request for 10:00 is refused; it is
not refused when that booking is cancelled. -/
theorem slot_conflict_iff_active_booking_at_slot_witness :
    (createBooking sampleInput bookedStore (sampleRequest [1] "2024-12-25" "10:00")).1 =
      .slotTaken ∧
    (createBooking sampleInput
        { seededStore with bookings := [sampleBooking "10:00:00" 120 "cancelled"] }
        (sampleRequest [1] "2024-12-25" "10:00")).1 ≠ .slotTaken :=
  ⟨(slot_conflict_iff_active_booking_at_slot sampleInput bookedStore
      (sampleRequest [1] "2024-12-25" "10:00") [1] "2024-12-25" "10:00" (by decide) rfl
      (by decide) rfl rfl).1.mpr
      ⟨"2024-12-25", "10:00:00", by decide, by decide, by decide⟩,
    by decide⟩

/-- C20, as stated, fails for the text of the time: the booking created on the
seeded store for the request of 2024-12-25 at `10:00` holds the time
`10:00:00`, the text in which the `TIME` column gives the time back, not the
text of the request. -/
theorem not_every_created_booking_keeps_the_time_text :
    ¬ (∀ (input : ColumnInput) (store store2 : Store) (req : BookingRequest) (b : Booking),
        createBooking input store req = (.created b, store2) →
        b.payment_status = "pending" ∧ b.status = "confirmed" ∧
          req.booking_date = some b.booking_date ∧ req.booking_time = some b.booking_time ∧
          req.service_ids = some b.service_ids ∧
          store2.bookings = store.bookings ++ [b]) := by
  intro h
  have h2 := (h sampleInput seededStore
    (createBooking sampleInput seededStore (sampleRequest [1, 1, 7, 3] "2024-12-25" "10:00")).2
    (sampleRequest [1, 1, 7, 3] "2024-12-25" "10:00") sampleCreated (by decide)).2.2.2.1
  exact absurd h2 (by decide)

/-- C20, amended: a created booking is stored with payment status `pending`
and status `confirmed`, with the service ids of the request, and with the
date and the time of the request as the `DATE` and `TIME` columns give them
back: a date `YYYY-MM-DD` and a time `HH:MM:SS` as they are, a time `HH:MM`
as `HH:MM:00`.  It is the one row added to the bookings, and the other tables
are unchanged. -/
theorem created_booking_is_pending_and_confirmed (input : ColumnInput) (store store2 : Store)
    (req : BookingRequest) (b : Booking)
    (h : createBooking input store req = (.created b, store2)) :
    b.payment_status = "pending" ∧ b.status = "confirmed" ∧
    (∃ d t, req.booking_date = some d ∧ req.booking_time = some t ∧
      dateColumn input d = some b.booking_date ∧ timeColumn input t = some b.booking_time ∧
      (isPlainDate d = true → b.booking_date = d) ∧
      (∀ hour minute, hour < 24 → minute < 60 → t = clockText hour minute →
        b.booking_time = clockTextWithSeconds hour minute 0) ∧
      (∀ hour minute second, hour < 24 → minute < 60 → second < 60 →
        t = clockTextWithSeconds hour minute second → b.booking_time = t)) ∧
    req.service_ids = some b.service_ids ∧
    store2.bookings = store.bookings ++ [b] ∧
    store2.bookings.length = store.bookings.length + 1 ∧
    store2.services = store.services ∧ store2.business_hours = store.business_hours ∧
    store2.blocked_dates = store.blocked_dates := by
  obtain ⟨ids, d, t, hids, hd, ht, hdc, htc, hbi, _, _, hpay, hst, hstore⟩ :=
    createBooking_created input store store2 req b h
  refine ⟨hpay, hst, ⟨d, t, hd, ht, hdc, htc, ?_, ?_, ?_⟩, ?_, ?_, ?_, ?_, ?_, ?_⟩
  · intro hplain
    rw [dateColumn_plain input d hplain] at hdc
    exact (Option.some.inj hdc).symm
  · intro hour minute hh hm htext
    rw [htext, timeColumn_clockText input hour minute hh hm] at htc
    exact (Option.some.inj htc).symm
  · intro hour minute second hh hm hs htext
    rw [htext, timeColumn_clockTextWithSeconds input hour minute second hh hm hs] at htc
    rw [htext]
    exact (Option.some.inj htc).symm
  · rw [hids, hbi]
  · rw [hstore]
  · rw [hstore]
    simp
  · rw [hstore]
  · rw [hstore]
  · rw [hstore]

/-- Witness of amended C20: the booking created on the seeded store for
services 1 and 3 on 2024-12-25 at 10:00. -/
theorem created_booking_is_pending_and_confirmed_witness :
    createBooking sampleInput seededStore (sampleRequest [1, 1, 7, 3] "2024-12-25" "10:00") =
      (.created sampleCreated,
        { seededStore with bookings := [sampleCreated], next_booking_id := 2 }) ∧
    sampleCreated.payment_status = "pending" ∧ sampleCreated.status = "confirmed" ∧
    sampleCreated.booking_date = "2024-12-25" ∧ sampleCreated.booking_time = "10:00:00" ∧
    (sampleRequest [1, 1, 7, 3] "2024-12-25" "10:00").service_ids =
      some sampleCreated.service_ids :=
  have h := created_booking_is_pending_and_confirmed sampleInput seededStore
    { seededStore with bookings := [sampleCreated], next_booking_id := 2 }
    (sampleRequest [1, 1, 7, 3] "2024-12-25" "10:00") sampleCreated (by decide)
  ⟨by decide, h.1, h.2.1, rfl, rfl, h.2.2.2.1⟩

/-! ## Lemmas on the action pattern and on trimming -/

theorem occursIn_iff (pattern : List Char) (s : List Char) :
    occursIn pattern s = true ↔ ∃ a b, s = a ++ pattern ++ b := by
  induction s with
  | nil =>
    simp only [occursIn, List.isEmpty_iff]
    constructor
    · intro h
      exact ⟨[], [], by simp [h]⟩
    · rintro ⟨a, b, h⟩
      have h2 := congrArg List.length h
      simp at h2
      exact List.length_eq_zero.mp (by omega)
  | cons c rest ih =>
    simp only [occursIn, Bool.or_eq_true, List.isPrefixOf_iff_prefix, ih]
    constructor
    · rintro (⟨t, ht⟩ | ⟨a, b, hab⟩)
      · exact ⟨[], t, by simp [ht]⟩
      · exact ⟨c :: a, b, by simp [hab]⟩
    · rintro ⟨a, b, hab⟩
      cases a with
      | nil => exact Or.inl ⟨b, by simpa using hab.symm⟩
      | cons x xs =>
        simp only [List.cons_append, List.cons.injEq] at hab
        exact Or.inr ⟨xs, b, hab.2⟩

theorem throughLastClose_eq_none (s : List Char) :
    throughLastClose s = none ↔ ∀ c ∈ s, c ≠ '}' := by
  induction s with
  | nil => simp [throughLastClose]
  | cons c rest ih =>
    unfold throughLastClose
    cases h : throughLastClose rest with
    | some kept =>
      simp only [false_iff, reduceCtorEq]
      intro hall
      have := ih.mpr (fun x hx => hall x (List.mem_cons_of_mem _ hx))
      rw [h] at this
      cases this
    | none =>
      have hrest := ih.mp h
      by_cases hc : c = '}'
      · simp [hc]
      · simp only [hc, if_false, true_iff]
        intro x hx
        rcases List.mem_cons.mp hx with rfl | hx2
        · exact hc
        · exact hrest x hx2

theorem throughLastClose_eq_some {s span : List Char} (h : throughLastClose s = some span) :
    ∃ inner after, span = inner ++ ['}'] ∧ s = span ++ after ∧ ∀ c ∈ after, c ≠ '}' := by
  induction s generalizing span with
  | nil => simp [throughLastClose] at h
  | cons c rest ih =>
    unfold throughLastClose at h
    cases hr : throughLastClose rest with
    | some kept =>
      rw [hr] at h
      simp only [Option.some.injEq] at h
      obtain ⟨inner, after, h1, h2, h3⟩ := ih hr
      refine ⟨c :: inner, after, ?_, ?_, h3⟩
      · rw [← h, h1]; rfl
      · rw [← h, h2]
        simp
    | none =>
      rw [hr] at h
      by_cases hc : c = '}'
      · simp only [hc, if_true, Option.some.injEq] at h
        refine ⟨[], rest, ?_, ?_, (throughLastClose_eq_none rest).mp hr⟩
        · rw [← h]; rfl
        · rw [← h, hc]; rfl
      · simp [hc] at h

theorem throughLastClose_append (inner after : List Char) (hafter : ∀ c ∈ after, c ≠ '}') :
    throughLastClose (inner ++ '}' :: after) = some (inner ++ ['}']) := by
  induction inner with
  | nil =>
    simp only [List.nil_append]
    unfold throughLastClose
    rw [(throughLastClose_eq_none after).mpr hafter]
    simp
  | cons c rest ih =>
    simp only [List.cons_append]
    unfold throughLastClose
    rw [ih]

theorem dropWhile_append_stop (p : Char → Bool) (a : List Char) (x : Char) (b : List Char)
    (hx : p x = false) : (a ++ x :: b).dropWhile p = a.dropWhile p ++ x :: b := by
  induction a with
  | nil => simp [List.dropWhile, hx]
  | cons c rest ih =>
    by_cases hc : p c = true
    · simp [List.dropWhile, hc, ih]
    · simp [List.dropWhile, hc]

theorem dropWhile_no_open (before : List Char) (rest : List Char)
    (hbefore : ∀ c ∈ before, c ≠ '{') :
    (before ++ '{' :: rest).dropWhile notOpenBrace = '{' :: rest := by
  induction before with
  | nil => simp [List.dropWhile, notOpenBrace]
  | cons c more ih =>
    have hc : notOpenBrace c = true := by
      simp [notOpenBrace, hbefore c (List.mem_cons_self _ _)]
    simp only [List.cons_append, List.dropWhile, hc]
    exact ih (fun x hx => hbefore x (List.mem_cons_of_mem _ hx))

theorem actionMatch_sound {s matched : List Char} (h : actionMatch s = some matched) :
    MatchesActionPattern s := by
  unfold actionMatch at h
  obtain ⟨before, hbefore⟩ : ∃ before, s = before ++ s.dropWhile notOpenBrace :=
    ⟨_, (List.takeWhile_append_dropWhile notOpenBrace s).symm⟩
  cases hd : s.dropWhile notOpenBrace with
  | nil => simp [hd] at h
  | cons open_ rest =>
    have hopen : open_ = '{' := by
      have hne : s.dropWhile notOpenBrace ≠ [] := by rw [hd]; simp
      have hhead := List.head_dropWhile_not notOpenBrace s hne
      simp only [hd, List.head_cons] at hhead
      simpa [notOpenBrace] using hhead
    rw [hd] at h hbefore
    simp only at h
    cases hc : throughLastClose rest with
    | none => simp [hc] at h
    | some span =>
      rw [hc] at h
      simp only at h
      split_ifs at h with hocc
      obtain ⟨inner, after, h1, h2, _⟩ := throughLastClose_eq_some hc
      rw [h1, List.dropLast_concat] at hocc
      obtain ⟨a, b, hab⟩ := (occursIn_iff _ _).mp hocc
      refine ⟨before, a, b, after, ?_⟩
      rw [hbefore, hopen, h2, h1, hab]
      simp

theorem actionMatch_span (before inner after : List Char)
    (hbefore : ∀ c ∈ before, c ≠ '{') (hafter : ∀ c ∈ after, c ≠ '}')
    (hkey : occursIn actionKeyword inner = true) :
    actionMatch (before ++ '{' :: (inner ++ '}' :: after)) = some ('{' :: (inner ++ ['}'])) := by
  unfold actionMatch
  rw [dropWhile_no_open before _ hbefore]
  simp only
  rw [throughLastClose_append inner after hafter]
  simp only [List.dropLast_concat, hkey, if_true]

theorem not_matches_of_part {s t a b : List Char} (hs : s = a ++ t ++ b)
    (h : ¬ MatchesActionPattern s) : ¬ MatchesActionPattern t := by
  rintro ⟨before, m1, m2, after, ht⟩
  exact h ⟨a ++ before, m1, m2, after ++ b, by rw [hs, ht]; simp⟩

theorem jsTrim_inside (s : String) :
    ∃ a b, s.data = a ++ (jsTrim s).data ++ b := by
  obtain ⟨a, ha⟩ := List.dropWhile_suffix (l := s.data) isJsWhiteSpace
  obtain ⟨b, hb⟩ := List.dropWhile_suffix (l := (s.data.dropWhile isJsWhiteSpace).reverse)
    isJsWhiteSpace
  refine ⟨a, b.reverse, ?_⟩
  have hb2 := congrArg List.reverse hb
  simp only [List.reverse_append, List.reverse_reverse] at hb2
  simp only [jsTrim]
  rw [List.append_assoc, hb2, ha]

theorem jsTrim_around (before inner after : List Char) (s : String)
    (hs : s.data = before ++ '{' :: (inner ++ '}' :: after)) :
    ∃ before2 after2, (∀ c ∈ before2, c ∈ before) ∧ (∀ c ∈ after2, c ∈ after) ∧
      (jsTrim s).data = before2 ++ '{' :: (inner ++ '}' :: after2) := by
  refine ⟨before.dropWhile isJsWhiteSpace,
    (after.reverse.dropWhile isJsWhiteSpace).reverse, ?_, ?_, ?_⟩
  · intro c hc
    exact (List.dropWhile_sublist _).subset hc
  · intro c hc
    have := (List.dropWhile_sublist _).subset (List.mem_reverse.mp hc)
    exact List.mem_reverse.mp this
  · simp only [jsTrim, hs]
    rw [dropWhile_append_stop isJsWhiteSpace before '{' _ (by decide)]
    have hrev : (before.dropWhile isJsWhiteSpace ++ '{' :: (inner ++ '}' :: after)).reverse =
        after.reverse ++ '}' :: (inner.reverse ++ '{' :: (before.dropWhile isJsWhiteSpace).reverse) := by
      simp
    rw [hrev, dropWhile_append_stop isJsWhiteSpace after.reverse '}' _ (by decide)]
    simp

theorem dropWhile_first_open (before tail : List Char) :
    ∃ between, (before ++ '{' :: tail).dropWhile notOpenBrace = '{' :: (between ++ tail) := by
  induction before with
  | nil => exact ⟨[], by simp [List.dropWhile, notOpenBrace]⟩
  | cons c more ih =>
    by_cases hc : c = '{'
    · refine ⟨more ++ ['{'], ?_⟩
      simp [List.dropWhile, notOpenBrace, hc]
    · obtain ⟨between, hb⟩ := ih
      refine ⟨between, ?_⟩
      have hn : notOpenBrace c = true := by simp [notOpenBrace, hc]
      simp only [List.cons_append, List.dropWhile, hn]
      exact hb

theorem throughLastClose_through (u v : List Char) :
    ∃ w, throughLastClose (u ++ '}' :: v) = some (u ++ w ++ ['}']) := by
  induction u with
  | nil =>
    simp only [List.nil_append]
    unfold throughLastClose
    cases hv : throughLastClose v with
    | none => exact ⟨[], by simp⟩
    | some kept =>
      obtain ⟨inner, after, h1, _, _⟩ := throughLastClose_eq_some hv
      exact ⟨'}' :: inner, by simp [h1]⟩
  | cons c rest ih =>
    obtain ⟨w, hw⟩ := ih
    refine ⟨w, ?_⟩
    simp only [List.cons_append]
    unfold throughLastClose
    rw [hw]

/-- The model of the pattern finds a match exactly in the texts that have an
opening brace, later the keyword and later a closing brace. -/
theorem actionMatch_isSome_iff (s : List Char) :
    (actionMatch s).isSome = true ↔ MatchesActionPattern s := by
  constructor
  · intro h
    cases hm : actionMatch s with
    | none => rw [hm] at h; simp at h
    | some matched => exact actionMatch_sound hm
  · rintro ⟨before, m1, m2, after, hs⟩
    obtain ⟨between, hb⟩ := dropWhile_first_open before (m1 ++ actionKeyword ++ m2 ++ '}' :: after)
    obtain ⟨w, hw⟩ := throughLastClose_through (between ++ m1 ++ actionKeyword ++ m2) after
    have hrest : between ++ (m1 ++ actionKeyword ++ m2 ++ '}' :: after) =
        (between ++ m1 ++ actionKeyword ++ m2) ++ '}' :: after := by
      simp only [List.append_assoc]
    have hocc : occursIn actionKeyword (between ++ m1 ++ actionKeyword ++ m2 ++ w) = true :=
      (occursIn_iff _ _).mpr ⟨between ++ m1, m2 ++ w, by simp only [List.append_assoc]⟩
    unfold actionMatch
    rw [hs, hb]
    simp only
    rw [hrest, hw]
    simp only [List.dropLast_concat, hocc, if_true, Option.isSome_some]

/-! ## Lemmas on the dispatcher -/

theorem not_matches_of_no_open {s : List Char} (h : ∀ c ∈ s, c ≠ '{') :
    ¬ MatchesActionPattern s := by
  rintro ⟨before, m1, m2, after, hs⟩
  exact h '{' (by rw [hs]; simp) rfl

theorem directiveOf_eq_none_of_not_matches {stdout : String}
    (h : ¬ MatchesActionPattern stdout.data) : directiveOf stdout = none := by
  obtain ⟨a, b, hab⟩ := jsTrim_inside stdout
  have htrim := not_matches_of_part hab h
  unfold directiveOf
  cases hm : actionMatch (jsTrim stdout).data with
  | none => rfl
  | some matched => exact absurd (actionMatch_sound hm) htrim

theorem dispatch_of_no_directive (env : Env) (context : Context) (store : Store)
    {stdout : String} (h : directiveOf stdout = none) :
    dispatch env context store stdout =
      ({ answer := jsTrim stdout, actionExecuted := false, actionResult := none }, store) := by
  simp [dispatch, h]

theorem dispatch_of_directive (env : Env) (context : Context) (store : Store)
    {stdout : String} {request : Json} (h : directiveOf stdout = some request) :
    dispatch env context store stdout = runAction env context store (jsTrim stdout) request := by
  simp [dispatch, h]

theorem actionName_eq_some {request : Json} {name : String}
    (h : actionName request = some name) : request.get "action" = some (.str name) := by
  unfold actionName at h
  split at h
  · rename_i n hn
    simp only [Option.some.injEq] at h
    rw [hn, h]
  · simp at h

theorem directiveOf_blockChristmas : directiveOf blockChristmas = some blockChristmasRequest := by
  rfl

/-! ## The claims on the assistant dispatcher -/

/-- C12: when the generated text nowhere has an opening brace followed later
by the keyword `"action"` and later by a closing brace, the dispatch returns
`actionExecuted = false`, `actionResult = null` and the trimmed generated text
as answer, and the store is unchanged. -/
theorem plain_answer_without_action_pattern (env : Env) (context : Context) (store : Store)
    (stdout : String) (h : ¬ MatchesActionPattern stdout.data) :
    dispatch env context store stdout =
      ({ answer := jsTrim stdout, actionExecuted := false, actionResult := none }, store) :=
  dispatch_of_no_directive env context store (directiveOf_eq_none_of_not_matches h)

/-- Witness of C12: a generated text without braces, with white space around it. -/
theorem plain_answer_without_action_pattern_witness :
    ¬ MatchesActionPattern "  Revenue is up this month.\n".data ∧
    dispatch sampleEnv sampleContext seededStore "  Revenue is up this month.\n" =
      ({ answer := "Revenue is up this month.", actionExecuted := false, actionResult := none },
        seededStore) :=
  ⟨not_matches_of_no_open (by decide),
    plain_answer_without_action_pattern sampleEnv sampleContext seededStore
      "  Revenue is up this month.\n" (not_matches_of_no_open (by decide))⟩

/-- C16: when the directive parsed from the generated text has an `action`
that is none of `BLOCK_DATE`, `UPDATE_SERVICE_PRICE`, `GENERATE_REPORT`,
`VIEW_CUSTOMER`, `GENERATE_NEWSLETTER` (a missing action included), the
dispatch returns `actionExecuted = false`, `actionResult = null` and the
trimmed generated text as answer, and the store is unchanged: no handler ran. -/
theorem unknown_action_is_plain_answer (env : Env) (context : Context) (store : Store)
    (stdout : String) (request : Json) (hdir : directiveOf stdout = some request)
    (hunknown : ∀ name ∈ recognizedActions, request.get "action" ≠ some (.str name)) :
    dispatch env context store stdout =
      ({ answer := jsTrim stdout, actionExecuted := false, actionResult := none }, store) := by
  have hne : ∀ name ∈ recognizedActions, actionName request ≠ some name :=
    fun name hname h => hunknown name hname (actionName_eq_some h)
  rw [dispatch_of_directive env context store hdir]
  unfold runAction
  simp only [recognizedActions, List.mem_cons, List.mem_singleton, forall_eq_or_imp, forall_eq,
    List.not_mem_nil, false_implies, implies_true, and_true] at hne
  obtain ⟨h1, h2, h3, h4, h5⟩ := hne
  simp only [h1, h2, h3, h4, h5, if_false]

/-- Witness of C16: the directive `{"action":"DELETE_ALL","params":{}}`. -/
theorem unknown_action_is_plain_answer_witness :
    dispatch sampleEnv sampleContext seededStore deleteAll =
      ({ answer := jsTrim deleteAll, actionExecuted := false, actionResult := none },
        seededStore) :=
  unknown_action_is_plain_answer sampleEnv sampleContext seededStore deleteAll
    (.obj [("action", .str "DELETE_ALL"), ("params", .obj [])]) rfl
    (by
      intro name hname h
      have hstr : name = "DELETE_ALL" := by
        have h2 : (some (Json.str "DELETE_ALL") : Option Json) = some (Json.str name) := h
        simp only [Option.some.injEq, Json.str.injEq] at h2
        exact h2.symm
      rw [hstr] at hname
      exact absurd hname (by decide))

theorem executeBlockDate_christmas (env : Env) (store : Store) :
    executeBlockDate env store (blockChristmasRequest.get "params") =
      if store.blocked_dates.any (fun r => r.date = "2024-12-25") then
        some (.alreadyBlocked, store)
      else
        some (.blockedDate christmasRow,
          { store with blocked_dates := store.blocked_dates ++ [christmasRow] }) := by
  rfl

theorem runAction_blockChristmas (env : Env) (context : Context) (store : Store)
    (answer : String) :
    runAction env context store answer blockChristmasRequest =
      if store.blocked_dates.any (fun r => r.date = "2024-12-25") then
        ({ answer := blockDateAnswer ((blockChristmasRequest.get "params").getD .null),
           actionExecuted := true, actionResult := some .alreadyBlocked }, store)
      else
        ({ answer := blockDateAnswer ((blockChristmasRequest.get "params").getD .null),
           actionExecuted := true, actionResult := some (.blockedDate christmasRow) },
          { store with blocked_dates := store.blocked_dates ++ [christmasRow] }) := by
  have hname : actionName blockChristmasRequest = some "BLOCK_DATE" := rfl
  unfold runAction
  rw [if_pos hname, executeBlockDate_christmas]
  split_ifs with h <;> rfl

theorem aiAssistant_answered (env : Env) (context : Context) (digest : String) (store : Store)
    (question : Option String) (stdout : String) (hq : truthy question = true)
    (hrun : env.runGemini (geminiCommand env.apiKey (buildPrompt digest (question.getD ""))) =
      some stdout) :
    aiAssistant env (some context) digest store question =
      (.answered (question.getD "") (dispatch env context store stdout).1,
        (dispatch env context store stdout).2) := by
  simp [aiAssistant, hq, hrun]

/-- C13: from a store in which 2024-12-25 is not blocked, dispatching
`{"action":"BLOCK_DATE","params":{"date":"2024-12-25","reason":"Holiday"}}`
appends the one blocked date with that date and reason and returns
`actionExecuted = true` with a result whose `success` is true; dispatching the
same text again leaves the store unchanged and returns `actionExecuted = true`
with a result whose `success` is false and whose `error` is
`Date already blocked`; and the request of the second dispatch is answered
with the success-shaped response. -/
theorem block_date_then_duplicate (env : Env) (context : Context) (store : Store)
    (hfree : ∀ r ∈ store.blocked_dates, r.date ≠ "2024-12-25") :
    (dispatch env context store blockChristmas).2 =
      { store with blocked_dates := store.blocked_dates ++ [christmasRow] } ∧
    (dispatch env context store blockChristmas).1.actionExecuted = true ∧
    (dispatch env context store blockChristmas).1.actionResult =
      some (.blockedDate christmasRow) ∧
    (ActionResult.blockedDate christmasRow).success = true ∧
    (dispatch env context (dispatch env context store blockChristmas).2 blockChristmas).2 =
      (dispatch env context store blockChristmas).2 ∧
    (dispatch env context (dispatch env context store blockChristmas).2
      blockChristmas).1.actionExecuted = true ∧
    (dispatch env context (dispatch env context store blockChristmas).2
      blockChristmas).1.actionResult = some .alreadyBlocked ∧
    ActionResult.alreadyBlocked.success = false ∧
    ActionResult.alreadyBlocked.error = some "Date already blocked" ∧
    (∀ (digest : String) (question : Option String), truthy question = true →
      env.runGemini (geminiCommand env.apiKey (buildPrompt digest (question.getD ""))) =
        some blockChristmas →
      (aiAssistant env (some context) digest (dispatch env context store blockChristmas).2
          question).1 =
        .answered (question.getD "")
          (dispatch env context (dispatch env context store blockChristmas).2
            blockChristmas).1) := by
  have hnot : store.blocked_dates.any (fun r => decide (r.date = "2024-12-25")) = false := by
    rw [List.any_eq_false]
    intro r hr
    simpa using hfree r hr
  have hfirst : dispatch env context store blockChristmas =
      ({ answer := blockDateAnswer ((blockChristmasRequest.get "params").getD .null),
         actionExecuted := true, actionResult := some (.blockedDate christmasRow) },
        { store with blocked_dates := store.blocked_dates ++ [christmasRow] }) := by
    rw [dispatch_of_directive env context store directiveOf_blockChristmas,
      runAction_blockChristmas, hnot]
    rfl
  have hnow : ({ store with blocked_dates := store.blocked_dates ++ [christmasRow] } :
      Store).blocked_dates.any (fun r => decide (r.date = "2024-12-25")) = true := by
    simp [christmasRow]
  have hsecond : dispatch env context
      { store with blocked_dates := store.blocked_dates ++ [christmasRow] } blockChristmas =
      ({ answer := blockDateAnswer ((blockChristmasRequest.get "params").getD .null),
         actionExecuted := true, actionResult := some .alreadyBlocked },
        { store with blocked_dates := store.blocked_dates ++ [christmasRow] }) := by
    rw [dispatch_of_directive env context _ directiveOf_blockChristmas,
      runAction_blockChristmas, hnow]
    rfl
  have hstore : (dispatch env context store blockChristmas).2 =
      { store with blocked_dates := store.blocked_dates ++ [christmasRow] } := by
    rw [hfirst]
  rw [hstore, hsecond, hfirst]
  refine ⟨rfl, rfl, rfl, rfl, rfl, rfl, rfl, rfl, rfl, ?_⟩
  intro digest question hq hrun
  rw [aiAssistant_answered env context digest _ question blockChristmas hq hrun, hsecond]

/-- Witness of C13 on the seeded store, which has no blocked date. -/
theorem block_date_then_duplicate_witness :
    (dispatch sampleEnv sampleContext seededStore blockChristmas).2 = christmasBlockedStore ∧
    (dispatch sampleEnv sampleContext christmasBlockedStore blockChristmas).2 =
      christmasBlockedStore ∧
    (dispatch sampleEnv sampleContext christmasBlockedStore
      blockChristmas).1.actionResult = some .alreadyBlocked := by
  have h := block_date_then_duplicate sampleEnv sampleContext seededStore (by decide)
  exact ⟨h.1, h.2.2.2.2.1, h.2.2.2.2.2.2.1⟩

/-- C14 (fails on the code): the `BLOCK_DATE` case sets the answer before
looking at the result of the handler.  For the directive that blocks
2024-12-25, the answer on a store where the date is already blocked, where
the result has `success = false`, is the very answer given on a store where
the block succeeds, and it says that the date has been blocked. -/
theorem block_answer_ignores_failed_result (env : Env) (context : Context) :
    (dispatch env context christmasBlockedStore blockChristmas).1.actionResult =
      some .alreadyBlocked ∧
    ActionResult.alreadyBlocked.success = false ∧
    (dispatch env context seededStore blockChristmas).1.actionResult =
      some (.blockedDate christmasRow) ∧
    (ActionResult.blockedDate christmasRow).success = true ∧
    (dispatch env context christmasBlockedStore blockChristmas).1.answer =
      (dispatch env context seededStore blockChristmas).1.answer ∧
    (dispatch env context christmasBlockedStore blockChristmas).1.answer =
      "\u00e2\u0153\u2026 I\x27ve blocked 2024-12-25 for you. Reason: Holiday. This date is now unavailable for bookings." := by
  have h1 : dispatch env context christmasBlockedStore blockChristmas =
      ({ answer := blockDateAnswer ((blockChristmasRequest.get "params").getD .null),
         actionExecuted := true, actionResult := some .alreadyBlocked },
        christmasBlockedStore) := by
    rw [dispatch_of_directive env context _ directiveOf_blockChristmas,
      runAction_blockChristmas]
    rfl
  have h2 : dispatch env context seededStore blockChristmas =
      ({ answer := blockDateAnswer ((blockChristmasRequest.get "params").getD .null),
         actionExecuted := true, actionResult := some (.blockedDate christmasRow) },
        christmasBlockedStore) := by
    rw [dispatch_of_directive env context _ directiveOf_blockChristmas,
      runAction_blockChristmas]
    rfl
  rw [h1, h2]
  exact ⟨rfl, rfl, rfl, rfl, rfl, by decide⟩

theorem runAction_executed_any_answer (env : Env) (context : Context) (store : Store)
    (answer answer2 : String) (request : Json)
    (h : (runAction env context store answer request).1.actionExecuted = true) :
    runAction env context store answer2 request = runAction env context store answer request := by
  unfold runAction at h ⊢
  by_cases h1 : actionName request = some "BLOCK_DATE"
  · simp only [h1, if_true] at h ⊢
    cases he : executeBlockDate env store (request.get "params") with
    | none => simp [he] at h
    | some p =>
      cases hp : request.get "params" with
      | none => simp [he, hp] at h
      | some params => rfl
  · simp only [h1, if_false] at h ⊢
    by_cases h2 : actionName request = some "UPDATE_SERVICE_PRICE"
    · simp only [h2, if_true] at h ⊢
      cases he : executeUpdateServicePrice env store (request.get "params") with
      | none => simp [he] at h
      | some p =>
        cases hp : request.get "params" with
        | none => simp [he, hp] at h
        | some params => rfl
    · simp only [h2, if_false] at h ⊢
      by_cases h3 : actionName request = some "GENERATE_REPORT"
      · simp only [h3, if_true] at h ⊢
        cases he : executeGenerateReport context (request.get "params") with
        | none => simp [he] at h
        | some p =>
          cases hp : request.get "params" with
          | none => simp [he, hp] at h
          | some params => rfl
      · simp only [h3, if_false] at h ⊢
        by_cases h4 : actionName request = some "VIEW_CUSTOMER"
        · simp only [h4, if_true] at h ⊢
          cases he : executeViewCustomer env context (request.get "params") with
          | none => simp [he] at h
          | some result =>
            cases result with
            | customer c =>
              cases c with
              | some found => rfl
              | none =>
                by_cases hn : isNullish (request.get "params") = true
                · simp [he, hn] at h
                · simp [hn]
            | _ =>
              by_cases hn : isNullish (request.get "params") = true
              · simp [he, hn] at h
              · simp [hn]
        · simp only [h4, if_false] at h ⊢
          by_cases h5 : actionName request = some "GENERATE_NEWSLETTER"
          · simp only [h5, if_true] at h ⊢
            cases he : executeGenerateNewsletter env context (request.get "params") with
            | none => simp [he] at h
            | some result => rfl
          · simp [h5] at h

theorem jsTrim_braced (inner : List Char) :
    jsTrim (String.mk ('{' :: (inner ++ ['}']))) = String.mk ('{' :: (inner ++ ['}'])) := by
  obtain ⟨before2, after2, hb, ha, h⟩ :=
    jsTrim_around [] inner [] (String.mk ('{' :: (inner ++ ['}']))) (by simp)
  have hb2 : before2 = [] := List.eq_nil_iff_forall_not_mem.mpr (fun c hc => by simpa using hb c hc)
  have ha2 : after2 = [] := List.eq_nil_iff_forall_not_mem.mpr (fun c hc => by simpa using ha c hc)
  rw [hb2, ha2] at h
  apply String.ext
  simpa using h

theorem directiveOf_braced (stdout : String) (before inner after : List Char)
    (hs : stdout.data = before ++ '{' :: (inner ++ '}' :: after))
    (hbefore : ∀ c ∈ before, c ≠ '{') (hafter : ∀ c ∈ after, c ≠ '}')
    (hkey : occursIn actionKeyword inner = true) :
    directiveOf stdout = jsonParse (String.mk ('{' :: (inner ++ ['}']))) := by
  obtain ⟨before2, after2, hb, ha, h⟩ := jsTrim_around before inner after stdout hs
  unfold directiveOf
  rw [h, actionMatch_span before2 inner after2 (fun c hc => hbefore c (hb c hc))
    (fun c hc => hafter c (ha c hc)) hkey]

/-- C15, as stated, fails: the text made of the valid directive `blockChristmas`
followed by ` or {}` embeds that directive, which alone is executed, and the
dispatch of the text executes nothing. -/
theorem not_first_valid_directive_wins :
    ¬ (∀ (env : Env) (context : Context) (store : Store) (stdout : String)
        (before object after : List Char) (request : Json),
        stdout.data = before ++ object ++ after →
        jsonParse (String.mk object) = some request →
        (∃ name ∈ recognizedActions, actionName request = some name) →
        (dispatch env context store stdout).1.actionExecuted =
            (dispatch env context store (String.mk object)).1.actionExecuted ∧
          (dispatch env context store stdout).2 =
            (dispatch env context store (String.mk object)).2) := by
  intro h
  have h2 := (h sampleEnv sampleContext seededStore (blockChristmas ++ " or \x7b\x7d") []
    blockChristmas.data " or \x7b\x7d".data blockChristmasRequest (by decide) rfl
    ⟨"BLOCK_DATE", by decide, rfl⟩).1
  exact absurd h2 (by decide)

/-- C15, amended: when the generated text has no opening brace before an
object text, no closing brace after it, and the object text holds the keyword
`"action"` between its braces, the directive the dispatcher parses is that
object, and whenever the object dispatched alone is executed, the dispatch of
the whole text gives the same reply and the same store. -/
theorem directive_between_outer_braces_is_dispatched (env : Env) (context : Context)
    (store : Store) (stdout : String) (before inner after : List Char)
    (hs : stdout.data = before ++ '{' :: (inner ++ '}' :: after))
    (hbefore : ∀ c ∈ before, c ≠ '{') (hafter : ∀ c ∈ after, c ≠ '}')
    (hkey : occursIn actionKeyword inner = true) :
    directiveOf stdout = jsonParse (String.mk ('{' :: (inner ++ ['}']))) ∧
    ((dispatch env context store (String.mk ('{' :: (inner ++ ['}'])))).1.actionExecuted = true →
      dispatch env context store stdout =
        dispatch env context store (String.mk ('{' :: (inner ++ ['}'])))) := by
  have hd := directiveOf_braced stdout before inner after hs hbefore hafter hkey
  have hd0 := directiveOf_braced (String.mk ('{' :: (inner ++ ['}']))) [] inner []
    (by simp) (by simp) (by simp) hkey
  refine ⟨hd, ?_⟩
  intro hexec
  cases hp : jsonParse (String.mk ('{' :: (inner ++ ['}']))) with
  | none =>
    rw [hp] at hd0
    rw [dispatch_of_no_directive env context store hd0] at hexec
    simp at hexec
  | some request =>
    rw [hp] at hd hd0
    rw [dispatch_of_directive env context store hd0] at hexec
    rw [dispatch_of_directive env context store hd, dispatch_of_directive env context store hd0]
    rw [runAction_executed_any_answer env context store _ (jsTrim stdout) request hexec]

/-- Witness of amended C15: the directive `blockChristmas` inside a sentence without braces. -/
theorem directive_between_outer_braces_is_dispatched_witness :
    directiveOf ("Sure! " ++ blockChristmas ++ " Done.\n") = some blockChristmasRequest ∧
    (dispatch sampleEnv sampleContext seededStore
        ("Sure! " ++ blockChristmas ++ " Done.\n")).1.actionExecuted = true ∧
    (dispatch sampleEnv sampleContext seededStore
        ("Sure! " ++ blockChristmas ++ " Done.\n")).2 = christmasBlockedStore := by
  have h := directive_between_outer_braces_is_dispatched sampleEnv sampleContext seededStore
    ("Sure! " ++ blockChristmas ++ " Done.\n") "Sure! ".data
    (blockChristmas.data.drop 1).dropLast " Done.\n".data (by decide) (by decide) (by decide)
    (by decide)
  have hsame : String.mk ('{' :: ((blockChristmas.data.drop 1).dropLast ++ ['}'])) =
      blockChristmas := by decide
  rw [hsame] at h
  have hexec : (dispatch sampleEnv sampleContext seededStore blockChristmas).1.actionExecuted =
      true := by decide
  refine ⟨h.1.trans rfl, ?_, ?_⟩
  · rw [h.2 hexec]
    exact hexec
  · rw [h.2 hexec]
    decide

theorem isNullish_eq_false {value : Option Json} (h : isNullish value = false) :
    ∃ p, value = some p ∧ p ≠ .null := by
  cases value with
  | none => simp [isNullish] at h
  | some p =>
    refine ⟨p, rfl, ?_⟩
    rintro rfl
    simp [isNullish] at h

theorem executeBlockDate_eq_none_iff (env : Env) (store : Store) (params : Option Json) :
    executeBlockDate env store params = none ↔
      isNullish params = true ∨ dateParam env ((params.getD .null).get "date") = none ∨
      reasonParam env
        (valueOr ((params.getD .null).get "reason") "Blocked via AI Assistant") = none := by
  unfold executeBlockDate
  split
  · simp [isNullish]
  · simp [isNullish]
  · rename_i p hnull
    have hn : isNullish (some p) = false := by
      cases p <;> simp_all [isNullish]
    simp only [hn, Bool.false_eq_true, false_or, Option.getD_some]
    cases hdate : dateParam env (p.get "date") <;>
      cases hreason : reasonParam env (valueOr (p.get "reason") "Blocked via AI Assistant") <;>
      simp
    split_ifs <;> simp

theorem executeUpdateServicePrice_eq_none_iff (env : Env) (store : Store)
    (params : Option Json) :
    executeUpdateServicePrice env store params = none ↔
      isNullish params = true ∨
      castParam env env.castPrice ((params.getD .null).get "price") = none ∨
      castParam env env.castInteger ((params.getD .null).get "service_id") = none := by
  unfold executeUpdateServicePrice
  split
  · simp [isNullish]
  · simp [isNullish]
  · rename_i p hnull
    have hn : isNullish (some p) = false := by
      cases p <;> simp_all [isNullish]
    simp only [hn, Bool.false_eq_true, false_or, Option.getD_some]
    cases hprice : castParam env env.castPrice (p.get "price") <;>
      cases hid : castParam env env.castInteger (p.get "service_id") <;> simp

theorem executeGenerateReport_eq_none_iff (context : Context) (params : Option Json) :
    executeGenerateReport context params = none ↔ isNullish params = true := by
  unfold executeGenerateReport
  split
  · simp [isNullish]
  · simp [isNullish]
  · rename_i p hnull
    cases p <;> simp_all [isNullish]

theorem executeGenerateNewsletter_eq_none_iff (env : Env) (context : Context)
    (params : Option Json) :
    executeGenerateNewsletter env context params = none ↔ isNullish params = true := by
  unfold executeGenerateNewsletter
  split
  · simp [isNullish]
  · simp [isNullish]
  · rename_i p hnull
    have hn : isNullish (some p) = false := by
      cases p <;> simp_all [isNullish]
    simp only [hn, Bool.false_eq_true, iff_false]
    split <;> simp

theorem executeViewCustomer_eq_none_iff (env : Env) (context : Context)
    (params : Option Json) :
    executeViewCustomer env context params = none ↔
      context.all_customers ≠ [] ∧
        (isNullish params = true ∨
          ∀ email, (params.getD .null).get "email" ≠ some (.str email)) := by
  unfold executeViewCustomer
  split
  · rename_i hc
    simp [hc]
  · rename_i first others hc
    simp only [hc, ne_eq, reduceCtorEq, not_false_eq_true, true_and]
    split
    · simp [isNullish]
    · simp [isNullish]
    · rename_i p hnull
      have hn : isNullish (some p) = false := by
        cases p <;> simp_all [isNullish]
      simp only [hn, Bool.false_eq_true, false_or, Option.getD_some]
      split
      · rename_i email hemail
        simp [hemail]
      · rename_i hemail
        simp only [true_iff]
        intro email he
        exact hemail email he

/-- When no action is executed the answer is the trimmed text and the store is unchanged. -/
theorem runAction_not_executed (env : Env) (context : Context) (store : Store)
    (answer : String) (request : Json)
    (h : (runAction env context store answer request).1.actionExecuted = false) :
    (runAction env context store answer request).1.answer = answer ∧
    (runAction env context store answer request).2 = store := by
  unfold runAction at h ⊢
  by_cases h1 : actionName request = some "BLOCK_DATE"
  · simp only [h1, if_true] at h ⊢
    cases he : executeBlockDate env store (request.get "params") with
    | none => exact ⟨rfl, rfl⟩
    | some p =>
      obtain ⟨result, store2⟩ := p
      cases hp : request.get "params" with
      | none => exact ⟨rfl, rfl⟩
      | some params =>
        rw [hp] at he
        simp [hp, he] at h
  · simp only [h1, if_false] at h ⊢
    by_cases h2 : actionName request = some "UPDATE_SERVICE_PRICE"
    · simp only [h2, if_true] at h ⊢
      cases he : executeUpdateServicePrice env store (request.get "params") with
      | none => exact ⟨rfl, rfl⟩
      | some p =>
        obtain ⟨result, store2⟩ := p
        cases hp : request.get "params" with
        | none => exact ⟨rfl, rfl⟩
        | some params =>
          rw [hp] at he
          simp [hp, he] at h
    · simp only [h2, if_false] at h ⊢
      by_cases h3 : actionName request = some "GENERATE_REPORT"
      · simp only [h3, if_true] at h ⊢
        cases he : executeGenerateReport context (request.get "params") with
        | none => exact ⟨rfl, rfl⟩
        | some p =>
          cases hp : request.get "params" with
          | none => exact ⟨rfl, rfl⟩
          | some params =>
            rw [hp] at he
            simp [hp, he] at h
      · simp only [h3, if_false] at h ⊢
        by_cases h4 : actionName request = some "VIEW_CUSTOMER"
        · simp only [h4, if_true] at h ⊢
          cases he : executeViewCustomer env context (request.get "params") with
          | none => exact ⟨rfl, rfl⟩
          | some result =>
            cases result with
            | customer c =>
              cases c with
              | some found => simp [he] at h
              | none =>
                by_cases hn : isNullish (request.get "params") = true
                · simp [hn]
                · simp [he, hn] at h
            | _ =>
              by_cases hn : isNullish (request.get "params") = true
              · simp [hn]
              · simp [he, hn] at h
        · simp only [h4, if_false] at h ⊢
          by_cases h5 : actionName request = some "GENERATE_NEWSLETTER"
          · simp only [h5, if_true] at h ⊢
            cases he : executeGenerateNewsletter env context (request.get "params") with
            | none => exact ⟨rfl, rfl⟩
            | some result => simp [he] at h
          · simp [h5]

/-- For a directive of one of the five actions, no action is executed exactly
when the handler throws, or, for `VIEW_CUSTOMER`, when reading
`params.email` after it throws. -/
theorem runAction_not_executed_iff (env : Env) (context : Context) (store : Store)
    (answer : String) (request : Json) (name : String)
    (hname : actionName request = some name) (hrec : name ∈ recognizedActions) :
    (runAction env context store answer request).1.actionExecuted = false ↔
      isNullish (request.get "params") = true ∨
      (name = "BLOCK_DATE" ∧
        (dateParam env (((request.get "params").getD .null).get "date") = none ∨
          reasonParam env
            (valueOr (((request.get "params").getD .null).get "reason")
              "Blocked via AI Assistant") = none)) ∨
      (name = "UPDATE_SERVICE_PRICE" ∧
        (castParam env env.castPrice (((request.get "params").getD .null).get "price") = none ∨
          castParam env env.castInteger
            (((request.get "params").getD .null).get "service_id") = none)) ∨
      (name = "VIEW_CUSTOMER" ∧ context.all_customers ≠ [] ∧
        ∀ email, ((request.get "params").getD .null).get "email" ≠ some (.str email)) := by
  simp only [recognizedActions, List.mem_cons, List.mem_singleton, List.not_mem_nil,
    or_false] at hrec
  by_cases hnull : isNullish (request.get "params") = true
  · simp only [hnull, true_or, iff_true]
    have hb : executeBlockDate env store (request.get "params") = none :=
      (executeBlockDate_eq_none_iff env store _).mpr (Or.inl hnull)
    have hu : executeUpdateServicePrice env store (request.get "params") = none :=
      (executeUpdateServicePrice_eq_none_iff env store _).mpr (Or.inl hnull)
    have hr : executeGenerateReport context (request.get "params") = none :=
      (executeGenerateReport_eq_none_iff context _).mpr hnull
    have hn : executeGenerateNewsletter env context (request.get "params") = none :=
      (executeGenerateNewsletter_eq_none_iff env context _).mpr hnull
    unfold runAction
    simp only [hb, hu, hr, hn, hnull, if_true]
    split_ifs
    · rfl
    · rfl
    · rfl
    · cases hv : executeViewCustomer env context (request.get "params") with
      | none => rfl
      | some result =>
        cases result with
        | customer c =>
          cases c with
          | some found =>
            have : executeViewCustomer env context (request.get "params") =
                some (.customer none) ∨
                executeViewCustomer env context (request.get "params") = none := by
              unfold executeViewCustomer
              split
              · exact Or.inl rfl
              · right
                split <;> simp_all [isNullish]
            rcases this with h | h <;> rw [h] at hv <;> simp at hv
          | none => rfl
        | _ => rfl
    · rfl
    · rfl
  · have hnf : isNullish (request.get "params") = false := by simpa using hnull
    obtain ⟨params, hp, _⟩ := isNullish_eq_false hnf
    simp only [hnf, Bool.false_eq_true, false_or]
    rcases hrec with rfl | rfl | rfl | rfl | rfl
    · have hiff := executeBlockDate_eq_none_iff env store (request.get "params")
      simp only [hnf, Bool.false_eq_true, false_or] at hiff
      simp only [true_and, reduceCtorEq, String.reduceEq, false_and, or_false]
      rw [← hiff]
      unfold runAction
      simp only [hname, if_true]
      cases he : executeBlockDate env store (request.get "params") with
      | none => simp
      | some r => simp [hp]
    · have hiff := executeUpdateServicePrice_eq_none_iff env store (request.get "params")
      simp only [hnf, Bool.false_eq_true, false_or] at hiff
      simp only [true_and, String.reduceEq, false_and, or_false, false_or]
      rw [← hiff]
      unfold runAction
      simp only [hname, Option.some.injEq, String.reduceEq, if_false, if_true]
      cases he : executeUpdateServicePrice env store (request.get "params") with
      | none => simp
      | some r => simp [hp]
    · have hiff := executeGenerateReport_eq_none_iff context (request.get "params")
      simp only [hnf, Bool.false_eq_true, iff_false] at hiff
      simp only [String.reduceEq, false_and, or_false]
      unfold runAction
      simp only [hname, Option.some.injEq, String.reduceEq, if_false, if_true]
      cases he : executeGenerateReport context (request.get "params") with
      | none => exact absurd he hiff
      | some r => simp [hp]
    · have hiff := executeViewCustomer_eq_none_iff env context (request.get "params")
      simp only [hnf, Bool.false_eq_true, false_or] at hiff
      simp only [String.reduceEq, false_and, true_and, false_or]
      rw [← hiff]
      unfold runAction
      simp only [hname, Option.some.injEq, String.reduceEq, if_false, if_true]
      cases he : executeViewCustomer env context (request.get "params") with
      | none => simp
      | some result =>
        cases result with
        | customer c =>
          cases c with
          | some found => simp
          | none => simp [hnf]
        | _ => simp [hnf]
    · have hiff := executeGenerateNewsletter_eq_none_iff env context (request.get "params")
      simp only [hnf, Bool.false_eq_true, iff_false] at hiff
      simp only [String.reduceEq, false_and, or_false]
      unfold runAction
      simp only [hname, Option.some.injEq, String.reduceEq, if_false, if_true]
      cases he : executeGenerateNewsletter env context (request.get "params") with
      | none => exact absurd he hiff
      | some r => simp

/-- C17, as stated, fails: the text `{"action":"UPDATE_SERVICE_PRICE","params":{}}`
matches the pattern and is a directive whose params lack `service_id` and
`price`, yet the dispatch executes the action and answers with the text of a
successful price update. -/
theorem not_every_malformed_directive_is_plain :
    ¬ (∀ (env : Env) (context : Context) (store : Store) (stdout : String)
        (matched : List Char),
        actionMatch (jsTrim stdout).data = some matched →
        (jsonParse (String.mk matched) = none ∨
          ∃ request, jsonParse (String.mk matched) = some request ∧
            ParamsMissingOrMalformed request) →
        (dispatch env context store stdout).1.answer = jsTrim stdout ∧
          (dispatch env context store stdout).1.actionExecuted = false) := by
  intro h
  have h2 := (h sampleEnv sampleContext seededStore updateWithoutFields
    updateWithoutFields.data (by decide)
    (Or.inr ⟨.obj [("action", .str "UPDATE_SERVICE_PRICE"), ("params", .obj [])], rfl,
      Or.inr ⟨"UPDATE_SERVICE_PRICE", "service_id", rfl, by decide, rfl⟩⟩)).2
  exact absurd h2 (by decide)

/-- C17, amended: when the action pattern matches the generated text, the
request is always answered with the success-shaped response, and the dispatch
returns the trimmed generated text with `actionExecuted = false` and the store
unchanged when the matched text is not valid JSON and, for a directive of one
of the five actions, exactly when its params are absent or null, or it is a
`BLOCK_DATE` directive whose `params.date` is absent, null, a boolean, an
array, an object or a text the store rejects as a date, or whose reason the
store rejects for its column of 255 characters, or an
`UPDATE_SERVICE_PRICE` directive whose price or service id the store rejects,
or a `VIEW_CUSTOMER` directive whose `params.email` is not a string while the
context has a customer.  Every other directive of the five actions is
executed, whatever fields its params lack. -/
theorem malformed_directive_is_plain_iff_handler_throws (env : Env) (context : Context)
    (store : Store) (stdout : String) (matched : List Char)
    (hmatch : actionMatch (jsTrim stdout).data = some matched) :
    (jsonParse (String.mk matched) = none →
      dispatch env context store stdout =
        ({ answer := jsTrim stdout, actionExecuted := false, actionResult := none }, store)) ∧
    (∀ request name, jsonParse (String.mk matched) = some request →
      actionName request = some name → name ∈ recognizedActions →
      ((dispatch env context store stdout).1.actionExecuted = false ↔
        isNullish (request.get "params") = true ∨
        (name = "BLOCK_DATE" ∧
          (dateParam env (((request.get "params").getD .null).get "date") = none ∨
            reasonParam env
              (valueOr (((request.get "params").getD .null).get "reason")
                "Blocked via AI Assistant") = none)) ∨
        (name = "UPDATE_SERVICE_PRICE" ∧
          (castParam env env.castPrice
              (((request.get "params").getD .null).get "price") = none ∨
            castParam env env.castInteger
              (((request.get "params").getD .null).get "service_id") = none)) ∨
        (name = "VIEW_CUSTOMER" ∧ context.all_customers ≠ [] ∧
          ∀ email, ((request.get "params").getD .null).get "email" ≠ some (.str email)))) ∧
    ((dispatch env context store stdout).1.actionExecuted = false →
      (dispatch env context store stdout).1.answer = jsTrim stdout ∧
        (dispatch env context store stdout).2 = store) ∧
    (∀ (digest : String) (question : Option String), truthy question = true →
      env.runGemini (geminiCommand env.apiKey (buildPrompt digest (question.getD ""))) =
        some stdout →
      aiAssistant env (some context) digest store question =
        (.answered (question.getD "") (dispatch env context store stdout).1,
          (dispatch env context store stdout).2)) := by
  refine ⟨?_, ?_, ?_, ?_⟩
  · intro hnone
    have hd : directiveOf stdout = none := by
      simp [directiveOf, hmatch, hnone]
    exact dispatch_of_no_directive env context store hd
  · intro request name hsome hname hrec
    have hd : directiveOf stdout = some request := by
      simp [directiveOf, hmatch, hsome]
    rw [dispatch_of_directive env context store hd]
    exact runAction_not_executed_iff env context store _ request name hname hrec
  · intro hexec
    cases hd : directiveOf stdout with
    | none =>
      rw [dispatch_of_no_directive env context store hd]
      exact ⟨rfl, rfl⟩
    | some request =>
      rw [dispatch_of_directive env context store hd] at hexec ⊢
      exact runAction_not_executed env context store _ request hexec
  · intro digest question hq hrun
    exact aiAssistant_answered env context digest store question stdout hq hrun

/-- Witness of amended C17: a `BLOCK_DATE` directive whose date is the text
`tomorrow`, an `UPDATE_SERVICE_PRICE` directive whose price is the text
`free`, a `VIEW_CUSTOMER` directive without email in a context with a
customer, the directive `{"action":"BLOCK_DATE"}` without params, and the
text `{"action": BLOCK_DATE}` that is not valid JSON: none is executed.  The
`UPDATE_SERVICE_PRICE` directive without fields is. -/
theorem malformed_directive_is_plain_iff_handler_throws_witness :
    (dispatch sampleEnv sampleContext seededStore blockTomorrow).1.actionExecuted = false ∧
    (dispatch sampleEnv sampleContext seededStore blockWithoutParams).1.actionExecuted =
      false ∧
    (dispatch sampleEnv sampleContext seededStore updateWithRejectedPrice).1.actionExecuted =
      false ∧
    (dispatch sampleEnv contextWithCustomer seededStore viewWithoutEmail).1.actionExecuted =
      false ∧
    dispatch sampleEnv sampleContext seededStore "\x7b\x22action\x22: BLOCK_DATE\x7d" =
      ({ answer := "\x7b\x22action\x22: BLOCK_DATE\x7d", actionExecuted := false,
         actionResult := none }, seededStore) ∧
    (dispatch sampleEnv sampleContext seededStore updateWithoutFields).1.actionExecuted ≠
      false :=
  ⟨((malformed_directive_is_plain_iff_handler_throws sampleEnv sampleContext seededStore
      blockTomorrow blockTomorrow.data (by decide)).2.1
      (.obj [("action", .str "BLOCK_DATE"), ("params", .obj [("date", .str "tomorrow")])])
      "BLOCK_DATE" rfl rfl (by decide)).mpr (Or.inr (Or.inl ⟨rfl, Or.inl rfl⟩)),
    ((malformed_directive_is_plain_iff_handler_throws sampleEnv sampleContext seededStore
      blockWithoutParams blockWithoutParams.data (by decide)).2.1
      (.obj [("action", .str "BLOCK_DATE")]) "BLOCK_DATE" rfl rfl (by decide)).mpr
      (Or.inl rfl),
    ((malformed_directive_is_plain_iff_handler_throws sampleEnv sampleContext seededStore
      updateWithRejectedPrice updateWithRejectedPrice.data (by decide)).2.1
      (.obj [("action", .str "UPDATE_SERVICE_PRICE"),
        ("params", .obj [("service_id", .num { mantissa := 1, exponent := 0 }),
          ("price", .str "free")])])
      "UPDATE_SERVICE_PRICE" rfl rfl (by decide)).mpr
      (Or.inr (Or.inr (Or.inl ⟨rfl, Or.inl rfl⟩))),
    ((malformed_directive_is_plain_iff_handler_throws sampleEnv contextWithCustomer seededStore
      viewWithoutEmail viewWithoutEmail.data (by decide)).2.1
      (.obj [("action", .str "VIEW_CUSTOMER"), ("params", .obj [])])
      "VIEW_CUSTOMER" rfl rfl (by decide)).mpr
      (Or.inr (Or.inr (Or.inr ⟨rfl, by decide, fun email h => by simp [Json.get] at h⟩))),
    ((malformed_directive_is_plain_iff_handler_throws sampleEnv sampleContext seededStore
      "\x7b\x22action\x22: BLOCK_DATE\x7d" "\x7b\x22action\x22: BLOCK_DATE\x7d".data
      (by decide)).1 rfl).trans
      (congrArg
        (fun a : String =>
          (({ answer := a, actionExecuted := false, actionResult := none } : AssistantReply),
            seededStore))
        (by decide)),
    fun h =>
      absurd
        (((malformed_directive_is_plain_iff_handler_throws sampleEnv sampleContext seededStore
          updateWithoutFields updateWithoutFields.data (by decide)).2.1
          (.obj [("action", .str "UPDATE_SERVICE_PRICE"), ("params", .obj [])])
          "UPDATE_SERVICE_PRICE" rfl rfl (by decide)).mp h)
        (by
          intro hcases
          rcases hcases with h1 | ⟨h1, _⟩ | ⟨_, h1 | h1⟩ | ⟨h1, _⟩
          · exact absurd h1 (by decide)
          · exact absurd h1 (by decide)
          · exact absurd h1 (by decide)
          · exact absurd h1 (by decide)
          · exact absurd h1 (by decide))⟩

theorem executeBlockDate_store (env : Env) (store store2 : Store) (params : Option Json)
    (result : ActionResult) (h : executeBlockDate env store params = some (result, store2)) :
    store2 = store ∨
    ∃ row, (∀ r ∈ store.blocked_dates, r.date ≠ row.date) ∧
      store2 = { store with blocked_dates := store.blocked_dates ++ [row] } := by
  unfold executeBlockDate at h
  split at h
  · simp at h
  · simp at h
  · split at h
    · split_ifs at h with hany
      · simp only [Option.some.injEq, Prod.mk.injEq] at h
        exact Or.inl h.2.symm
      · simp only [Option.some.injEq, Prod.mk.injEq] at h
        refine Or.inr ⟨⟨_, _⟩, ?_, h.2.symm⟩
        intro r hr heq
        apply hany
        rw [List.any_eq_true]
        exact ⟨r, hr, by simpa using heq⟩
    · simp at h

theorem executeUpdateServicePrice_store (env : Env) (store store2 : Store)
    (params : Option Json) (result : ActionResult)
    (h : executeUpdateServicePrice env store params = some (result, store2)) :
    ∃ service_id price,
      castParam env env.castInteger ((params.getD .null).get "service_id") = some service_id ∧
      store2 = { store with
        services := store.services.map
          (fun s => if some s.id = service_id then { s with price := price } else s) } := by
  unfold executeUpdateServicePrice at h
  split at h
  · simp at h
  · simp at h
  · rename_i p _ _
    split at h
    · rename_i price service_id hprice hid
      simp only [Option.some.injEq, Prod.mk.injEq] at h
      exact ⟨service_id, price, hid, h.2.symm⟩
    · simp at h

theorem runAction_store (env : Env) (context : Context) (store : Store) (answer : String)
    (request : Json) :
    (runAction env context store answer request).2 = store ∨
    (actionName request = some "BLOCK_DATE" ∧
      ∃ row, (∀ r ∈ store.blocked_dates, r.date ≠ row.date) ∧
        (runAction env context store answer request).2 =
          { store with blocked_dates := store.blocked_dates ++ [row] }) ∨
    (actionName request = some "UPDATE_SERVICE_PRICE" ∧
      ∃ service_id price,
        castParam env env.castInteger (((request.get "params").getD .null).get "service_id") =
          some service_id ∧
        (runAction env context store answer request).2 =
          { store with
            services := store.services.map
              (fun s => if some s.id = service_id then { s with price := price } else s) }) := by
  unfold runAction
  by_cases h1 : actionName request = some "BLOCK_DATE"
  · simp only [h1, if_true]
    cases he : executeBlockDate env store (request.get "params") with
    | none => exact Or.inl rfl
    | some p =>
      obtain ⟨result, store2⟩ := p
      cases hp : request.get "params" with
      | none => exact Or.inl rfl
      | some params =>
        rcases executeBlockDate_store env store store2 _ result he with hs | ⟨row, hfresh, hs⟩
        · exact Or.inl hs
        · exact Or.inr (Or.inl ⟨trivial, row, hfresh, hs⟩)
  · simp only [h1, if_false]
    by_cases h2 : actionName request = some "UPDATE_SERVICE_PRICE"
    · simp only [h2, if_true]
      cases he : executeUpdateServicePrice env store (request.get "params") with
      | none => exact Or.inl rfl
      | some p =>
        obtain ⟨result, store2⟩ := p
        cases hp : request.get "params" with
        | none => exact Or.inl rfl
        | some params =>
          obtain ⟨service_id, price, hid, hs⟩ :=
            executeUpdateServicePrice_store env store store2 _ result he
          rw [hp] at hid
          exact Or.inr (Or.inr ⟨trivial, service_id, price, hid, hs⟩)
    · simp only [h2, if_false]
      left
      by_cases h3 : actionName request = some "GENERATE_REPORT"
      · simp only [h3, if_true]
        cases executeGenerateReport context (request.get "params") with
        | none => rfl
        | some result =>
          cases request.get "params" with
          | none => rfl
          | some params => rfl
      · simp only [h3, if_false]
        by_cases h4 : actionName request = some "VIEW_CUSTOMER"
        · simp only [h4, if_true]
          cases executeViewCustomer env context (request.get "params") with
          | none => rfl
          | some result =>
            cases result with
            | customer c =>
              cases c with
              | some found => rfl
              | none => simp only []; split_ifs <;> rfl
            | _ => simp only []; split_ifs <;> rfl
        · simp only [h4, if_false]
          by_cases h5 : actionName request = some "GENERATE_NEWSLETTER"
          · simp only [h5, if_true]
            cases executeGenerateNewsletter env context (request.get "params") with
            | none => rfl
            | some result => rfl
          · simp only [h5, if_false]

/-- C18: the store after a dispatch has the bookings, business hours and
booking sequence of the store before it, and is that store itself, or that
store with one blocked date appended, for a date it did not hold, by a
directive whose action is `BLOCK_DATE`, or that store with the price replaced
in the services whose id the store reads from `params.service_id`, by a
directive whose action is `UPDATE_SERVICE_PRICE`; it is the store itself when
the directive has another action or when there is no directive.  So at most
one handler changes the store, and only its own table. -/
theorem dispatch_changes_only_what_one_handler_may (env : Env) (context : Context)
    (store : Store) (stdout : String) :
    (dispatch env context store stdout).2.bookings = store.bookings ∧
    (dispatch env context store stdout).2.business_hours = store.business_hours ∧
    (dispatch env context store stdout).2.next_booking_id = store.next_booking_id ∧
    ((dispatch env context store stdout).2 = store ∨
      (∃ request row, directiveOf stdout = some request ∧
        actionName request = some "BLOCK_DATE" ∧
        (∀ r ∈ store.blocked_dates, r.date ≠ row.date) ∧
        (dispatch env context store stdout).2 =
          { store with blocked_dates := store.blocked_dates ++ [row] }) ∨
      (∃ request service_id price, directiveOf stdout = some request ∧
        actionName request = some "UPDATE_SERVICE_PRICE" ∧
        castParam env env.castInteger (((request.get "params").getD .null).get "service_id") =
          some service_id ∧
        (dispatch env context store stdout).2 =
          { store with
            services := store.services.map
              (fun s => if some s.id = service_id then { s with price := price } else s) })) ∧
    (∀ request, directiveOf stdout = some request →
      actionName request ≠ some "BLOCK_DATE" →
      actionName request ≠ some "UPDATE_SERVICE_PRICE" →
      (dispatch env context store stdout).2 = store) ∧
    (directiveOf stdout = none → (dispatch env context store stdout).2 = store) := by
  have hmain : (dispatch env context store stdout).2 = store ∨
      (∃ request row, directiveOf stdout = some request ∧
        actionName request = some "BLOCK_DATE" ∧
        (∀ r ∈ store.blocked_dates, r.date ≠ row.date) ∧
        (dispatch env context store stdout).2 =
          { store with blocked_dates := store.blocked_dates ++ [row] }) ∨
      (∃ request service_id price, directiveOf stdout = some request ∧
        actionName request = some "UPDATE_SERVICE_PRICE" ∧
        castParam env env.castInteger (((request.get "params").getD .null).get "service_id") =
          some service_id ∧
        (dispatch env context store stdout).2 =
          { store with
            services := store.services.map
              (fun s => if some s.id = service_id then { s with price := price } else s) }) := by
    cases hd : directiveOf stdout with
    | none =>
      rw [dispatch_of_no_directive env context store hd]
      exact Or.inl rfl
    | some request =>
      rw [dispatch_of_directive env context store hd]
      rcases runAction_store env context store (jsTrim stdout) request with
        h | ⟨hname, row, hfresh, h⟩ | ⟨hname, service_id, price, hid, h⟩
      · exact Or.inl h
      · exact Or.inr (Or.inl ⟨request, row, rfl, hname, hfresh, h⟩)
      · exact Or.inr (Or.inr ⟨request, service_id, price, rfl, hname, hid, h⟩)
  refine ⟨?_, ?_, ?_, hmain, ?_, ?_⟩
  · rcases hmain with h | ⟨_, _, _, _, _, h⟩ | ⟨_, _, _, _, _, _, h⟩ <;> rw [h]
  · rcases hmain with h | ⟨_, _, _, _, _, h⟩ | ⟨_, _, _, _, _, _, h⟩ <;> rw [h]
  · rcases hmain with h | ⟨_, _, _, _, _, h⟩ | ⟨_, _, _, _, _, _, h⟩ <;> rw [h]
  · intro request hd hb hu
    rcases hmain with h | ⟨r2, _, hd2, hname, _, _⟩ | ⟨r2, _, _, hd2, hname, _, _⟩
    · exact h
    · rw [hd] at hd2
      cases hd2
      exact absurd hname hb
    · rw [hd] at hd2
      cases hd2
      exact absurd hname hu
  · intro hd
    rw [dispatch_of_no_directive env context store hd]

/-- Witness of C18: the unknown action `DELETE_ALL` and a text without
directive leave the seeded store as it is. -/
theorem dispatch_changes_only_what_one_handler_may_witness :
    (dispatch sampleEnv sampleContext seededStore deleteAll).2 = seededStore ∧
    (dispatch sampleEnv sampleContext seededStore "No action needed.").2 = seededStore :=
  ⟨(dispatch_changes_only_what_one_handler_may sampleEnv sampleContext seededStore
      deleteAll).2.2.2.2.1 (.obj [("action", .str "DELETE_ALL"), ("params", .obj [])]) rfl
      (by decide) (by decide),
    (dispatch_changes_only_what_one_handler_may sampleEnv sampleContext seededStore
      "No action needed.").2.2.2.2.2 rfl⟩

/-! ## The claim on quote escaping -/

theorem escapeQuotes_append (a b : List Char) :
    escapeQuotes (a ++ b) = escapeQuotes a ++ escapeQuotes b := by
  induction a with
  | nil => rfl
  | cons c rest ih =>
    by_cases hc : c = dquote
    · simp [escapeQuotes, hc, ih]
    · simp [escapeQuotes, hc, ih]

theorem quotesNeutralisedFrom_after_quote (x y : List Char) :
    ∀ oddRun, quotesNeutralisedFrom oddRun (x ++ dquote :: y) = true →
      quotesNeutralisedFrom false y = true := by
  induction x with
  | nil =>
    intro oddRun h
    simp only [List.nil_append, quotesNeutralisedFrom, if_true, Bool.and_eq_true] at h
    exact h.2
  | cons c rest ih =>
    intro oddRun h
    simp only [List.cons_append, quotesNeutralisedFrom] at h
    split_ifs at h with h1 h2
    · simp only [Bool.and_eq_true] at h
      exact ih false h.2
    · exact ih _ h
    · exact ih _ h

theorem escapeQuotes_neutralised (text : List Char) (h : ∀ c ∈ text, c ≠ backslash) :
    quotesNeutralised (escapeQuotes text) = true := by
  unfold quotesNeutralised
  induction text with
  | nil => rfl
  | cons c rest ih =>
    have hrest := ih (fun x hx => h x (List.mem_cons_of_mem _ hx))
    have hc : c ≠ backslash := h c (List.mem_cons_self _ _)
    by_cases hq : c = dquote
    · have hbq : backslash ≠ dquote := by decide
      simp [escapeQuotes, hq, quotesNeutralisedFrom, hbq, hrest]
    · simp [escapeQuotes, hq, quotesNeutralisedFrom, hc, hrest]

theorem escapeQuotes_backslash_quote (a tail : List Char) :
    quotesNeutralised (escapeQuotes (a ++ dquote :: backslash :: dquote :: tail)) = false := by
  have hbq : backslash ≠ dquote := by decide
  have hesc : escapeQuotes (a ++ dquote :: backslash :: dquote :: tail) =
      (escapeQuotes a ++ [backslash]) ++
        dquote :: (backslash :: backslash :: dquote :: escapeQuotes tail) := by
    rw [escapeQuotes_append]
    simp only [escapeQuotes, hbq, if_true, if_false, List.append_assoc, List.cons_append,
      List.nil_append]
  cases hres : quotesNeutralised (escapeQuotes (a ++ dquote :: backslash :: dquote :: tail)) with
  | false => rfl
  | true =>
    unfold quotesNeutralised at hres
    rw [hesc] at hres
    have hbad := quotesNeutralisedFrom_after_quote _ _ false hres
    simp [quotesNeutralisedFrom, hbq] at hbad

/-- C19 (fails on the code): for the question made of a backslash followed by
a double quote, whatever the context digest, the escaped prompt has a double
quote preceded by two backslashes: that quote ends the quoted argument of the
command line.  Only the quotes are escaped, not the backslashes. -/
theorem escaped_prompt_has_unneutralised_quote (digest : String) :
    escapeQuotes "\x5c\x22".data = [backslash, backslash, dquote] ∧
    quotesNeutralised (escapeQuotes (buildPrompt digest "\x5c\x22").data) = false := by
  refine ⟨by decide, ?_⟩
  have hlit : "The business owner is asking you: \x22".data =
      "The business owner is asking you: ".data ++ [dquote] := by decide
  have hq : "\x5c\x22".data = [backslash, dquote] := by decide
  have hdata : (buildPrompt digest "\x5c\x22").data =
      (digest.data ++ "The business owner is asking you: ".data) ++
        dquote :: backslash :: dquote :: promptTail.data := by
    unfold buildPrompt
    rw [String.data_append, String.data_append, String.data_append, hlit, hq]
    simp only [List.append_assoc, List.cons_append, List.nil_append]
  rw [hdata]
  exact escapeQuotes_backslash_quote _ _

/-! ## Lemmas on the booking handler between its queries -/

/-- A run of the handler that no other request interleaves with is `createBooking`. -/
theorem runSchedule_alone (input : ColumnInput) (store : Store) (req other : BookingRequest)
    (phase : BookingPhase) :
    runSchedule input req other [false, false, false] store .received phase =
      (.responded (createBooking input store req).1, phase,
        (createBooking input store req).2) := by
  have hidle : ∀ (st : Store) (r : BookingResponse),
      bookingStep input st req (.responded r) = (.responded r, st) := fun _ _ => rfl
  simp only [runSchedule]
  cases hids : req.service_ids with
  | none =>
    have e1 : bookingStep input store req .received = (.responded .missingFields, store) := by
      simp [bookingStep, hids]
    simp [e1, hidle, createBooking, hids]
  | some ids =>
    cases hd : req.booking_date with
    | none =>
      have e1 : bookingStep input store req .received = (.responded .missingFields, store) := by
        simp [bookingStep, hids, hd]
      simp [e1, hidle, createBooking, hids, hd]
    | some d =>
      cases ht : req.booking_time with
      | none =>
        have e1 : bookingStep input store req .received = (.responded .missingFields, store) := by
          simp [bookingStep, hids, hd, ht]
        simp [e1, hidle, createBooking, hids, hd, ht]
      | some t =>
        by_cases h1 : (!truthy req.customer_name || !truthy req.customer_email ||
            !truthy req.customer_phone || decide (d = "") || decide (t = "")) = true
        · have e1 : bookingStep input store req .received =
              (.responded .missingFields, store) := by
            simp only [bookingStep, hids, hd, ht, if_pos h1]
          have e0 : createBooking input store req = (.missingFields, store) := by
            simp only [createBooking, hids, hd, ht, if_pos h1]
          simp only [e1, hidle, e0]
        · by_cases h2 : (queryServices store ids).isEmpty = true
          · have e1 : bookingStep input store req .received =
                (.responded .invalidSelection, store) := by
              simp only [bookingStep, hids, hd, ht, if_neg h1, if_pos h2]
            have e0 : createBooking input store req = (.invalidSelection, store) := by
              simp only [createBooking, hids, hd, ht, if_neg h1, if_pos h2]
            simp only [e1, hidle, e0]
          · have e1 : bookingStep input store req .received =
                (.priced ids d t (totalDuration (queryServices store ids))
                  (totalPrice (queryServices store ids)), store) := by
              simp only [bookingStep, hids, hd, ht, if_neg h1, if_neg h2]
            simp only [e1]
            cases hq : queryConflicts input store d t with
            | none =>
              have e2 : bookingStep input store req
                  (.priced ids d t (totalDuration (queryServices store ids))
                    (totalPrice (queryServices store ids))) = (.responded .failed, store) := by
                simp only [bookingStep, hq]
              have e0 : createBooking input store req = (.failed, store) := by
                simp only [createBooking, hids, hd, ht, if_neg h1, if_neg h2, hq]
              simp only [e2, hidle, e0]
            | some conflicts =>
              by_cases hc : conflicts.length > 0
              · have e2 : bookingStep input store req
                    (.priced ids d t (totalDuration (queryServices store ids))
                      (totalPrice (queryServices store ids))) =
                    (.responded .slotTaken, store) := by
                  simp only [bookingStep, hq, if_pos hc]
                have e0 : createBooking input store req = (.slotTaken, store) := by
                  simp only [createBooking, hids, hd, ht, if_neg h1, if_neg h2, hq, if_pos hc]
                simp only [e2, hidle, e0]
              · have e2 : bookingStep input store req
                    (.priced ids d t (totalDuration (queryServices store ids))
                      (totalPrice (queryServices store ids))) =
                    (.cleared ids d t (totalDuration (queryServices store ids))
                      (totalPrice (queryServices store ids)), store) := by
                  simp only [bookingStep, hq, if_neg hc]
                simp only [e2]
                cases hdc : dateColumn input d <;> cases htc : timeColumn input t <;>
                  simp only [bookingStep, createBooking, hids, hd, ht, if_neg h1, if_neg h2, hq,
                    if_neg hc, hdc, htc]

/-- Whatever the store and the two complete requests with a known service for
the same free date and time are, both are answered with a created booking
when both conflict checks run before the first insert. -/
theorem interleaved_checks_both_pass (input : ColumnInput) (store : Store)
    (first second : BookingRequest) (ids1 ids2 : List Int) (date time day clock : String)
    (hreq1 : RequiredFieldsPresent first) (hreq2 : RequiredFieldsPresent second)
    (hids1 : first.service_ids = some ids1) (hids2 : second.service_ids = some ids2)
    (hknown1 : (queryServices store ids1).isEmpty = false)
    (hknown2 : (queryServices store ids2).isEmpty = false)
    (hdate1 : first.booking_date = some date) (htime1 : first.booking_time = some time)
    (hdate2 : second.booking_date = some date) (htime2 : second.booking_time = some time)
    (hday : dateColumn input date = some day) (hclock : timeColumn input time = some clock)
    (hfree : queryConflicts input store date time = some []) :
    ∃ a b store2,
      runSchedule input first second [false, true, false, true, false, true] store
        .received .received = (.responded (.created a), .responded (.created b), store2) ∧
      store2.bookings = store.bookings ++ [a, b] ∧
      a.booking_date = day ∧ b.booking_date = day ∧
      a.booking_time = clock ∧ b.booking_time = clock ∧
      a.status = "confirmed" ∧ b.status = "confirmed" := by
  obtain ⟨n1, e1, p1, _, d1, t1⟩ := hreq1
  obtain ⟨n2, e2, p2, _, d2, t2⟩ := hreq2
  rw [hdate1] at d1
  rw [htime1] at t1
  have hd : ¬ date = "" := by simpa [truthy] using d1
  have ht : ¬ time = "" := by simpa [truthy] using t1
  simp only [runSchedule, bookingStep, hids1, hids2, hdate1, hdate2, htime1, htime2, n1, e1, p1,
    n2, e2, p2, hd, ht, hknown1, hknown2, hfree, hday, hclock, List.length_nil, gt_iff_lt,
    lt_self_iff_false, if_false, Bool.not_true, Bool.or_false, Bool.false_eq_true, decide_False,
    Bool.or_self]
  exact ⟨_, _, _, rfl, by simp, rfl, rfl, rfl, rfl, rfl, rfl⟩

/-! ## Claim on concurrent submissions -/

/-- C21, as stated, fails: two complete requests for 2024-12-25 at 10:00, a
free slot of the seeded store, whose handlers run their queries in turn
(services, services, conflict check, conflict check, insert, insert), are
both answered with a created booking, and the store then holds two confirmed
bookings of that date and time.  When the first handler finishes before the
second starts its conflict check, the second is refused. -/
theorem interleaved_submissions_both_succeed (input : ColumnInput) :
    queryConflicts input seededStore "2024-12-25" "10:00" = some [] ∧
    runSchedule input (sampleRequest [1] "2024-12-25" "10:00")
        (secondRequest [1] "2024-12-25" "10:00")
        [false, true, false, true, false, true] seededStore .received .received =
      (.responded (.created (sampleBooking "10:00:00" 120 "confirmed")),
        .responded (.created secondBooking),
        { seededStore with
          bookings := [sampleBooking "10:00:00" 120 "confirmed", secondBooking]
          next_booking_id := 3 }) ∧
    doubleBookings [sampleBooking "10:00:00" 120 "confirmed", secondBooking] = [secondBooking] ∧
    (sampleBooking "10:00:00" 120 "confirmed").booking_date = secondBooking.booking_date ∧
    (sampleBooking "10:00:00" 120 "confirmed").booking_time = secondBooking.booking_time ∧
    (sampleBooking "10:00:00" 120 "confirmed").status = "confirmed" ∧
    secondBooking.status = "confirmed" ∧
    runSchedule input (sampleRequest [1] "2024-12-25" "10:00")
        (secondRequest [1] "2024-12-25" "10:00")
        [false, false, false, true, true, true] seededStore .received .received =
      (.responded (.created (sampleBooking "10:00:00" 120 "confirmed")),
        .responded .slotTaken,
        { seededStore with
          bookings := [sampleBooking "10:00:00" 120 "confirmed"]
          next_booking_id := 2 }) := by
  refine ⟨rfl, rfl, by decide, rfl, rfl, rfl, rfl, rfl⟩

/-! ## Claims on the time texts of the read path and the write path -/

/-- C22, as stated, fails on the `TIME` column of `booking_time`.  The booking
of service 1 on 2024-12-25 at 10:00 on the seeded store leaves a row whose
time reads `10:00:00`.  On that store the availability handler returns the
slot `10:00` with `available = true`, because the texts `10:00` and `10:00:00`
differ, while a complete request with a known service for 2024-12-25 at 10:00
is refused with `Time slot no longer available`, because the store compares
times of day.  The slots are the same when the business hours read
`09:00:00` and `17:00:00`, as their `TIME` columns give them. -/
theorem available_slot_is_refused_on_time_column (input : ColumnInput) :
    (createBooking input seededStore (sampleRequest [1] "2024-12-25" "10:00")).2 =
      bookedStore ∧
    availabilityHandler 0 bookedStore "2024-12-25" =
      .open "2024-12-25" (generateSlots "09:00" "17:00" (queryBookingsOn bookedStore "2024-12-25")) ∧
    ({ time := "10:00", available := true } : Slot) ∈
      generateSlots "09:00" "17:00" (queryBookingsOn bookedStore "2024-12-25") ∧
    RequiredFieldsPresent (secondRequest [1] "2024-12-25" "10:00") ∧
    (∃ sv ∈ bookedStore.services, sv.id = 1) ∧
    createBooking input bookedStore (secondRequest [1] "2024-12-25" "10:00") =
      (.slotTaken, bookedStore) ∧
    generateSlots "09:00:00" "17:00:00" (queryBookingsOn bookedStore "2024-12-25") =
      generateSlots "09:00" "17:00" (queryBookingsOn bookedStore "2024-12-25") := by
  refine ⟨rfl, by decide, by decide, by decide, by decide, rfl, by decide⟩

/-- C23: the collision check of the availability handler is equality of
texts, and no slot text equals a text of the form `HH:MM:SS`.  So on every
response with slots, a slot is unavailable exactly when a non-cancelled
booking of the date has the slot text as its time text, and such a booking
is never one with a time text `HH:MM:SS`; when every booking of the date has
a time text of that form, every slot is available; and a booking at
`10:00:00` leaves the slot `10:00` of the same hour and minute available. -/
theorem seconds_form_booking_marks_no_slot (tz : Int) (store : Store) (date d : String)
    (slots : List Slot) (hopen : availabilityHandler tz store date = .open d slots) :
    (∀ s ∈ slots, ∀ b ∈ store.bookings, HasSecondsForm b.booking_time →
      s.time ≠ b.booking_time) ∧
    (∀ s ∈ slots, (s.available = false ↔
      ∃ b ∈ store.bookings, b.booking_date = date ∧ b.status ≠ "cancelled" ∧
        b.booking_time = s.time ∧ ¬ HasSecondsForm b.booking_time)) ∧
    ((∀ b ∈ store.bookings, b.booking_date = date → b.status ≠ "cancelled" →
        HasSecondsForm b.booking_time) →
      ∀ s ∈ slots, s.available = true) ∧
    HasSecondsForm "10:00:00" ∧
    (availabilityHandler 0 bookedStore "2024-12-25").slotList =
      (availabilityHandler 0 seededStore "2024-12-25").slotList ∧
    ({ time := "10:00", available := true } : Slot) ∈
      (availabilityHandler 0 bookedStore "2024-12-25").slotList := by
  obtain ⟨_, o, c, _, rfl⟩ := availabilityHandler_eq_open hopen
  have htext : ∀ s ∈ generateSlots o c (queryBookingsOn store date), ∀ t, HasSecondsForm t →
      s.time ≠ t := by
    intro s hs t ht
    simp only [generateSlots] at hs
    split at hs
    · obtain ⟨h, m, _, _, _, _, _, rfl⟩ := mem_hourLoop _ _ hs
      exact timeSlot_ne_of_secondsForm h m ht
    · simp at hs
  have hiff : ∀ s ∈ generateSlots o c (queryBookingsOn store date), (s.available = false ↔
      ∃ b ∈ store.bookings, b.booking_date = date ∧ b.status ≠ "cancelled" ∧
        b.booking_time = s.time ∧ ¬ HasSecondsForm b.booking_time) := by
    intro s hs
    rw [generateSlots_available hs, isAvailable_eq_false_iff]
    constructor
    · rintro ⟨b, hb, hbt⟩
      simp only [queryBookingsOn, List.mem_filter, decide_eq_true_eq] at hb
      exact ⟨b, hb.1, hb.2.1, hb.2.2, hbt, fun hform => htext s hs _ hform hbt.symm⟩
    · rintro ⟨b, hb, hbd, hbs, hbt, _⟩
      refine ⟨b, ?_, hbt⟩
      simp only [queryBookingsOn, List.mem_filter, decide_eq_true_eq]
      exact ⟨hb, hbd, hbs⟩
  refine ⟨fun s hs b _ hform => htext s hs _ hform, hiff, ?_, ⟨10, 0, 0, by decide, by decide,
    by decide, by decide⟩, by decide, by decide⟩
  intro hall s hs
  cases hav : s.available with
  | true => rfl
  | false =>
    obtain ⟨b, hb, hbd, hbs, _, hnot⟩ := (hiff s hs).mp hav
    exact absurd (hall b hb hbd hbs) hnot

/-- Witness of C23: the seeded store with a confirmed booking on 2024-12-25
whose time text is `10:00:00`. -/
theorem seconds_form_booking_marks_no_slot_witness :
    availabilityHandler 0 bookedStore "2024-12-25" =
      .open "2024-12-25" (generateSlots "09:00" "17:00" (queryBookingsOn bookedStore "2024-12-25")) ∧
    ∀ s ∈ generateSlots "09:00" "17:00" (queryBookingsOn bookedStore "2024-12-25"),
      s.available = true :=
  ⟨by decide,
    (seconds_form_booking_marks_no_slot 0 bookedStore "2024-12-25" "2024-12-25"
      (generateSlots "09:00" "17:00" (queryBookingsOn bookedStore "2024-12-25"))
      (by decide)).2.2.1
      (fun b hb _ _ => by
        have hbe : b = sampleBooking "10:00:00" 120 "confirmed" := by
          simpa [bookedStore] using hb
        rw [hbe]
        exact ⟨10, 0, 0, by decide, by decide, by decide, by decide⟩)⟩

/-! ## Claims on failing and idle action handlers -/

/-- C24: when the directive names one of the five actions and the handler of
that action throws (for `BLOCK_DATE` a failure other than the uniqueness
violation, for `UPDATE_SERVICE_PRICE` any failure), the dispatcher leaves the
store as it is and answers with the trimmed generated text,
`actionExecuted = false` and `actionResult = null`; and the endpoint sends
these fields in its success response, not an error response. -/
theorem thrown_handler_gives_plain_answer (env : Env) (context : Context) (store : Store)
    (stdout : String) (request : Json) (hdir : directiveOf stdout = some request)
    (hthrow :
      (actionName request = some "BLOCK_DATE" ∧
        executeBlockDate env store (request.get "params") = none) ∨
      (actionName request = some "UPDATE_SERVICE_PRICE" ∧
        executeUpdateServicePrice env store (request.get "params") = none) ∨
      (actionName request = some "GENERATE_REPORT" ∧
        executeGenerateReport context (request.get "params") = none) ∨
      (actionName request = some "VIEW_CUSTOMER" ∧
        executeViewCustomer env context (request.get "params") = none) ∨
      (actionName request = some "GENERATE_NEWSLETTER" ∧
        executeGenerateNewsletter env context (request.get "params") = none)) :
    dispatch env context store stdout =
      ({ answer := jsTrim stdout, actionExecuted := false, actionResult := none }, store) ∧
    ∀ (digest : String) (question : Option String), truthy question = true →
      env.runGemini (geminiCommand env.apiKey (buildPrompt digest (question.getD ""))) =
        some stdout →
      aiAssistant env (some context) digest store question =
        (.answered (question.getD "")
          { answer := jsTrim stdout, actionExecuted := false, actionResult := none }, store) := by
  have hplain : dispatch env context store stdout =
      ({ answer := jsTrim stdout, actionExecuted := false, actionResult := none }, store) := by
    rw [dispatch_of_directive env context store hdir]
    rcases hthrow with ⟨hn, hx⟩ | ⟨hn, hx⟩ | ⟨hn, hx⟩ | ⟨hn, hx⟩ | ⟨hn, hx⟩ <;>
      simp [runAction, hn, hx]
  refine ⟨hplain, ?_⟩
  intro digest question hq hrun
  rw [aiAssistant_answered env context digest store question stdout hq hrun, hplain]

/-- Witness of C24: a `BLOCK_DATE` directive without date, which the store
refuses for the `NOT NULL` column, and an `UPDATE_SERVICE_PRICE` directive
with the price `free`, which the store refuses as a number. -/
theorem thrown_handler_gives_plain_answer_witness :
    (executeBlockDate sampleEnv seededStore (some (.obj [])) = none ∧
      dispatch sampleEnv sampleContext seededStore blockWithoutDate =
        ({ answer := blockWithoutDate, actionExecuted := false, actionResult := none },
          seededStore)) ∧
    (executeUpdateServicePrice sampleEnv seededStore
        (some (.obj [("service_id", .num { mantissa := 1, exponent := 0 }),
          ("price", .str "free")])) = none ∧
      dispatch sampleEnv sampleContext seededStore updateWithRejectedPrice =
        ({ answer := updateWithRejectedPrice, actionExecuted := false, actionResult := none },
          seededStore)) :=
  ⟨⟨rfl,
      (thrown_handler_gives_plain_answer sampleEnv sampleContext seededStore blockWithoutDate
        (.obj [("action", .str "BLOCK_DATE"), ("params", .obj [])]) rfl
        (Or.inl ⟨rfl, rfl⟩)).1⟩,
    ⟨rfl,
      (thrown_handler_gives_plain_answer sampleEnv sampleContext seededStore
        updateWithRejectedPrice
        (.obj [("action", .str "UPDATE_SERVICE_PRICE"),
          ("params", .obj [("service_id", .num { mantissa := 1, exponent := 0 }),
            ("price", .str "free")])]) rfl
        (Or.inr (Or.inl ⟨rfl, rfl⟩))).1⟩⟩

theorem map_price_of_no_match (services : List Service) (service_id price : Option Int)
    (hnone : ∀ s ∈ services, some s.id ≠ service_id) :
    services.map (fun s => if some s.id = service_id then { s with price := price } else s) =
      services ∧
    services.filter (fun s => some s.id = service_id) = [] := by
  constructor
  · induction services with
    | nil => rfl
    | cons s rest ih =>
      simp only [List.map_cons, if_neg (hnone s (List.mem_cons_self _ _))]
      rw [ih (fun x hx => hnone x (List.mem_cons_of_mem _ hx))]
  · rw [List.filter_eq_nil_iff]
    intro s hs
    simpa using hnone s hs

/-- C25, as stated, fails: the directive
`{"action":"UPDATE_SERVICE_PRICE","params":{"service_id":99,"price":"free"}}`
names a service id that matches no service of the seeded store, yet the
store rejects its price, the handler throws, and the dispatch executes no
action and answers with the generated text. -/
theorem not_every_unknown_service_update_is_executed :
    ¬ (∀ (env : Env) (context : Context) (store : Store) (stdout : String) (request : Json)
        (service_id : Option Int),
        directiveOf stdout = some request →
        actionName request = some "UPDATE_SERVICE_PRICE" →
        castParam env env.castInteger
          (((request.get "params").getD .null).get "service_id") = some service_id →
        (∀ s ∈ store.services, some s.id ≠ service_id) →
        (dispatch env context store stdout).1.actionExecuted = true) := by
  intro h
  have h2 := h sampleEnv sampleContext seededStore updateUnknownServiceRejectedPrice
    (.obj [("action", .str "UPDATE_SERVICE_PRICE"),
      ("params", .obj [("service_id", .num { mantissa := 99, exponent := 0 }),
        ("price", .str "free")])])
    (some 99) rfl rfl rfl (by decide)
  exact absurd h2 (by decide)

/-- C25, amended: for an `UPDATE_SERVICE_PRICE` directive whose params the store
accepts and whose `service_id` is the id of no service, the handler
`executeUpdateServicePrice` leaves the store unchanged and returns
`success = true` without service and without error; the dispatcher answers
with the text of a successful update, naming the service `undefined` when the
context has no service of that id either, and with `actionExecuted = true`. -/
theorem update_of_unknown_service_reports_success (env : Env) (context : Context)
    (store : Store) (stdout : String) (request params : Json) (price service_id : Option Int)
    (hdir : directiveOf stdout = some request)
    (hname : actionName request = some "UPDATE_SERVICE_PRICE")
    (hparams : request.get "params" = some params) (hnull : isNullish (some params) = false)
    (hprice : castParam env env.castPrice (params.get "price") = some price)
    (hid : castParam env env.castInteger (params.get "service_id") = some service_id)
    (hnone : ∀ s ∈ store.services, some s.id ≠ service_id) :
    executeUpdateServicePrice env store (some params) = some (.priceUpdated none, store) ∧
    (ActionResult.priceUpdated none).success = true ∧
    (ActionResult.priceUpdated none).error = none ∧
    dispatch env context store stdout =
      ({ answer :=
           updatePriceAnswer
             (context.services.find? (fun s => strictEqualsInt s.id (params.get "service_id")))
             params,
         actionExecuted := true, actionResult := some (.priceUpdated none) }, store) ∧
    ((∀ s ∈ context.services, strictEqualsInt s.id (params.get "service_id") = false) →
      (dispatch env context store stdout).1.answer = updatePriceAnswer none params) := by
  have hexec : executeUpdateServicePrice env store (some params) =
      some (.priceUpdated none, store) := by
    obtain ⟨hmap, hfilter⟩ := map_price_of_no_match store.services service_id price hnone
    cases params with
    | null => simp [isNullish] at hnull
    | bool b => simp only [executeUpdateServicePrice, hprice, hid, hmap, hfilter]; rfl
    | num n => simp only [executeUpdateServicePrice, hprice, hid, hmap, hfilter]; rfl
    | str t => simp only [executeUpdateServicePrice, hprice, hid, hmap, hfilter]; rfl
    | arr xs => simp only [executeUpdateServicePrice, hprice, hid, hmap, hfilter]; rfl
    | obj fields => simp only [executeUpdateServicePrice, hprice, hid, hmap, hfilter]; rfl
  have hdispatch : dispatch env context store stdout =
      ({ answer :=
           updatePriceAnswer
             (context.services.find? (fun s => strictEqualsInt s.id (params.get "service_id")))
             params,
         actionExecuted := true, actionResult := some (.priceUpdated none) }, store) := by
    rw [dispatch_of_directive env context store hdir]
    have hne : ¬ ("UPDATE_SERVICE_PRICE" = "BLOCK_DATE") := by decide
    simp [runAction, hname, hparams, hexec, hne]
  refine ⟨hexec, rfl, rfl, hdispatch, ?_⟩
  intro hctx
  rw [hdispatch]
  have hfind : context.services.find?
      (fun s => strictEqualsInt s.id (params.get "service_id")) = none := by
    rw [List.find?_eq_none]
    intro s hs
    simp [hctx s hs]
  simp only [hfind]

/-- Witness of amended C25: the price of service 99, which the seeded store does not
have, is set to 175 dollars. -/
theorem update_of_unknown_service_reports_success_witness :
    directiveOf updateUnknownService =
      some (.obj [("action", .str "UPDATE_SERVICE_PRICE"),
        ("params", updateUnknownServiceParams)]) ∧
    (∀ s ∈ seededStore.services, some s.id ≠ some 99) ∧
    executeUpdateServicePrice sampleEnv seededStore (some updateUnknownServiceParams) =
      some (.priceUpdated none, seededStore) ∧
    (dispatch sampleEnv sampleContext seededStore updateUnknownService).1.actionExecuted = true ∧
    (dispatch sampleEnv sampleContext seededStore updateUnknownService).1.answer =
      "\u00e2\u0153\u2026 I\x27ve updated the price for \x22undefined\x22 to $175. The change is now live on your booking page." ∧
    (dispatch sampleEnv sampleContext seededStore updateUnknownService).2 = seededStore :=
  have h := update_of_unknown_service_reports_success sampleEnv sampleContext seededStore
    updateUnknownService
    (.obj [("action", .str "UPDATE_SERVICE_PRICE"), ("params", updateUnknownServiceParams)])
    updateUnknownServiceParams (some 17500) (some 99) rfl rfl rfl rfl rfl rfl (by decide)
  ⟨rfl, by decide, h.1, by rw [h.2.2.2.1], by rw [h.2.2.2.1]; decide, by rw [h.2.2.2.1]⟩

end FluidDetailing
